import Mathlib

/-!
# Claim adjudication engine of ginja-ai

A shallow embedding of `internal/services/claim_service.go`, of the member,
procedure and claim persistence it calls (`internal/domain`), and of
`appDB.InTransaction` (`internal/db/db.go`).

Conventions of the embedding:

* `float64` amounts are rationals (`ℚ`), `int64` identifiers are `Int`.
  `claimService.submitClaimInTx` computes on the amounts exactly;
  `F64.claimService.submitClaimInTx` rounds the difference and the sum of a
  call to the nearest `float64`, as the Go code does, and the two agree when
  both operations are exact. What is stated about the value of a difference
  or of a sum is stated on the latter.
* A Go result `(value, error)` is a tuple whose last component is
  `Option Error`; a pointer result is an `Option`.
* The database is a `Store` of rows. A handle (`SQLOperations`) carries the
  rows its statements see and the list of write statements it has issued.
* Failures of the database are inputs: a `Faults` record says which calls of
  the driver report an error.
* Timestamps (`Touch`, `created_at`, `updated_at`) are not represented: none
  of the statements issued here writes them.
-/

namespace Ginja

/-! ## internal/custom_types -/

/-- `type ClaimStatus string`. -/
abbrev ClaimStatus := String

def ClaimStatusApproved : ClaimStatus := "approved"

def ClaimStatusPartial : ClaimStatus := "partial"

def ClaimStatusRejected : ClaimStatus := "rejected"

/-- Modelled from the spec: `custom_types.SequentialIdentifier` (field `ID`,
method `IsNew`) is not among the sources. The spec has identities "assigned on
creation" and "assigned on persistence", so a record is new exactly while its
`ID` still has the zero value. -/
def SequentialIdentifier.IsNew (ID : Int) : Bool := ID == 0

/-! ## internal/models and internal/dtos -/

structure Member where
  ID : Int
  FullName : String
  IsActive : Bool
  BenefitLimit : ℚ
  UsedAmount : ℚ
deriving DecidableEq

structure Procedure where
  ID : Int
  Code : String
  Description : String
  AverageCost : ℚ
deriving DecidableEq

structure Claim where
  ID : Int
  MemberID : Int
  ProviderID : Int
  ProcedureCode : String
  DiagnosisCode : String
  RequestedAmount : ℚ
  ApprovedAmount : ℚ
  Status : ClaimStatus
  FraudFlag : Bool
  RejectionReason : String
deriving DecidableEq

structure ClaimSubmissionForm where
  MemberID : Int
  ProviderID : Int
  ProcedureCode : String
  DiagnosisCode : String
  RequestedAmount : ℚ
deriving DecidableEq

structure ClaimSubmissionResponse where
  ClaimID : Int
  Status : String
  FraudFlag : Bool
  ApprovedAmount : ℚ
  RejectionReason : String
deriving DecidableEq

/-- The value of `&models.Member{}`. -/
def Member.zero : Member :=
  { ID := 0, FullName := "", IsActive := false, BenefitLimit := 0, UsedAmount := 0 }

/-- The value of `&models.Procedure{}`. -/
def Procedure.zero : Procedure :=
  { ID := 0, Code := "", Description := "", AverageCost := 0 }

/-- The `binding` tags of `dtos.ClaimSubmissionForm`: every field `required`
(not the zero value), the requested amount also `gt=0`. The handler binds the
form before it calls the service. -/
def ClaimSubmissionForm.Bound (form : ClaimSubmissionForm) : Prop :=
  form.MemberID ≠ 0 ∧ form.ProviderID ≠ 0 ∧ form.ProcedureCode ≠ "" ∧
    form.DiagnosisCode ≠ "" ∧ 0 < form.RequestedAmount

/-! ## The database -/

/-- What `database/sql` reports: `sql.ErrNoRows` from `Scan` when the query
has no row, or any other failure of the driver or the server. -/
inductive SqlError
  | ErrNoRows
  | Fault
deriving DecidableEq

/-- The calls made on a transaction. -/
inductive TxCall
  | Begin
  | Rollback
  | Commit
deriving DecidableEq

/-- Errors seen by the services: `apperr.NewDatabaseError(err)` built by the
domain layer, the error of `Begin`, `Rollback` or `Commit` passed on as it is,
or `apperr.NewAuthorization(message)` built by the user service. -/
inductive Error
  | DatabaseError (cause : SqlError)
  | Tx (call : TxCall)
  | Authorization (message : String)
deriving DecidableEq

/-- Which calls of the driver fail. Each field is one kind of call; a call of
that kind reports an error exactly when the field is `true`. -/
structure Faults where
  beginTx : Bool
  memberRead : Bool
  procedureRead : Bool
  memberWrite : Bool
  claimWrite : Bool
  rollbackTx : Bool
  commitTx : Bool
deriving DecidableEq

/-- No call fails. -/
def Faults.none : Faults :=
  { beginTx := false, memberRead := false, procedureRead := false, memberWrite := false,
    claimWrite := false, rollbackTx := false, commitTx := false }

/-- The tables `members`, `procedures` and `claims`, with the sequences that
give `RETURNING id` its value. -/
structure Store where
  members : List Member
  procedures : List Procedure
  claims : List Claim
  memberSeq : Int
  claimSeq : Int
deriving DecidableEq

/-- The write statements of `member_domain.go` and `claim._domain.go`, each
with its arguments in the order of its placeholders. -/
inductive Stmt
  | createMemberSQL (fullName : String) (isActive : Bool) (benefitLimit usedAmount : ℚ)
  | updateMemberSQL (fullName : String) (isActive : Bool) (benefitLimit usedAmount : ℚ)
      (id : Int)
  | createClaimSQL (memberID providerID : Int) (procedureCode diagnosisCode : String)
      (requestedAmount approvedAmount : ℚ) (status : ClaimStatus) (fraudFlag : Bool)
      (rejectionReason : String)
  | updateClaimSQL (memberID providerID : Int) (procedureCode diagnosisCode : String)
      (requestedAmount approvedAmount : ℚ) (status : ClaimStatus) (fraudFlag : Bool)
      (rejectionReason : String) (id : Int)
  | deleteClaimSQL (id : Int)
deriving DecidableEq

/-- Run one write statement on the rows. The second component is the value of
`RETURNING id` for an `INSERT`, and `0` for an `UPDATE` or a `DELETE`. An
`UPDATE` rewrites every row whose `id` matches and leaves the others as they
are; a `DELETE` removes every row whose `id` matches. -/
def Store.exec (s : Store) : Stmt → Store × Int
  | .createMemberSQL fullName isActive benefitLimit usedAmount =>
    let row : Member :=
      { ID := s.memberSeq
        FullName := fullName
        IsActive := isActive
        BenefitLimit := benefitLimit
        UsedAmount := usedAmount }
    ({ s with members := s.members ++ [row], memberSeq := s.memberSeq + 1 }, s.memberSeq)
  | .updateMemberSQL fullName isActive benefitLimit usedAmount id =>
    let set : Member → Member := fun m =>
      if m.ID = id then
        { m with
          FullName := fullName
          IsActive := isActive
          BenefitLimit := benefitLimit
          UsedAmount := usedAmount }
      else m
    ({ s with members := s.members.map set }, 0)
  | .createClaimSQL memberID providerID procedureCode diagnosisCode requestedAmount
      approvedAmount status fraudFlag rejectionReason =>
    let row : Claim :=
      { ID := s.claimSeq
        MemberID := memberID
        ProviderID := providerID
        ProcedureCode := procedureCode
        DiagnosisCode := diagnosisCode
        RequestedAmount := requestedAmount
        ApprovedAmount := approvedAmount
        Status := status
        FraudFlag := fraudFlag
        RejectionReason := rejectionReason }
    ({ s with claims := s.claims ++ [row], claimSeq := s.claimSeq + 1 }, s.claimSeq)
  | .updateClaimSQL memberID providerID procedureCode diagnosisCode requestedAmount
      approvedAmount status fraudFlag rejectionReason id =>
    let set : Claim → Claim := fun c =>
      if c.ID = id then
        { c with
          MemberID := memberID
          ProviderID := providerID
          ProcedureCode := procedureCode
          DiagnosisCode := diagnosisCode
          RequestedAmount := requestedAmount
          ApprovedAmount := approvedAmount
          Status := status
          FraudFlag := fraudFlag
          RejectionReason := rejectionReason }
      else c
    ({ s with claims := s.claims.map set }, 0)
  | .deleteClaimSQL id =>
    ({ s with claims := s.claims.filter (fun c => c.ID != id) }, 0)

/-- A handle on which statements run (`db.SQLOperations`): the rows its
statements see, and the write statements issued through it so far. -/
structure SQLOperations where
  view : Store
  writes : List Stmt
deriving DecidableEq

/-- A write statement through a handle (`ExecContext`, or `QueryRowContext`
of an `INSERT ... RETURNING id`). -/
def SQLOperations.run (ops : SQLOperations) (st : Stmt) : SQLOperations × Int :=
  ({ view := (ops.view.exec st).1, writes := ops.writes ++ [st] }, (ops.view.exec st).2)

/-- The row of `getMemberByIDSQL` as `Scan` delivers it: the first row with
that `id`, `sql.ErrNoRows` when there is none, a fault when the call fails. -/
def queryRowMemberByID (fl : Faults) (ops : SQLOperations) (id : Int) :
    Except SqlError Member :=
  if fl.memberRead then .error .Fault
  else
    match ops.view.members.find? (fun m => m.ID == id) with
    | some m => .ok m
    | none => .error .ErrNoRows

/-- The row of `getProcedureByCodeSQL` as `Scan` delivers it. -/
def queryRowProcedureByCode (fl : Faults) (ops : SQLOperations) (code : String) :
    Except SqlError Procedure :=
  if fl.procedureRead then .error .Fault
  else
    match ops.view.procedures.find? (fun p => p.Code == code) with
    | some p => .ok p
    | none => .error .ErrNoRows

/-! ## internal/domain -/

/-- `memberDomain.scanRow`: on any error of `Scan` a pointer to an empty
member and a database error, else the member and `nil`. -/
def memberDomain.scanRow (row : Except SqlError Member) : Option Member × Option Error :=
  match row with
  | .error err => (some Member.zero, some (Error.DatabaseError err))
  | .ok member => (some member, none)

/-- `memberDomain.GetMemberByID`. -/
def memberDomain.GetMemberByID (fl : Faults) (ops : SQLOperations) (id : Int) :
    Option Member × Option Error :=
  memberDomain.scanRow (queryRowMemberByID fl ops id)

/-- `memberDomain.CreateMember`: an `INSERT` for a new member, whose `ID` is
then set from `RETURNING id`, an `UPDATE` by `id` otherwise. -/
def memberDomain.CreateMember (fl : Faults) (ops : SQLOperations) (member : Member) :
    SQLOperations × Member × Option Error :=
  if SequentialIdentifier.IsNew member.ID then
    if fl.memberWrite then (ops, member, some (Error.DatabaseError .Fault))
    else
      let r := ops.run (.createMemberSQL member.FullName member.IsActive
        member.BenefitLimit member.UsedAmount)
      (r.1, { member with ID := r.2 }, none)
  else
    if fl.memberWrite then (ops, member, some (Error.DatabaseError .Fault))
    else
      let r := ops.run (.updateMemberSQL member.FullName member.IsActive
        member.BenefitLimit member.UsedAmount member.ID)
      (r.1, member, none)

/-- `procedureDomain.scanRow`. -/
def procedureDomain.scanRow (row : Except SqlError Procedure) :
    Option Procedure × Option Error :=
  match row with
  | .error err => (some Procedure.zero, some (Error.DatabaseError err))
  | .ok procedure => (some procedure, none)

/-- `procedureDomain.GetProcedureByCode`. -/
def procedureDomain.GetProcedureByCode (fl : Faults) (ops : SQLOperations) (code : String) :
    Option Procedure × Option Error :=
  procedureDomain.scanRow (queryRowProcedureByCode fl ops code)

/-- `claimDomain.CreateClaim`: an `INSERT` for a new claim, whose `ID` is then
set from `RETURNING id`, an `UPDATE` by `id` otherwise. -/
def claimDomain.CreateClaim (fl : Faults) (ops : SQLOperations) (claim : Claim) :
    SQLOperations × Claim × Option Error :=
  if SequentialIdentifier.IsNew claim.ID then
    if fl.claimWrite then (ops, claim, some (Error.DatabaseError .Fault))
    else
      let r := ops.run (.createClaimSQL claim.MemberID claim.ProviderID claim.ProcedureCode
        claim.DiagnosisCode claim.RequestedAmount claim.ApprovedAmount claim.Status
        claim.FraudFlag claim.RejectionReason)
      (r.1, { claim with ID := r.2 }, none)
  else
    if fl.claimWrite then (ops, claim, some (Error.DatabaseError .Fault))
    else
      let r := ops.run (.updateClaimSQL claim.MemberID claim.ProviderID claim.ProcedureCode
        claim.DiagnosisCode claim.RequestedAmount claim.ApprovedAmount claim.Status
        claim.FraudFlag claim.RejectionReason claim.ID)
      (r.1, claim, none)

/-! ## internal/db -/

/-- `appDB.InTransaction`. The transaction's statements run on a handle that
starts from the committed rows; `Commit` makes the rows of the handle the
committed ones, `Rollback` (or a `Commit` that fails) leaves the committed
rows as they were. The result is the committed rows, the calls made on the
transaction, what the operation returned beside its error (`none` when it was
never run) and the error of `InTransaction`. -/
def appDB.InTransaction {α : Type} (fl : Faults) (db : Store)
    (operations : SQLOperations → SQLOperations × α × Option Error) :
    Store × List TxCall × Option α × Option Error :=
  if fl.beginTx then (db, [TxCall.Begin], none, some (Error.Tx .Begin))
  else
    match operations { view := db, writes := [] } with
    | (_, a, some err) =>
      if fl.rollbackTx then (db, [TxCall.Begin, TxCall.Rollback], some a, some (Error.Tx .Rollback))
      else (db, [TxCall.Begin, TxCall.Rollback], some a, some err)
    | (tx, a, none) =>
      if fl.commitTx then (db, [TxCall.Begin, TxCall.Commit], some a, some (Error.Tx .Commit))
      else (tx.view, [TxCall.Begin, TxCall.Commit], some a, none)

/-! ## internal/services/claim_service.go -/

/-- Flags a claim when the requested amount exceeds the procedure's average
cost by this factor. -/
def FraudAmountMultiplier : ℚ := 2.0

/-- `claimService.persistRejectedClaim`. -/
def claimService.persistRejectedClaim (fl : Faults) (ops : SQLOperations)
    (form : ClaimSubmissionForm) (reason : String) (fraudFlag : Bool) :
    SQLOperations × Option ClaimSubmissionResponse × Option Error :=
  let claim : Claim :=
    { ID := 0
      MemberID := form.MemberID
      ProviderID := form.ProviderID
      ProcedureCode := form.ProcedureCode
      DiagnosisCode := form.DiagnosisCode
      RequestedAmount := form.RequestedAmount
      ApprovedAmount := 0
      Status := "REJECTED"
      FraudFlag := fraudFlag
      RejectionReason := reason }
  match claimDomain.CreateClaim fl ops claim with
  | (ops1, _, some err) => (ops1, none, some err)
  | (ops1, claim1, none) =>
    (ops1, some
      { ClaimID := claim1.ID
        Status := "REJECTED"
        ApprovedAmount := 0
        RejectionReason := reason
        FraudFlag := fraudFlag }, none)

/-- `claimService.submitClaimInTx`, the amounts taken as exact numbers: the
difference and the sum are not rounded. `F64.claimService.submitClaimInTx` below
is the same function with the rounding of `float64`. -/
def claimService.submitClaimInTx (fl : Faults) (ops : SQLOperations)
    (form : ClaimSubmissionForm) :
    SQLOperations × Option ClaimSubmissionResponse × Option Error :=
  -- validate member eligibility
  match memberDomain.GetMemberByID fl ops form.MemberID with
  | (some member, none) =>
    if !member.IsActive then
      claimService.persistRejectedClaim fl ops form "Member is not active" false
    else
      -- validate procedure exists
      match procedureDomain.GetProcedureByCode fl ops form.ProcedureCode with
      | (some procedure, none) =>
        -- fraud signal
        let fraudFlag : Bool :=
          decide (form.RequestedAmount > procedure.AverageCost * FraudAmountMultiplier)
        -- check remaining benefit
        let remaining := member.BenefitLimit - member.UsedAmount
        if remaining ≤ 0 then
          claimService.persistRejectedClaim fl ops form "Benefit limit exhausted" fraudFlag
        else
          -- determine status and approved amount
          let decided : ClaimStatus × ℚ × String :=
            if form.RequestedAmount ≤ remaining then
              ("APPROVED", form.RequestedAmount, "")
            else
              ("PARTIAL", remaining,
                "Requested amount exceeds remaining benefit; approved up to remaining limit.")
          let status := decided.1
          let approvedAmount := decided.2.1
          let rejectionReason := decided.2.2
          -- update member used amount
          let member1 : Member := { member with UsedAmount := member.UsedAmount + approvedAmount }
          match memberDomain.CreateMember fl ops member1 with
          | (ops1, _, some err) => (ops1, none, some err)
          | (ops1, _, none) =>
            -- persist the claim
            let claim : Claim :=
              { ID := 0
                MemberID := form.MemberID
                ProviderID := form.ProviderID
                ProcedureCode := form.ProcedureCode
                DiagnosisCode := form.DiagnosisCode
                RequestedAmount := form.RequestedAmount
                ApprovedAmount := approvedAmount
                Status := status
                FraudFlag := fraudFlag
                RejectionReason := rejectionReason }
            match claimDomain.CreateClaim fl ops1 claim with
            | (ops2, _, some err) => (ops2, none, some err)
            | (ops2, claim1, none) =>
              (ops2, some
                { ClaimID := claim1.ID
                  Status := status
                  ApprovedAmount := approvedAmount
                  RejectionReason := rejectionReason
                  FraudFlag := fraudFlag }, none)
      | _ =>
        claimService.persistRejectedClaim fl ops form "Invalid or unknown procedure code" false
  | _ => claimService.persistRejectedClaim fl ops form "Member not found" false

/-- `claimService.SubmitClaim`: the committed rows after the call, the calls
made on the transaction, the response and the error. -/
def claimService.SubmitClaim (fl : Faults) (db : Store) (form : ClaimSubmissionForm) :
    Store × List TxCall × Option ClaimSubmissionResponse × Option Error :=
  match appDB.InTransaction fl db (fun ops => claimService.submitClaimInTx fl ops form) with
  | (db1, calls, _, some err) => (db1, calls, none, some err)
  | (db1, calls, result, none) => (db1, calls, result.join, none)

/-! ## Amounts as `float64`

The amounts of the models and of the form are `float64` in the Go code. A
finite `float64` is a rational number, and an operation of the Go code on two
of them gives the exact result rounded to the nearest `float64`, to the one
with the even last digit when it is half-way between two. The definitions
below are that rounding for numbers of magnitude below `2^1024`; the values
`±Inf` and `NaN` are not part of the model. -/

/-- The integer nearest to `x`; when `x` is half-way between two integers,
the even one. -/
def roundHalfEven (x : ℚ) : ℤ :=
  if x - ⌊x⌋ < 1 / 2 then ⌊x⌋
  else if 1 / 2 < x - ⌊x⌋ then ⌊x⌋ + 1
  else if ⌊x⌋ % 2 = 0 then ⌊x⌋
  else ⌊x⌋ + 1

/-- The exponent of the last place of `x` as a `float64`: a `float64` has 53
binary digits, so for `2^k ≤ |x| < 2^(k+1)` its last place is `2^(k-52)`, and
no last place is below `2^(-1074)`. -/
def Float64.ulpExp (x : ℚ) : ℤ := max (Int.log 2 |x| - 52) (-1074)

/-- The `float64` nearest to `x`, ties to even: `x` rounded to a whole number
of last places. -/
def Float64.round (x : ℚ) : ℚ :=
  roundHalfEven (x / 2 ^ Float64.ulpExp x) * 2 ^ Float64.ulpExp x

/-- The Go expression `x - y` on `float64` values. -/
def Float64.sub (x y : ℚ) : ℚ := Float64.round (x - y)

/-- The Go expression `x + y` on `float64` values. -/
def Float64.add (x y : ℚ) : ℚ := Float64.round (x + y)

/-- A whole number of magnitude at most `2^53`; each of them is a
`float64`. -/
def Float64.Whole (x : ℚ) : Prop := x.den = 1 ∧ |x| ≤ 2 ^ 53

instance (x : ℚ) : Decidable (Float64.Whole x) := by
  unfold Float64.Whole
  infer_instance

/-- `claimService.submitClaimInTx` with the amounts as `float64`: the
difference `member.BenefitLimit - member.UsedAmount` and the sum of
`member.UsedAmount += approvedAmount` are rounded as the Go code rounds them.
The two comparisons and the product `procedure.AverageCost *
FraudAmountMultiplier`, a doubling, are exact on `float64` values. -/
def F64.claimService.submitClaimInTx (fl : Faults) (ops : SQLOperations)
    (form : ClaimSubmissionForm) :
    SQLOperations × Option ClaimSubmissionResponse × Option Error :=
  -- validate member eligibility
  match memberDomain.GetMemberByID fl ops form.MemberID with
  | (some member, none) =>
    if !member.IsActive then
      claimService.persistRejectedClaim fl ops form "Member is not active" false
    else
      -- validate procedure exists
      match procedureDomain.GetProcedureByCode fl ops form.ProcedureCode with
      | (some procedure, none) =>
        -- fraud signal
        let fraudFlag : Bool :=
          decide (form.RequestedAmount > procedure.AverageCost * FraudAmountMultiplier)
        -- check remaining benefit
        let remaining := Float64.sub member.BenefitLimit member.UsedAmount
        if remaining ≤ 0 then
          claimService.persistRejectedClaim fl ops form "Benefit limit exhausted" fraudFlag
        else
          -- determine status and approved amount
          let decided : ClaimStatus × ℚ × String :=
            if form.RequestedAmount ≤ remaining then
              ("APPROVED", form.RequestedAmount, "")
            else
              ("PARTIAL", remaining,
                "Requested amount exceeds remaining benefit; approved up to remaining limit.")
          let status := decided.1
          let approvedAmount := decided.2.1
          let rejectionReason := decided.2.2
          -- update member used amount
          let member1 : Member :=
            { member with UsedAmount := Float64.add member.UsedAmount approvedAmount }
          match memberDomain.CreateMember fl ops member1 with
          | (ops1, _, some err) => (ops1, none, some err)
          | (ops1, _, none) =>
            -- persist the claim
            let claim : Claim :=
              { ID := 0
                MemberID := form.MemberID
                ProviderID := form.ProviderID
                ProcedureCode := form.ProcedureCode
                DiagnosisCode := form.DiagnosisCode
                RequestedAmount := form.RequestedAmount
                ApprovedAmount := approvedAmount
                Status := status
                FraudFlag := fraudFlag
                RejectionReason := rejectionReason }
            match claimDomain.CreateClaim fl ops1 claim with
            | (ops2, _, some err) => (ops2, none, some err)
            | (ops2, claim1, none) =>
              (ops2, some
                { ClaimID := claim1.ID
                  Status := status
                  ApprovedAmount := approvedAmount
                  RejectionReason := rejectionReason
                  FraudFlag := fraudFlag }, none)
      | _ =>
        claimService.persistRejectedClaim fl ops form "Invalid or unknown procedure code" false
  | _ => claimService.persistRejectedClaim fl ops form "Member not found" false

/-- `claimService.SubmitClaim` with the amounts as `float64`: the committed
rows after the call, the calls made on the transaction, the response and the
error. -/
def F64.claimService.SubmitClaim (fl : Faults) (db : Store) (form : ClaimSubmissionForm) :
    Store × List TxCall × Option ClaimSubmissionResponse × Option Error :=
  match appDB.InTransaction fl db (fun ops => F64.claimService.submitClaimInTx fl ops form) with
  | (db1, calls, _, some err) => (db1, calls, none, some err)
  | (db1, calls, result, none) => (db1, calls, result.join, none)

/-- Calls of `SubmitClaim` one after another, each returned before the next
begins: the committed rows after the last. -/
def F64.serialRun (db : Store) : List (Faults × ClaimSubmissionForm) → Store
  | [] => db
  | (fl, form) :: calls => F64.serialRun (F64.claimService.SubmitClaim fl db form).1 calls

/-! ## Vocabulary of the statements -/

/-- Every read and write of the store succeeds (a read that finds no row
still reports `sql.ErrNoRows`). -/
def Faults.StoreOK (fl : Faults) : Prop :=
  fl.memberRead = false ∧ fl.procedureRead = false ∧ fl.memberWrite = false ∧
    fl.claimWrite = false

/-- The write statement that `memberDomain.CreateMember` issues for a member:
the `INSERT` for a new one, the `UPDATE` by `id` otherwise. -/
def memberDomain.writeStmt (member : Member) : Stmt :=
  if SequentialIdentifier.IsNew member.ID then
    .createMemberSQL member.FullName member.IsActive member.BenefitLimit member.UsedAmount
  else
    .updateMemberSQL member.FullName member.IsActive member.BenefitLimit member.UsedAmount
      member.ID

/-- The `INSERT` that `claimDomain.CreateClaim` issues for the claim the
service builds from a form (its `ID` still zero). -/
def claimDomain.insertStmt (form : ClaimSubmissionForm) (approvedAmount : ℚ)
    (status : ClaimStatus) (fraudFlag : Bool) (rejectionReason : String) : Stmt :=
  .createClaimSQL form.MemberID form.ProviderID form.ProcedureCode form.DiagnosisCode
    form.RequestedAmount approvedAmount status fraudFlag rejectionReason

/-- The claim row built from a form. -/
def Claim.ofForm (id : Int) (form : ClaimSubmissionForm) (approvedAmount : ℚ)
    (status : ClaimStatus) (fraudFlag : Bool) (rejectionReason : String) : Claim :=
  { ID := id
    MemberID := form.MemberID
    ProviderID := form.ProviderID
    ProcedureCode := form.ProcedureCode
    DiagnosisCode := form.DiagnosisCode
    RequestedAmount := form.RequestedAmount
    ApprovedAmount := approvedAmount
    Status := status
    FraudFlag := fraudFlag
    RejectionReason := rejectionReason }

/-- The member invariant of the data model: `used_amount ≤ benefit_limit` on
every row of `members`. -/
def Store.WithinLimit (s : Store) : Prop :=
  ∀ m ∈ s.members, m.UsedAmount ≤ m.BenefitLimit

/-- The sum of the approved amounts of the claims of one member. -/
def approvedTotal (memberID : Int) (claims : List Claim) : ℚ :=
  ((claims.filter (fun c => c.MemberID == memberID)).map (fun c => c.ApprovedAmount)).sum

/-! ## Sample data -/

/-- A store with one active member `7` (limit 1000) that has used `used`, and
one procedure `P100` of average cost `averageCost`. -/
def sampleStore (used averageCost : ℚ) : Store :=
  { members := [{ ID := 7, FullName := "Amina", IsActive := true, BenefitLimit := 1000,
                    UsedAmount := used }]
    procedures := [{ ID := 1, Code := "P100", Description := "consultation",
                       AverageCost := averageCost }]
    claims := []
    memberSeq := 8
    claimSeq := 1 }

/-- A handle on `sampleStore` with no statement issued yet. -/
def sampleOps (used averageCost : ℚ) : SQLOperations :=
  { view := sampleStore used averageCost, writes := [] }

/-- A submission by member `7` for `P100`. -/
def sampleForm (amount : ℚ) : ClaimSubmissionForm :=
  { MemberID := 7, ProviderID := 3, ProcedureCode := "P100", DiagnosisCode := "D1",
    RequestedAmount := amount }

/-- A submission by member `7` for a procedure code that is in no row. -/
def unknownCodeForm (amount : ℚ) : ClaimSubmissionForm :=
  { MemberID := 7, ProviderID := 3, ProcedureCode := "X999", DiagnosisCode := "D1",
    RequestedAmount := amount }

/-- A handle on a store whose only member, `7`, is not active. -/
def inactiveOps : SQLOperations :=
  { view :=
      { members := [{ ID := 7, FullName := "Amina", IsActive := false, BenefitLimit := 1000,
                        UsedAmount := 0 }]
        procedures := [{ ID := 1, Code := "P100", Description := "consultation",
                           AverageCost := 100 }]
        claims := []
        memberSeq := 8
        claimSeq := 1 }
    writes := [] }

/-- A submission by a member `99` that is in no row. -/
def strangerForm (amount : ℚ) : ClaimSubmissionForm :=
  { MemberID := 99, ProviderID := 3, ProcedureCode := "P100", DiagnosisCode := "D1",
    RequestedAmount := amount }

/-- Only the member read fails. -/
def memberReadFault : Faults := { Faults.none with memberRead := true }

/-- Only the procedure read fails. -/
def procedureReadFault : Faults := { Faults.none with procedureRead := true }

/-- Apply the write statements of a transaction, in order, to committed rows. -/
def Store.replay (db : Store) (writes : List Stmt) : Store :=
  writes.foldl (fun s st => (s.exec st).1) db

/-- A transaction whose operation has returned `nil` and whose `Commit` has
not run yet: the faults of its call, its write statements, its response. -/
structure OpenTx where
  faults : Faults
  writes : List Stmt
  response : Option ClaimSubmissionResponse

/-- A database that serves several calls of `SubmitClaim`: the committed rows,
the transactions that are open, and the responses returned with a nil error so
far. -/
structure Concurrent where
  committed : Store
  pending : List OpenTx
  returned : List ClaimSubmissionResponse

/-- The events of a schedule: a call begins its transaction and runs its
operation; the `i`-th open transaction commits. -/
inductive Event
  | body (fl : Faults) (form : ClaimSubmissionForm)
  | commit (i : Nat)

/-- One event. A call whose `Begin` or whose operation fails leaves no trace
(its transaction is rolled back); so does a `Commit` that fails. -/
def Concurrent.step (c : Concurrent) : Event → Concurrent
  | .body fl form =>
    if fl.beginTx then c
    else
      match claimService.submitClaimInTx fl { view := c.committed, writes := [] } form with
      | (_, _, some _) => c
      | (tx, result, none) =>
        { c with
          pending := c.pending ++ [{ faults := fl, writes := tx.writes, response := result }] }
  | .commit i =>
    match c.pending.get? i with
    | none => c
    | some t =>
      if t.faults.commitTx then { c with pending := c.pending.eraseIdx i }
      else
        { committed := c.committed.replay t.writes
          pending := c.pending.eraseIdx i
          returned := c.returned ++ t.response.toList }

/-- A schedule, event by event. -/
def Concurrent.run (c : Concurrent) (events : List Event) : Concurrent :=
  events.foldl Concurrent.step c

/-- No transaction open, nothing returned yet. -/
def Concurrent.init (db : Store) : Concurrent :=
  { committed := db, pending := [], returned := [] }

/-- The schedule in which the calls run one after another: each commits
before the next begins. -/
def serial : List (Faults × ClaimSubmissionForm) → List Event
  | [] => []
  | (fl, form) :: calls => Event.body fl form :: Event.commit 0 :: serial calls

/-- Scenario 6: two calls for 600 against member 7 (limit 1000, used 0), both
operations run before either transaction commits. -/
def overlapSchedule : List Event :=
  [Event.body Faults.none (sampleForm 600), Event.body Faults.none (sampleForm 600),
    Event.commit 0, Event.commit 0]

/-- The three values declared for `ClaimStatus` in `claim_status.go`. -/
def ClaimStatus.declared : List ClaimStatus :=
  [ClaimStatusApproved, ClaimStatusPartial, ClaimStatusRejected]

/-- A handle on a store whose only member, `7`, is not active and has used its
whole limit of 1000. -/
def exhaustedInactiveOps : SQLOperations :=
  { view :=
      { members := [{ ID := 7, FullName := "Amina", IsActive := false, BenefitLimit := 1000,
                        UsedAmount := 1000 }]
        procedures := [{ ID := 1, Code := "P100", Description := "consultation",
                           AverageCost := 100 }]
        claims := []
        memberSeq := 8
        claimSeq := 1 }
    writes := [] }

/-- Only the rollback fails. -/
def rollbackFault : Faults := { Faults.none with rollbackTx := true }

/-- An operation for `InTransaction` that issues no statement and returns an
error. -/
def failingOperation (ops : SQLOperations) : SQLOperations × Unit × Option Error :=
  (ops, (), some (Error.DatabaseError SqlError.Fault))

/-- What the caller is told about an outcome besides the identifier of the
claim: status, approved amount, fraud flag and rejection reason. -/
def ClaimSubmissionResponse.decision (resp : ClaimSubmissionResponse) :
    String × ℚ × Bool × String :=
  (resp.Status, resp.ApprovedAmount, resp.FraudFlag, resp.RejectionReason)

/-- Another store with the same member 7 and the same procedure `P100` as
`sampleStore 800 50`, and with further rows, a claim and other sequences. -/
def busyOps : SQLOperations :=
  { view :=
      { members := [{ ID := 7, FullName := "Amina", IsActive := true, BenefitLimit := 1000,
                        UsedAmount := 800 },
                    { ID := 9, FullName := "Baraka", IsActive := true, BenefitLimit := 50,
                        UsedAmount := 10 }]
        procedures := [{ ID := 4, Code := "P200", Description := "x-ray", AverageCost := 900 },
                       { ID := 1, Code := "P100", Description := "consultation",
                           AverageCost := 50 }]
        claims := [Claim.ofForm 41 (sampleForm 10) 10 "APPROVED" false ""]
        memberSeq := 10
        claimSeq := 42 }
    writes := [] }

/-- The caller's deadline as the driver sees it. The statements of a call take
the caller's context (`QueryRowContext`, `ExecContext`) and fail once its
deadline has elapsed; `db.Begin()`, `tx.Commit()` and `tx.Rollback()` take no
context. The statements of `submitClaimInTx` run in the order member read (1),
procedure read (2), member write (3), claim insert (4). `deadlineBefore k` is
the deadline that elapses just before statement `k`, so that statement `k` and
those after it fail; for `k ≥ 5` it elapses after the last statement, before
`Commit`. -/
def Faults.deadlineBefore (k : Nat) : Faults :=
  { beginTx := false
    memberRead := decide (k ≤ 1)
    procedureRead := decide (k ≤ 2)
    memberWrite := decide (k ≤ 3)
    claimWrite := decide (k ≤ 4)
    rollbackTx := false
    commitTx := false }

/-- `claimDomain.DeleteClaim`: `DELETE FROM claims WHERE id = $1` through the
handle. -/
def claimDomain.DeleteClaim (fl : Faults) (ops : SQLOperations) (claimID : Int) :
    SQLOperations × Option Error :=
  if fl.claimWrite then (ops, some (Error.DatabaseError .Fault))
  else ((ops.run (.deleteClaimSQL claimID)).1, none)

/-- `claimService.DeleteClaim`: the domain's `DeleteClaim` on the database
handle itself (`dB`), outside any transaction, so that the statement is
committed as soon as it has run. The result is the committed rows and the
error. -/
def claimService.DeleteClaim (fl : Faults) (db : Store) (claimID : Int) :
    Store × Option Error :=
  let r := claimDomain.DeleteClaim fl { view := db, writes := [] } claimID
  (r.1.view, r.2)

/-- The rows that scenario 1 commits: the member has used 300 and claim 1 is
`APPROVED` for 300. -/
def settledStore : Store :=
  { sampleStore 300 100 with
    claims := [Claim.ofForm 1 (sampleForm 300) 300 "APPROVED" true ""]
    claimSeq := 2 }

/-! ## Users: internal/models/user.go, internal/domain/user_domain.go,
internal/utils/password.go, internal/services/user_service.go -/

/-- `models.User`, without its timestamps. -/
structure User where
  ID : Int
  Username : String
  Email : String
  PasswordHash : String
  IsActive : Bool
deriving DecidableEq

/-- The row of `getUserByUsernameSQL` as `Scan` delivers it: the first row of
`users` with that `username`, `sql.ErrNoRows` when there is none, a fault when
the call fails. -/
def queryRowUserByUsername (userRead : Bool) (users : List User) (username : String) :
    Except SqlError User :=
  if userRead then .error .Fault
  else
    match users.find? (fun u => u.Username == username) with
    | some u => .ok u
    | none => .error .ErrNoRows

/-- `userDomain.scanRow`: on any error of `Scan` a nil user and a database
error, else the user and `nil`. -/
def userDomain.scanRow (row : Except SqlError User) : Option User × Option Error :=
  match row with
  | .error err => (none, some (Error.DatabaseError err))
  | .ok user => (some user, none)

/-- `userDomain.GetUserByUsername`. -/
def userDomain.GetUserByUsername (userRead : Bool) (users : List User) (username : String) :
    Option User × Option Error :=
  userDomain.scanRow (queryRowUserByUsername userRead users username)

/-- `utils.ValidatePassword`: the error of `bcrypt.CompareHashAndPassword` on
the stored hash and the password, `none` for `nil`. The comparison of the
`bcrypt` package is the parameter `compareHashAndPassword`. -/
def utils.ValidatePassword (compareHashAndPassword : String → String → Option String)
    (password hashedPassord : String) : Option String :=
  compareHashAndPassword hashedPassord password

/-- `userService.ValidateCredentials`. -/
def userService.ValidateCredentials (compareHashAndPassword : String → String → Option String)
    (userRead : Bool) (users : List User) (username password : String) :
    Option User × Option Error :=
  match userDomain.GetUserByUsername userRead users username with
  | (_, some _) => (none, some (Error.Authorization "invalid username or password"))
  | (none, none) => (none, some (Error.Authorization "invalid username or password"))
  | (some user, none) =>
    if !user.IsActive then (none, some (Error.Authorization "account is inactive"))
    else
      match utils.ValidatePassword compareHashAndPassword password user.PasswordHash with
      | some _ => (none, some (Error.Authorization "invalid username or password"))
      | none => (some user, none)

/-- A comparison for the samples: the hash of a password is the password
between brackets. -/
def sampleCompare (hashedPassword password : String) : Option String :=
  if hashedPassword = "[" ++ password ++ "]" then none
  else some "hashedPassword is not the hash of the given password"

/-- Two users: `amina` is active, `baraka` is not. -/
def sampleUsers : List User :=
  [ { ID := 1, Username := "amina", Email := "amina@example.org", PasswordHash := "[pw1]",
      IsActive := true },
    { ID := 2, Username := "baraka", Email := "baraka@example.org", PasswordHash := "[pw2]",
      IsActive := false } ]

/-! ## internal/jwt and internal/middleware/auth_middleware.go -/

/-- `jwt.Payload`; the instants are counted in seconds. -/
structure Payload where
  ID : String
  Username : String
  IssuedAt : Int
  ExpiresAt : Int
deriving DecidableEq

/-- What the middleware does with the request. `abort` is
`c.AbortWithStatusJSON(status, gin.H("code": code, "message": message))`
followed by `return`: the handlers after the middleware are not run. `next` is
`c.Set(authPayloadKey, payload)` followed by `c.Next()`: the handlers run, with
the payload on the context. -/
inductive GinOutcome
  | abort (status : Nat) (code message : String)
  | next (payload : Option Payload)
deriving DecidableEq

/-- `http.StatusUnauthorized`. -/
def StatusUnauthorized : Nat := 401

/-- `authorizationBearer`. -/
def authorizationBearer : String := "Bearer"

/-- `unicode.IsSpace` of the Go library: tab, line feed, vertical tab, form
feed, carriage return, space, U+0085, U+00A0, and the other characters with
the property `White_Space`. -/
def unicode.IsSpace (c : Char) : Bool :=
  let r := c.toNat
  (9 ≤ r && r ≤ 13) || r == 32 || r == 0x85 || r == 0xA0 || r == 0x1680 ||
    (0x2000 ≤ r && r ≤ 0x200A) || r == 0x2028 || r == 0x2029 || r == 0x202F ||
    r == 0x205F || r == 0x3000

/-- The fields of the characters that remain, `field` being the characters,
last one first, of the field that is open. -/
def strings.fieldsAux : List Char → List Char → List String
  | [], [] => []
  | [], field => [String.mk field.reverse]
  | c :: cs, field =>
    if unicode.IsSpace c then
      match field with
      | [] => strings.fieldsAux cs []
      | _ => String.mk field.reverse :: strings.fieldsAux cs []
    else strings.fieldsAux cs (c :: field)

/-- `strings.Fields` of the Go library: the maximal runs of characters that
are not white space, in order. -/
def strings.Fields (s : String) : List String :=
  strings.fieldsAux s.data []

/-- `AuthMiddleware(jwtMaker)` on a request whose `Authorization` header is
`header`. `strings.EqualFold` of the Go library is the parameter `EqualFold`,
`jwtMaker.VerifyToken` is the parameter `VerifyToken`, which returns a payload
and an error, the error given by its text. -/
def AuthMiddleware (EqualFold : String → String → Bool)
    (VerifyToken : String → Option Payload × Option String) (header : String) : GinOutcome :=
  if header.isEmpty then
    .abort StatusUnauthorized "MISSING_TOKEN" "authorization header is required"
  else
    match strings.Fields header with
    | [scheme, tokenStr] =>
      if !EqualFold scheme authorizationBearer then
        .abort StatusUnauthorized "INVALID_TOKEN_FORMAT"
          "authorization header must be in format: Bearer <token>"
      else
        match VerifyToken tokenStr with
        | (_, some err) => .abort StatusUnauthorized "INVALID_TOKEN" err
        | (payload, none) => .next payload
    | _ =>
      .abort StatusUnauthorized "INVALID_TOKEN_FORMAT"
        "authorization header must be in format: Bearer <token>"

/-- A comparison for the samples: equality of the characters after
`Char.toLower`, which agrees with `strings.EqualFold` on ASCII strings. -/
def sampleEqualFold (s t : String) : Bool :=
  s.data.map Char.toLower == t.data.map Char.toLower

/-- A verifier for the samples: the token `good` carries the payload of
`amina`, the token `old` has expired, every other token is invalid. -/
def sampleVerifyToken (token : String) : Option Payload × Option String :=
  if token = "good" then
    (some { ID := "t1", Username := "amina", IssuedAt := 100, ExpiresAt := 1000 }, none)
  else if token = "old" then (none, some "token has expired")
  else (none, some "token is invalid")

/-! ## internal/models/filter.go -/

/-- `models.Filter`. The instants are counted in seconds, `null.Bool` is an
optional boolean, and the field `Type` is written `Type_`. -/
structure Filter where
  Page : Int
  Per : Int
  From : String
  To : String
  Token : String
  Term : String
  UUID : String
  Status : Option String
  Type_ : String
  Year : String
  Reference : String
  FromTime : Option Int
  ToTime : Option Int
  Valid : Option Bool
  Active : Option Bool
  CountQuery : Bool
  MemberID : Option String
  ProviderID : Option String
deriving DecidableEq

/-- The zero value of `models.Filter` (`&models.Filter` with no field set). -/
def Filter.zero : Filter :=
  { Page := 0, Per := 0, From := "", To := "", Token := "", Term := "", UUID := "",
    Status := none, Type_ := "", Year := "", Reference := "", FromTime := none, ToTime := none,
    Valid := none, Active := none, CountQuery := false, MemberID := none, ProviderID := none }

/-- `Filter.NoPagination`: a new filter with eleven fields of the receiver;
the other fields, `Page` and `Per` among them, keep their zero value. The
method assigns nothing to its receiver. -/
def Filter.NoPagination (f : Filter) : Filter :=
  { Filter.zero with
    From := f.From
    To := f.To
    Term := f.Term
    UUID := f.UUID
    Status := f.Status
    Type_ := f.Type_
    Token := f.Token
    Valid := f.Valid
    Active := f.Active
    MemberID := f.MemberID
    ProviderID := f.ProviderID }

/-! ## `claimDomain.buildQuery` and the listing of claims -/

/-- Modelled from the spec: the counter of `utils.NewPlaceholder()`, whose
`Touch` yields 1, 2, 3, ... on successive calls. -/
structure Placeholder where
  count : Nat
deriving DecidableEq

/-- Modelled from the spec: a new counter has yielded nothing yet. -/
def utils.NewPlaceholder : Placeholder := { count := 0 }

/-- Modelled from the spec: `Touch` yields the next number; the result is the
counter after the call and the number. -/
def Placeholder.Touch (p : Placeholder) : Placeholder × Nat :=
  ({ count := p.count + 1 }, p.count + 1)

/-- An argument of a query (`interface` values of `args`): a string or an
`int`. -/
inductive Arg
  | str (value : String)
  | int (value : Int)
deriving DecidableEq

/-- The value of an `int` expression of Go, 64 bits wide, whose exact value is
`x`. -/
def wrapInt64 (x : Int) : Int := (x + 2 ^ 63) % 2 ^ 64 - 2 ^ 63

/-- `strings.Join` of the Go library. -/
def strings.Join (elems : List String) (sep : String) : String := sep.intercalate elems

/-- `getClaimsSQL`. -/
def getClaimsSQL : String :=
  "SELECT id, member_id, provider_id, procedure_code, diagnosis_code, requested_amount, approved_amount, status, fraud_flag, rejection_reason, created_at, updated_at FROM claims"

/-- `getClaimsCountSQL`. -/
def getClaimsCountSQL : String := "SELECT COUNT(*) FROM claims"

/-- The loop of `buildQuery` over `textCols`: each column adds one `LIKE`
statement with the next placeholder and one argument, the term. -/
def claimDomain.buildQuery.likeLoop (term : String) :
    List String → Placeholder × List String × List Arg → Placeholder × List String × List Arg
  | [], st => st
  | col :: cols, (counter, likeStatements, args) =>
    let t := counter.Touch
    claimDomain.buildQuery.likeLoop term cols
      (t.1,
        likeStatements ++ [" (LOWER(" ++ col ++ ") LIKE '%' || $" ++ toString t.2 ++ " || '%') "],
        args ++ [Arg.str term])

/-- `claimDomain.buildQuery`. `null.ValueFromNull` and `strings.ToLower` are
the parameters `ValueFromNull` and `ToLower`. -/
def claimDomain.buildQuery (ValueFromNull : Option String → String) (ToLower : String → String)
    (query : String) (filter : Filter) : String × List Arg :=
  let args : List Arg := []
  let conditions : List String := []
  let counter := utils.NewPlaceholder
  let s1 : Placeholder × List Arg × List String :=
    if filter.MemberID.isSome then
      let t := counter.Touch
      (t.1, args ++ [Arg.str (ValueFromNull filter.MemberID)],
        conditions ++ ["member_id = $" ++ toString t.2])
    else (counter, args, conditions)
  let s2 : Placeholder × List Arg × List String :=
    if filter.ProviderID.isSome then
      let t := s1.1.Touch
      (t.1, s1.2.1 ++ [Arg.str (ValueFromNull filter.ProviderID)],
        s1.2.2 ++ ["provider_id = $" ++ toString t.2])
    else s1
  let s3 : Placeholder × List Arg × List String :=
    if filter.Term ≠ "" then
      let textCols := ["procedure_code", "diagnosis_code", "rejection_reason"]
      let term := ToLower filter.Term
      let l := claimDomain.buildQuery.likeLoop term textCols (s2.1, [], s2.2.1)
      (l.1, l.2.2, s2.2.2 ++ [" (" ++ strings.Join l.2.1 " OR " ++ ")"])
    else s2
  let query1 :=
    if s3.2.2.length > 0 then query ++ (" WHERE " ++ strings.Join s3.2.2 " AND ")
    else query
  if filter.Page > 0 ∧ filter.Per > 0 then
    let t1 := s3.1.Touch
    let t2 := t1.1.Touch
    (query1 ++ (" LIMIT $" ++ toString t1.2 ++ " OFFSET $" ++ toString t2.2),
      s3.2.1 ++ [Arg.int filter.Per, Arg.int (wrapInt64 ((filter.Page - 1) * filter.Per))])
  else (query1, s3.2.1)

/-- A filter in which the given parts are present: a member id, a provider
id, a term, a page with its size. -/
def Filter.ofParts (m p t l : Bool) : Filter :=
  { Filter.zero with
    MemberID := if m then some "m" else none
    ProviderID := if p then some "p" else none
    Term := if t then "t" else ""
    Page := if l then 1 else 0
    Per := if l then 1 else 0 }

/-- What `buildQuery` adds to the empty query for a filter with the given
parts. -/
def claimDomain.buildQuery.suffix (m p t l : Bool) : String :=
  (claimDomain.buildQuery (fun _ => "") (fun s => s) "" (Filter.ofParts m p t l)).1

/-- The values bound to the placeholders, in the words of the claim: the
member id, the provider id, the lower-cased term three times, then `Per` and
`(Page-1)*Per`, each present when its part of the filter is. -/
def claimDomain.buildQuery.boundValues (ValueFromNull : Option String → String)
    (ToLower : String → String) (filter : Filter) : List Arg :=
  (if filter.MemberID.isSome then [Arg.str (ValueFromNull filter.MemberID)] else []) ++
  (if filter.ProviderID.isSome then [Arg.str (ValueFromNull filter.ProviderID)] else []) ++
  (if filter.Term ≠ "" then List.replicate 3 (Arg.str (ToLower filter.Term)) else []) ++
  (if filter.Page > 0 ∧ filter.Per > 0 then
    [Arg.int filter.Per, Arg.int (wrapInt64 ((filter.Page - 1) * filter.Per))]
  else [])

/-- The numbers of the placeholders of a text, in order of appearance: a
placeholder is the character `$` (code 36) and the decimal digits that follow
it. The second argument is the number read so far while a placeholder is
open. -/
def placeholdersAux : List Char → Option Nat → List Nat
  | [], none => []
  | [], some n => [n]
  | c :: cs, none =>
    if c.toNat = 36 then placeholdersAux cs (some 0) else placeholdersAux cs none
  | c :: cs, some n =>
    if c.isDigit then placeholdersAux cs (some (10 * n + (c.toNat - 48)))
    else if c.toNat = 36 then n :: placeholdersAux cs (some 0)
    else n :: placeholdersAux cs none

/-- The numbers of the placeholders `$n` of a text, in order of appearance. -/
def placeholders (text : String) : List Nat := placeholdersAux text.data none

/-- `strings.Contains` of the Go library. -/
def strings.Contains (s substr : String) : Bool :=
  s.data.tails.any (fun t => substr.data.isPrefixOf t)

/-- The zero value of `models.Claim`. -/
def Claim.zero : Claim :=
  { ID := 0, MemberID := 0, ProviderID := 0, ProcedureCode := "", DiagnosisCode := "",
    RequestedAmount := 0, ApprovedAmount := 0, Status := "", FraudFlag := false,
    RejectionReason := "" }

/-- What `QueryContext` delivers for a list query: for each row that `Next`
reports, what `Scan` gives, and the value of `rows.Err()`. -/
structure Rows where
  scans : List (Except SqlError Claim)
  err : Option SqlError

/-- `claimDomain.scanRow`: on any error of `Scan` a pointer to an empty claim
and a database error, else the claim and `nil`. -/
def claimDomain.scanRow (row : Except SqlError Claim) : Claim × Option Error :=
  match row with
  | .error err => (Claim.zero, some (Error.DatabaseError err))
  | .ok claim => (claim, none)

/-- The loop of `GetClaims` over the rows: every row is appended to `claims`;
the first row whose scan fails ends the loop with no claim and its error. -/
def claimDomain.GetClaims.scanLoop : List (Except SqlError Claim) → List Claim →
    List Claim × Option Error
  | [], claims => (claims, none)
  | row :: rest, claims =>
    match claimDomain.scanRow row with
    | (_, some err) => ([], some err)
    | (claim, none) => claimDomain.GetClaims.scanLoop rest (claims ++ [claim])

/-- The first two statements of `GetClaims` and of `GetClaimsCount`:
`filter.MemberID = null.NullValue(memberID)` on the caller's filter, then
`buildQuery(sql, filter.NoPagination())`. `null.NullValue` is the parameter
`NullValue`. The result is the caller's filter after the assignment, the query
and its arguments. -/
def claimDomain.listStatement (NullValue : String → Option String)
    (ValueFromNull : Option String → String) (ToLower : String → String) (sql : String)
    (memberID : String) (filter : Filter) : Filter × String × List Arg :=
  let filter1 := { filter with MemberID := NullValue memberID }
  (filter1, claimDomain.buildQuery ValueFromNull ToLower sql filter1.NoPagination)

/-- `claimDomain.GetClaims`, with `QueryContext` of the handle as a parameter.
The result is the caller's filter after the call, the claims and the error. -/
def claimDomain.GetClaims (NullValue : String → Option String)
    (ValueFromNull : Option String → String) (ToLower : String → String)
    (QueryContext : String → List Arg → Except SqlError Rows)
    (memberID : String) (filter : Filter) : Filter × List Claim × Option Error :=
  let st := claimDomain.listStatement NullValue ValueFromNull ToLower getClaimsSQL memberID filter
  match QueryContext st.2.1 st.2.2 with
  | .error err => (st.1, [], some (Error.DatabaseError err))
  | .ok rows =>
    match claimDomain.GetClaims.scanLoop rows.scans [] with
    | (_, some err) => (st.1, [], some err)
    | (claims, none) =>
      match rows.err with
      | some err => (st.1, [], some (Error.DatabaseError err))
      | none => (st.1, claims, none)

/-- `claimDomain.GetClaimsCount`, with `QueryRowContext` of the handle,
followed by `Scan(&count)`, as a parameter. The result is the caller's filter
after the call, the count and the error. -/
def claimDomain.GetClaimsCount (NullValue : String → Option String)
    (ValueFromNull : Option String → String) (ToLower : String → String)
    (QueryRowContext : String → List Arg → Except SqlError Int)
    (memberID : String) (filter : Filter) : Filter × Int × Option Error :=
  let st := claimDomain.listStatement NullValue ValueFromNull ToLower getClaimsCountSQL
    memberID filter
  match QueryRowContext st.2.1 st.2.2 with
  | .error err => (st.1, 0, some (Error.DatabaseError err))
  | .ok count => (st.1, count, none)

/-- `models.ClaimList`, for any type `P` of `Pagination`. -/
structure ClaimList (P : Type) where
  Claims : List Claim
  Pagination : P

/-- `claimService.GetClaims`. `models.NewPagination` and the zero value of
`models.ClaimList` are the parameters `NewPagination` and `emptyClaimList`.
The result is the caller's filter after the call, the list and the error. -/
def claimService.GetClaims {P : Type} (NewPagination : Int → Int → Int → P)
    (emptyClaimList : ClaimList P) (NullValue : String → Option String)
    (ValueFromNull : Option String → String) (ToLower : String → String)
    (QueryContext : String → List Arg → Except SqlError Rows)
    (QueryRowContext : String → List Arg → Except SqlError Int)
    (memberID : String) (filter : Filter) : Filter × Option (ClaimList P) × Option Error :=
  match claimDomain.GetClaims NullValue ValueFromNull ToLower QueryContext memberID filter with
  | (filter1, _, some err) => (filter1, none, some err)
  | (filter1, claims, none) =>
    match claimDomain.GetClaimsCount NullValue ValueFromNull ToLower QueryRowContext memberID
        filter1 with
    | (filter2, _, some err) => (filter2, some emptyClaimList, some err)
    | (filter2, count, none) =>
      (filter2,
        some { Claims := claims, Pagination := NewPagination count filter2.Page filter2.Per },
        none)

/-- A `null.NullValue` for the samples: `nil` for the empty string. -/
def sampleNullValue (value : String) : Option String :=
  if value = "" then none else some value

/-- A `null.ValueFromNull` for the samples: the empty string for `nil`. -/
def sampleValueFromNull (value : Option String) : String := value.getD ""

/-- A `strings.ToLower` for the samples: `Char.toLower` on every character,
which agrees with `strings.ToLower` on ASCII strings. -/
def sampleToLower (s : String) : String := String.mk (s.data.map Char.toLower)

/-- A filter of a caller: page 3 of 20, a term, a provider. -/
def sampleFilter : Filter :=
  { Filter.zero with Page := 3, Per := 20, Term := "Mal", ProviderID := some "3" }

/-- Three claims of member 7 for the samples. -/
def sampleClaims : List Claim :=
  [Claim.ofForm 1 (sampleForm 300) 300 "APPROVED" true "",
    Claim.ofForm 2 (sampleForm 500) 200 "PARTIAL" true
      "Requested amount exceeds remaining benefit; approved up to remaining limit.",
    Claim.ofForm 3 (sampleForm 50) 0 "REJECTED" false "Benefit limit exhausted"]

/-- A `QueryContext` for the samples, on a table that holds `sampleClaims`: a
query with a `LIMIT` gets the first two rows, a query without gets them
all. -/
def sampleQueryContext (query : String) (_ : List Arg) : Except SqlError Rows :=
  if strings.Contains query " LIMIT $" then
    .ok { scans := (sampleClaims.take 2).map Except.ok, err := none }
  else .ok { scans := sampleClaims.map Except.ok, err := none }

/-- A `QueryRowContext` for the samples: the count is 3. -/
def sampleQueryRowContext (_ : String) (_ : List Arg) : Except SqlError Int := .ok 3

/-- A store with one active member `7` with the given limit and used amount,
and one procedure `P100` of average cost 100. -/
def ledgerStore (limit used : ℚ) : Store :=
  { members := [{ ID := 7, FullName := "Amina", IsActive := true, BenefitLimit := limit,
                    UsedAmount := used }]
    procedures := [{ ID := 1, Code := "P100", Description := "consultation",
                       AverageCost := 100 }]
    claims := []
    memberSeq := 8
    claimSeq := 1 }

/-! # Theorems -/

/-! ## The domain layer -/

theorem GetMemberByID_found {fl : Faults} {ops : SQLOperations} {id : Int} {m : Member}
    (hr : fl.memberRead = false)
    (hf : ops.view.members.find? (fun m => m.ID == id) = some m) :
    memberDomain.GetMemberByID fl ops id = (some m, none) := by
  simp [memberDomain.GetMemberByID, queryRowMemberByID, memberDomain.scanRow, hr, hf]

theorem GetMemberByID_fault {fl : Faults} {ops : SQLOperations} {id : Int}
    (hr : fl.memberRead = true) :
    memberDomain.GetMemberByID fl ops id
      = (some Member.zero, some (Error.DatabaseError SqlError.Fault)) := by
  simp [memberDomain.GetMemberByID, queryRowMemberByID, memberDomain.scanRow, hr]

theorem GetMemberByID_missing {fl : Faults} {ops : SQLOperations} {id : Int}
    (hr : fl.memberRead = false)
    (hf : ops.view.members.find? (fun m => m.ID == id) = none) :
    memberDomain.GetMemberByID fl ops id
      = (some Member.zero, some (Error.DatabaseError SqlError.ErrNoRows)) := by
  simp [memberDomain.GetMemberByID, queryRowMemberByID, memberDomain.scanRow, hr, hf]

theorem GetProcedureByCode_found {fl : Faults} {ops : SQLOperations} {code : String}
    {p : Procedure} (hr : fl.procedureRead = false)
    (hf : ops.view.procedures.find? (fun p => p.Code == code) = some p) :
    procedureDomain.GetProcedureByCode fl ops code = (some p, none) := by
  simp [procedureDomain.GetProcedureByCode, queryRowProcedureByCode, procedureDomain.scanRow,
    hr, hf]

theorem GetProcedureByCode_fault {fl : Faults} {ops : SQLOperations} {code : String}
    (hr : fl.procedureRead = true) :
    procedureDomain.GetProcedureByCode fl ops code
      = (some Procedure.zero, some (Error.DatabaseError SqlError.Fault)) := by
  simp [procedureDomain.GetProcedureByCode, queryRowProcedureByCode, procedureDomain.scanRow, hr]

theorem GetProcedureByCode_missing {fl : Faults} {ops : SQLOperations} {code : String}
    (hr : fl.procedureRead = false)
    (hf : ops.view.procedures.find? (fun p => p.Code == code) = none) :
    procedureDomain.GetProcedureByCode fl ops code
      = (some Procedure.zero, some (Error.DatabaseError SqlError.ErrNoRows)) := by
  simp [procedureDomain.GetProcedureByCode, queryRowProcedureByCode, procedureDomain.scanRow,
    hr, hf]

theorem CreateMember_fault {fl : Faults} (ops : SQLOperations) (member : Member)
    (hw : fl.memberWrite = true) :
    memberDomain.CreateMember fl ops member
      = (ops, member, some (Error.DatabaseError SqlError.Fault)) := by
  simp [memberDomain.CreateMember, hw]

theorem CreateMember_ok {fl : Faults} (ops : SQLOperations) (member : Member)
    (hw : fl.memberWrite = false) :
    memberDomain.CreateMember fl ops member
      = ((ops.run (memberDomain.writeStmt member)).1,
          { member with ID := if SequentialIdentifier.IsNew member.ID
              then (ops.run (memberDomain.writeStmt member)).2 else member.ID }, none) := by
  by_cases hn : SequentialIdentifier.IsNew member.ID = true <;>
    simp [memberDomain.CreateMember, memberDomain.writeStmt, hw, hn]

theorem persistRejectedClaim_fault {fl : Faults} (ops : SQLOperations)
    (form : ClaimSubmissionForm) (reason : String) (fraudFlag : Bool)
    (hw : fl.claimWrite = true) :
    claimService.persistRejectedClaim fl ops form reason fraudFlag
      = (ops, none, some (Error.DatabaseError SqlError.Fault)) := by
  simp [claimService.persistRejectedClaim, claimDomain.CreateClaim,
    SequentialIdentifier.IsNew, hw]

theorem persistRejectedClaim_ok {fl : Faults} (ops : SQLOperations)
    (form : ClaimSubmissionForm) (reason : String) (fraudFlag : Bool)
    (hw : fl.claimWrite = false) :
    claimService.persistRejectedClaim fl ops form reason fraudFlag
      = ((ops.run (claimDomain.insertStmt form 0 "REJECTED" fraudFlag reason)).1,
          some { ClaimID := ops.view.claimSeq, Status := "REJECTED", FraudFlag := fraudFlag,
                 ApprovedAmount := 0, RejectionReason := reason }, none) := by
  simp [claimService.persistRejectedClaim, claimDomain.CreateClaim, claimDomain.insertStmt,
    SequentialIdentifier.IsNew, hw, SQLOperations.run, Store.exec]

theorem run_writeStmt_claimSeq (ops : SQLOperations) (member : Member) :
    (ops.run (memberDomain.writeStmt member)).1.view.claimSeq = ops.view.claimSeq := by
  by_cases hn : SequentialIdentifier.IsNew member.ID = true <;>
    simp [memberDomain.writeStmt, hn, SQLOperations.run, Store.exec]

/-- The path of `submitClaimInTx` with the member found, active, the procedure
found and benefit left, in closed form: `approved` is the amount decided. -/
theorem submitClaimInTx_funded {fl : Faults} {ops : SQLOperations}
    {form : ClaimSubmissionForm} {member : Member} {procedure : Procedure}
    (hm : memberDomain.GetMemberByID fl ops form.MemberID = (some member, none))
    (hactive : member.IsActive = true)
    (hp : procedureDomain.GetProcedureByCode fl ops form.ProcedureCode = (some procedure, none))
    (hrem : 0 < member.BenefitLimit - member.UsedAmount)
    (status : ClaimStatus) (approved : ℚ) (reason : String)
    (hd : (if form.RequestedAmount ≤ member.BenefitLimit - member.UsedAmount then
            (("APPROVED", form.RequestedAmount, "") : ClaimStatus × ℚ × String)
          else
            ("PARTIAL", member.BenefitLimit - member.UsedAmount,
              "Requested amount exceeds remaining benefit; approved up to remaining limit."))
          = (status, approved, reason)) :
    claimService.submitClaimInTx fl ops form =
      if fl.memberWrite then (ops, none, some (Error.DatabaseError SqlError.Fault))
      else if fl.claimWrite then
        ((ops.run (memberDomain.writeStmt
            { member with UsedAmount := member.UsedAmount + approved })).1,
          none, some (Error.DatabaseError SqlError.Fault))
      else
        (((ops.run (memberDomain.writeStmt
            { member with UsedAmount := member.UsedAmount + approved })).1.run
            (claimDomain.insertStmt form approved status
              (decide (form.RequestedAmount > procedure.AverageCost * FraudAmountMultiplier))
              reason)).1,
          some
            { ClaimID := ops.view.claimSeq
              Status := status
              FraudFlag :=
                decide (form.RequestedAmount > procedure.AverageCost * FraudAmountMultiplier)
              ApprovedAmount := approved
              RejectionReason := reason },
          none) := by
  have hrem1 : ¬ (member.BenefitLimit - member.UsedAmount ≤ 0) := not_le.mpr hrem
  simp only [claimService.submitClaimInTx, hm, hp, hactive, hrem1, hd]
  by_cases hw : fl.memberWrite = true
  · simp [CreateMember_fault _ _ hw, hw]
  · have hw1 : fl.memberWrite = false := by simpa using hw
    by_cases hc : fl.claimWrite = true
    · simp [CreateMember_ok _ _ hw1, hw1, hc, claimDomain.CreateClaim, SequentialIdentifier.IsNew]
    · have hc1 : fl.claimWrite = false := by simpa using hc
      have hid : ∀ (o : SQLOperations) (a b : Int) (c d : String) (e f : ℚ) (g : ClaimStatus)
          (h : Bool) (i : String),
          (o.run (Stmt.createClaimSQL a b c d e f g h i)).2 = o.view.claimSeq := fun _ _ _ _ _ _ _ _ _ _ => rfl
      simp [CreateMember_ok _ _ hw1, hw1, hc1, claimDomain.CreateClaim, claimDomain.insertStmt,
        SequentialIdentifier.IsNew, run_writeStmt_claimSeq, hid]

theorem Faults.none_StoreOK : Faults.none.StoreOK := ⟨rfl, rfl, rfl, rfl⟩

theorem submitClaimInTx_of_member_err {fl : Faults} {ops : SQLOperations}
    {form : ClaimSubmissionForm} {member : Option Member} {err : Error}
    (hm : memberDomain.GetMemberByID fl ops form.MemberID = (member, some err)) :
    claimService.submitClaimInTx fl ops form
      = claimService.persistRejectedClaim fl ops form "Member not found" false := by
  simp only [claimService.submitClaimInTx, hm]

theorem submitClaimInTx_of_inactive {fl : Faults} {ops : SQLOperations}
    {form : ClaimSubmissionForm} {member : Member}
    (hm : memberDomain.GetMemberByID fl ops form.MemberID = (some member, none))
    (hactive : member.IsActive = false) :
    claimService.submitClaimInTx fl ops form
      = claimService.persistRejectedClaim fl ops form "Member is not active" false := by
  simp [claimService.submitClaimInTx, hm, hactive]

theorem submitClaimInTx_of_procedure_err {fl : Faults} {ops : SQLOperations}
    {form : ClaimSubmissionForm} {member : Member} {procedure : Option Procedure} {err : Error}
    (hm : memberDomain.GetMemberByID fl ops form.MemberID = (some member, none))
    (hactive : member.IsActive = true)
    (hp : procedureDomain.GetProcedureByCode fl ops form.ProcedureCode = (procedure, some err)) :
    claimService.submitClaimInTx fl ops form
      = claimService.persistRejectedClaim fl ops form "Invalid or unknown procedure code"
          false := by
  simp [claimService.submitClaimInTx, hm, hactive, hp]

theorem submitClaimInTx_of_exhausted {fl : Faults} {ops : SQLOperations}
    {form : ClaimSubmissionForm} {member : Member} {procedure : Procedure}
    (hm : memberDomain.GetMemberByID fl ops form.MemberID = (some member, none))
    (hactive : member.IsActive = true)
    (hp : procedureDomain.GetProcedureByCode fl ops form.ProcedureCode = (some procedure, none))
    (hrem : member.BenefitLimit - member.UsedAmount ≤ 0) :
    claimService.submitClaimInTx fl ops form
      = claimService.persistRejectedClaim fl ops form "Benefit limit exhausted"
          (decide (form.RequestedAmount > procedure.AverageCost * FraudAmountMultiplier)) := by
  simp [claimService.submitClaimInTx, hm, hactive, hp, hrem]

/-- The member lookup returns either a member and no error, or the empty
member and an error. -/
theorem GetMemberByID_cases (fl : Faults) (ops : SQLOperations) (id : Int) :
    (∃ member, fl.memberRead = false ∧
        ops.view.members.find? (fun m => m.ID == id) = some member ∧
        memberDomain.GetMemberByID fl ops id = (some member, none)) ∨
      (∃ err, memberDomain.GetMemberByID fl ops id = (some Member.zero, some err)) := by
  by_cases hr : fl.memberRead = true
  · exact Or.inr ⟨_, GetMemberByID_fault hr⟩
  · have hr1 : fl.memberRead = false := by simpa using hr
    cases hf : ops.view.members.find? (fun m => m.ID == id) with
    | none => exact Or.inr ⟨_, GetMemberByID_missing hr1 hf⟩
    | some m => exact Or.inl ⟨m, hr1, rfl, GetMemberByID_found hr1 hf⟩

theorem GetProcedureByCode_cases (fl : Faults) (ops : SQLOperations) (code : String) :
    (∃ procedure, fl.procedureRead = false ∧
        ops.view.procedures.find? (fun p => p.Code == code) = some procedure ∧
        procedureDomain.GetProcedureByCode fl ops code = (some procedure, none)) ∨
      (∃ err, procedureDomain.GetProcedureByCode fl ops code
        = (some Procedure.zero, some err)) := by
  by_cases hr : fl.procedureRead = true
  · exact Or.inr ⟨_, GetProcedureByCode_fault hr⟩
  · have hr1 : fl.procedureRead = false := by simpa using hr
    cases hf : ops.view.procedures.find? (fun p => p.Code == code) with
    | none => exact Or.inr ⟨_, GetProcedureByCode_missing hr1 hf⟩
    | some p => exact Or.inl ⟨p, hr1, rfl, GetProcedureByCode_found hr1 hf⟩


/-! ## The decision of `submitClaimInTx` -/

/-- C1: for every store and every submission whose member exists and is active,
whose procedure code is known and whose requested amount satisfies
`0 < requested ≤ remaining` (the boundary `requested = remaining` included),
`submitClaimInTx` returns, with a nil error, status `APPROVED`, the requested
amount as approved amount and an empty rejection reason. -/
theorem submitClaimInTx_approved (fl : Faults) (ops : SQLOperations)
    (form : ClaimSubmissionForm) (member : Member) (procedure : Procedure)
    (hfl : fl.StoreOK)
    (hm : ops.view.members.find? (fun m => m.ID == form.MemberID) = some member)
    (hactive : member.IsActive = true)
    (hp : ops.view.procedures.find? (fun p => p.Code == form.ProcedureCode) = some procedure)
    (hpos : 0 < form.RequestedAmount)
    (hle : form.RequestedAmount ≤ member.BenefitLimit - member.UsedAmount) :
    (claimService.submitClaimInTx fl ops form).2 =
      (some
        { ClaimID := ops.view.claimSeq
          Status := "APPROVED"
          FraudFlag :=
            decide (form.RequestedAmount > procedure.AverageCost * FraudAmountMultiplier)
          ApprovedAmount := form.RequestedAmount
          RejectionReason := "" }, none) := by
  obtain ⟨h1, h2, h3, h4⟩ := hfl
  rw [submitClaimInTx_funded (GetMemberByID_found h1 hm) hactive
    (GetProcedureByCode_found h2 hp) (lt_of_lt_of_le hpos hle) "APPROVED"
    form.RequestedAmount "" (by rw [if_pos hle])]
  simp [h3, h4]

/-- Witness of C1: scenario 1 (limit 1000, used 0, request 300) and the boundary
`requested = remaining = 1000`. Against an average cost of 100 both requests
exceed twice the cost, so the fraud flag is set. -/
theorem submitClaimInTx_approved_witness :
    (claimService.submitClaimInTx Faults.none (sampleOps 0 100) (sampleForm 300)).2 =
        (some { ClaimID := 1, Status := "APPROVED", FraudFlag := true, ApprovedAmount := 300,
                RejectionReason := "" }, none) ∧
      (claimService.submitClaimInTx Faults.none (sampleOps 0 100) (sampleForm 1000)).2 =
        (some { ClaimID := 1, Status := "APPROVED", FraudFlag := true, ApprovedAmount := 1000,
                RejectionReason := "" }, none) := by
  constructor
  · have h := submitClaimInTx_approved Faults.none (sampleOps 0 100) (sampleForm 300)
      { ID := 7, FullName := "Amina", IsActive := true, BenefitLimit := 1000, UsedAmount := 0 }
      { ID := 1, Code := "P100", Description := "consultation", AverageCost := 100 }
      Faults.none_StoreOK rfl rfl rfl (by norm_num [sampleForm]) (by norm_num [sampleForm])
    rw [h]
    norm_num [sampleOps, sampleStore, sampleForm, FraudAmountMultiplier]
  · have h := submitClaimInTx_approved Faults.none (sampleOps 0 100) (sampleForm 1000)
      { ID := 7, FullName := "Amina", IsActive := true, BenefitLimit := 1000, UsedAmount := 0 }
      { ID := 1, Code := "P100", Description := "consultation", AverageCost := 100 }
      Faults.none_StoreOK rfl rfl rfl (by norm_num [sampleForm]) (by norm_num [sampleForm])
    rw [h]
    norm_num [sampleOps, sampleStore, sampleForm, FraudAmountMultiplier]

/-- C3 fails as stated: member 7 is active with `remaining = 1000 - 1000 ≤ 0`,
and a submission whose procedure code is unknown is rejected with the reason
"Invalid or unknown procedure code", not "Benefit limit exhausted". -/
theorem exhausted_reason_counterexample :
    (sampleOps 1000 100).view.members.find? (fun m => m.ID == (unknownCodeForm 50).MemberID)
        = some { ID := 7, FullName := "Amina", IsActive := true, BenefitLimit := 1000,
                 UsedAmount := 1000 } ∧
      (1000 : ℚ) - 1000 ≤ 0 ∧
      (claimService.submitClaimInTx Faults.none (sampleOps 1000 100) (unknownCodeForm 50)).2 =
        (some { ClaimID := 1, Status := "REJECTED", FraudFlag := false, ApprovedAmount := 0,
                RejectionReason := "Invalid or unknown procedure code" }, none) ∧
      "Invalid or unknown procedure code" ≠ "Benefit limit exhausted" := by
  refine ⟨rfl, by norm_num, ?_, by decide⟩
  have hm : memberDomain.GetMemberByID Faults.none (sampleOps 1000 100)
      (unknownCodeForm 50).MemberID = (some _, none) := GetMemberByID_found rfl rfl
  have hp : procedureDomain.GetProcedureByCode Faults.none (sampleOps 1000 100)
      (unknownCodeForm 50).ProcedureCode = (some Procedure.zero, some _) :=
    GetProcedureByCode_missing rfl rfl
  rw [submitClaimInTx_of_procedure_err hm rfl hp, persistRejectedClaim_ok _ _ _ _ rfl]
  rfl

/-- C3 as the code has it: for every active member with
`remaining = benefit_limit - used_amount ≤ 0` and every submission with a known
procedure code, the outcome is `REJECTED` with approved amount `0` and reason
"Benefit limit exhausted", whatever the requested amount; the fraud flag is the
one computed from the requested amount. -/
theorem submitClaimInTx_exhausted (fl : Faults) (ops : SQLOperations)
    (form : ClaimSubmissionForm) (member : Member) (procedure : Procedure)
    (hfl : fl.StoreOK)
    (hm : ops.view.members.find? (fun m => m.ID == form.MemberID) = some member)
    (hactive : member.IsActive = true)
    (hp : ops.view.procedures.find? (fun p => p.Code == form.ProcedureCode) = some procedure)
    (hrem : member.BenefitLimit - member.UsedAmount ≤ 0) :
    (claimService.submitClaimInTx fl ops form).2 =
      (some
        { ClaimID := ops.view.claimSeq
          Status := "REJECTED"
          FraudFlag :=
            decide (form.RequestedAmount > procedure.AverageCost * FraudAmountMultiplier)
          ApprovedAmount := 0
          RejectionReason := "Benefit limit exhausted" }, none) := by
  obtain ⟨h1, h2, _, h4⟩ := hfl
  rw [submitClaimInTx_of_exhausted (GetMemberByID_found h1 hm) hactive
    (GetProcedureByCode_found h2 hp) hrem, persistRejectedClaim_ok _ _ _ _ h4]

/-- Witness of the amended C3: scenario 3 (limit 1000, used 1000, request 50). -/
theorem submitClaimInTx_exhausted_witness :
    (claimService.submitClaimInTx Faults.none (sampleOps 1000 100) (sampleForm 50)).2 =
        (some { ClaimID := 1, Status := "REJECTED", FraudFlag := false, ApprovedAmount := 0,
                RejectionReason := "Benefit limit exhausted" }, none) := by
  have h := submitClaimInTx_exhausted Faults.none (sampleOps 1000 100) (sampleForm 50)
    { ID := 7, FullName := "Amina", IsActive := true, BenefitLimit := 1000, UsedAmount := 1000 }
    { ID := 1, Code := "P100", Description := "consultation", AverageCost := 100 }
    Faults.none_StoreOK rfl rfl rfl (by norm_num)
  rw [h]
  norm_num [sampleOps, sampleStore, sampleForm, FraudAmountMultiplier]

/-! ## The rows after a write -/

theorem run_insertStmt_view (ops : SQLOperations) (form : ClaimSubmissionForm)
    (approved : ℚ) (status : ClaimStatus) (fraudFlag : Bool) (reason : String) :
    (ops.run (claimDomain.insertStmt form approved status fraudFlag reason)).1.view =
      { ops.view with
        claims := ops.view.claims ++
          [Claim.ofForm ops.view.claimSeq form approved status fraudFlag reason]
        claimSeq := ops.view.claimSeq + 1 } := rfl

theorem run_writeStmt_claims (ops : SQLOperations) (member : Member) :
    (ops.run (memberDomain.writeStmt member)).1.view.claims = ops.view.claims := by
  by_cases hn : SequentialIdentifier.IsNew member.ID = true <;>
    simp [memberDomain.writeStmt, hn, SQLOperations.run, Store.exec]

theorem run_writeStmt_procedures (ops : SQLOperations) (member : Member) :
    (ops.run (memberDomain.writeStmt member)).1.view.procedures = ops.view.procedures := by
  by_cases hn : SequentialIdentifier.IsNew member.ID = true <;>
    simp [memberDomain.writeStmt, hn, SQLOperations.run, Store.exec]

theorem run_writeStmt_members_new (ops : SQLOperations) (member : Member)
    (hn : member.ID = 0) :
    (ops.run (memberDomain.writeStmt member)).1.view.members =
      ops.view.members ++ [{ member with ID := ops.view.memberSeq }] := by
  simp [memberDomain.writeStmt, SequentialIdentifier.IsNew, hn, SQLOperations.run, Store.exec]

theorem run_writeStmt_members_old (ops : SQLOperations) (member : Member)
    (hn : member.ID ≠ 0) :
    (ops.run (memberDomain.writeStmt member)).1.view.members =
      ops.view.members.map (fun m => if m.ID = member.ID then { member with ID := m.ID } else m) := by
  simp [memberDomain.writeStmt, SequentialIdentifier.IsNew, hn, SQLOperations.run, Store.exec]

/-- A row written by `CreateMember` that respects its limit keeps every row
within its limit. -/
theorem run_writeStmt_withinLimit (ops : SQLOperations) (member : Member)
    (hinv : ops.view.WithinLimit) (hm : member.UsedAmount ≤ member.BenefitLimit) :
    (ops.run (memberDomain.writeStmt member)).1.view.WithinLimit := by
  intro m hmem
  by_cases hn : member.ID = 0
  · rw [run_writeStmt_members_new ops member hn, List.mem_append] at hmem
    rcases hmem with h | h
    · exact hinv m h
    · rw [List.mem_singleton] at h
      subst h
      exact hm
  · rw [run_writeStmt_members_old ops member hn, List.mem_map] at hmem
    obtain ⟨r, hr, rfl⟩ := hmem
    by_cases hid : r.ID = member.ID
    · simpa [hid] using hm
    · simpa [hid] using hinv r hr

/-! ## The shape of every run -/

/-- The lookup by `id` returns a row with that `id`. -/
theorem find_member_ID {members : List Member} {id : Int} {member : Member}
    (h : members.find? (fun m => m.ID == id) = some member) : member.ID = id := by
  have := List.find?_some h
  simpa using this

/-- Every run of `submitClaimInTx` has one of three shapes: an error and no
response; a rejection, which appends one claim row and writes nothing else; a
decision for an active member with benefit left, which writes the member and
appends one claim row. -/
theorem submitClaimInTx_cases (fl : Faults) (ops : SQLOperations)
    (form : ClaimSubmissionForm) :
    (∃ tx err, (fl.memberWrite = true ∨ fl.claimWrite = true) ∧
      claimService.submitClaimInTx fl ops form = (tx, none, some err)) ∨
    (∃ reason fraudFlag, fl.claimWrite = false ∧
      claimService.submitClaimInTx fl ops form =
        ((ops.run (claimDomain.insertStmt form 0 "REJECTED" fraudFlag reason)).1,
          some { ClaimID := ops.view.claimSeq, Status := "REJECTED", FraudFlag := fraudFlag,
                 ApprovedAmount := 0, RejectionReason := reason }, none)) ∨
    (∃ (member : Member) (procedure : Procedure) (status : ClaimStatus) (approved : ℚ)
        (reason : String),
      ops.view.members.find? (fun m => m.ID == form.MemberID) = some member ∧
      member.IsActive = true ∧
      0 < member.BenefitLimit - member.UsedAmount ∧
      (if form.RequestedAmount ≤ member.BenefitLimit - member.UsedAmount then
          (("APPROVED", form.RequestedAmount, "") : ClaimStatus × ℚ × String)
        else
          ("PARTIAL", member.BenefitLimit - member.UsedAmount,
            "Requested amount exceeds remaining benefit; approved up to remaining limit."))
        = (status, approved, reason) ∧
      fl.memberWrite = false ∧ fl.claimWrite = false ∧
      claimService.submitClaimInTx fl ops form =
        (((ops.run (memberDomain.writeStmt
            { member with UsedAmount := member.UsedAmount + approved })).1.run
            (claimDomain.insertStmt form approved status
              (decide (form.RequestedAmount > procedure.AverageCost * FraudAmountMultiplier))
              reason)).1,
          some
            { ClaimID := ops.view.claimSeq
              Status := status
              FraudFlag :=
                decide (form.RequestedAmount > procedure.AverageCost * FraudAmountMultiplier)
              ApprovedAmount := approved
              RejectionReason := reason },
          none)) := by
  have hrej : ∀ reason fraudFlag,
      claimService.submitClaimInTx fl ops form
        = claimService.persistRejectedClaim fl ops form reason fraudFlag →
      (∃ tx err, (fl.memberWrite = true ∨ fl.claimWrite = true) ∧
        claimService.submitClaimInTx fl ops form = (tx, none, some err)) ∨
      (∃ reason fraudFlag, fl.claimWrite = false ∧
        claimService.submitClaimInTx fl ops form =
          ((ops.run (claimDomain.insertStmt form 0 "REJECTED" fraudFlag reason)).1,
            some { ClaimID := ops.view.claimSeq, Status := "REJECTED", FraudFlag := fraudFlag,
                   ApprovedAmount := 0, RejectionReason := reason }, none)) := by
    intro reason fraudFlag h
    by_cases hc : fl.claimWrite = true
    · exact Or.inl ⟨_, _, Or.inr hc, h.trans (persistRejectedClaim_fault _ _ _ _ hc)⟩
    · have hc1 : fl.claimWrite = false := by simpa using hc
      exact Or.inr ⟨reason, fraudFlag, hc1, h.trans (persistRejectedClaim_ok _ _ _ _ hc1)⟩
  have lift : ∀ {P Q R : Prop}, P ∨ Q → P ∨ Q ∨ R := fun h => h.elim Or.inl (fun q => Or.inr (Or.inl q))
  rcases GetMemberByID_cases fl ops form.MemberID with ⟨member, _, hfind, hm⟩ | ⟨err, hm⟩
  · by_cases hactive : member.IsActive = true
    · rcases GetProcedureByCode_cases fl ops form.ProcedureCode with
        ⟨procedure, _, _, hp⟩ | ⟨err, hp⟩
      · by_cases hrem : member.BenefitLimit - member.UsedAmount ≤ 0
        · exact lift (hrej _ _ (submitClaimInTx_of_exhausted hm hactive hp hrem))
        · have hrem1 : 0 < member.BenefitLimit - member.UsedAmount := not_le.mp hrem
          obtain ⟨status, approved, reason, hd⟩ :
              ∃ status approved reason,
                (if form.RequestedAmount ≤ member.BenefitLimit - member.UsedAmount then
                  (("APPROVED", form.RequestedAmount, "") : ClaimStatus × ℚ × String)
                else
                  ("PARTIAL", member.BenefitLimit - member.UsedAmount,
                    "Requested amount exceeds remaining benefit; approved up to remaining limit."))
                = (status, approved, reason) := ⟨_, _, _, rfl⟩
          have h := submitClaimInTx_funded hm hactive hp hrem1 status approved reason hd
          by_cases hw : fl.memberWrite = true
          · rw [if_pos hw] at h
            exact Or.inl ⟨_, _, Or.inl hw, h⟩
          · have hw1 : fl.memberWrite = false := by simpa using hw
            by_cases hc : fl.claimWrite = true
            · rw [if_neg hw, if_pos hc] at h
              exact Or.inl ⟨_, _, Or.inr hc, h⟩
            · have hc1 : fl.claimWrite = false := by simpa using hc
              rw [if_neg hw, if_neg hc] at h
              exact Or.inr (Or.inr ⟨member, procedure, status, approved, reason, hfind, hactive,
                hrem1, hd, hw1, hc1, h⟩)
      · exact lift (hrej _ _ (submitClaimInTx_of_procedure_err hm hactive hp))
    · have hactive1 : member.IsActive = false := by simpa using hactive
      exact lift (hrej _ _ (submitClaimInTx_of_inactive hm hactive1))
  · exact lift (hrej _ _ (submitClaimInTx_of_member_err hm))

/-- `SubmitClaim` in terms of the run of `submitClaimInTx` on a fresh handle. -/
theorem SubmitClaim_eq (fl : Faults) (db : Store) (form : ClaimSubmissionForm) :
    claimService.SubmitClaim fl db form =
      if fl.beginTx then (db, [TxCall.Begin], none, some (Error.Tx TxCall.Begin))
      else
        match claimService.submitClaimInTx fl { view := db, writes := [] } form with
        | (_, _, some err) =>
          (db, [TxCall.Begin, TxCall.Rollback], none,
            some (if fl.rollbackTx then Error.Tx TxCall.Rollback else err))
        | (tx, result, none) =>
          if fl.commitTx then
            (db, [TxCall.Begin, TxCall.Commit], none, some (Error.Tx TxCall.Commit))
          else (tx.view, [TxCall.Begin, TxCall.Commit], result, none) := by
  unfold claimService.SubmitClaim appDB.InTransaction
  by_cases hb : fl.beginTx = true
  · simp [hb]
  · simp only [hb]
    rcases h : claimService.submitClaimInTx fl { view := db, writes := [] } form with
      ⟨tx, result, _ | err⟩
    · by_cases hc : fl.commitTx = true <;> simp [hc]
    · by_cases hr : fl.rollbackTx = true <;> simp [hr]

/-- Every call of `SubmitClaim` has one of three shapes: it fails, returns an
error and no response and leaves the committed rows as they were; it commits a
rejection, one claim row added; or it commits a decision for an active member
with benefit left, the member written and one claim row added. -/
theorem SubmitClaim_cases (fl : Faults) (db : Store) (form : ClaimSubmissionForm) :
    (∃ calls err, claimService.SubmitClaim fl db form = (db, calls, none, some err) ∧
      ((fl.beginTx = true ∧ calls = [TxCall.Begin]) ∨
        ((fl.memberWrite = true ∨ fl.claimWrite = true) ∧
          calls = [TxCall.Begin, TxCall.Rollback]) ∨
        (fl.commitTx = true ∧ calls = [TxCall.Begin, TxCall.Commit]))) ∨
    (∃ reason fraudFlag,
      claimService.SubmitClaim fl db form =
        ({ db with
            claims := db.claims ++ [Claim.ofForm db.claimSeq form 0 "REJECTED" fraudFlag reason]
            claimSeq := db.claimSeq + 1 },
          [TxCall.Begin, TxCall.Commit],
          some { ClaimID := db.claimSeq, Status := "REJECTED", FraudFlag := fraudFlag,
                 ApprovedAmount := 0, RejectionReason := reason }, none)) ∨
    (∃ (member : Member) (procedure : Procedure) (status : ClaimStatus) (approved : ℚ)
        (reason : String) (db1 : Store),
      db.members.find? (fun m => m.ID == form.MemberID) = some member ∧
      member.IsActive = true ∧
      0 < member.BenefitLimit - member.UsedAmount ∧
      (if form.RequestedAmount ≤ member.BenefitLimit - member.UsedAmount then
          (("APPROVED", form.RequestedAmount, "") : ClaimStatus × ℚ × String)
        else
          ("PARTIAL", member.BenefitLimit - member.UsedAmount,
            "Requested amount exceeds remaining benefit; approved up to remaining limit."))
        = (status, approved, reason) ∧
      db1.members = (({ view := db, writes := [] } : SQLOperations).run
        (memberDomain.writeStmt
          { member with UsedAmount := member.UsedAmount + approved })).1.view.members ∧
      db1.procedures = db.procedures ∧
      db1.claims = db.claims ++ [Claim.ofForm db.claimSeq form approved status
          (decide (form.RequestedAmount > procedure.AverageCost * FraudAmountMultiplier))
          reason] ∧
      claimService.SubmitClaim fl db form =
        (db1, [TxCall.Begin, TxCall.Commit],
          some
            { ClaimID := db.claimSeq
              Status := status
              FraudFlag :=
                decide (form.RequestedAmount > procedure.AverageCost * FraudAmountMultiplier)
              ApprovedAmount := approved
              RejectionReason := reason }, none)) := by
  rw [SubmitClaim_eq]
  by_cases hb : fl.beginTx = true
  · exact Or.inl ⟨_, _, by rw [if_pos hb], Or.inl ⟨hb, rfl⟩⟩
  rw [if_neg hb]
  rcases submitClaimInTx_cases fl { view := db, writes := [] } form with
    ⟨tx, err, hw, h⟩ | ⟨reason, fraudFlag, _, h⟩ |
    ⟨member, procedure, status, approved, reason, hfind, hactive, hrem, hd, _, _, h⟩
  · rw [h]
    exact Or.inl ⟨_, _, rfl, Or.inr (Or.inl ⟨hw, rfl⟩)⟩
  · rw [h]
    by_cases hc : fl.commitTx = true
    · exact Or.inl ⟨_, _, by simp only [hc, if_true]; rfl, Or.inr (Or.inr ⟨hc, rfl⟩)⟩
    · refine Or.inr (Or.inl ⟨reason, fraudFlag, ?_⟩)
      simp only [hc, run_insertStmt_view]
      rfl
  · rw [h]
    by_cases hc : fl.commitTx = true
    · exact Or.inl ⟨_, _, by simp only [hc, if_true]; rfl, Or.inr (Or.inr ⟨hc, rfl⟩)⟩
    · refine Or.inr (Or.inr ⟨member, procedure, status, approved, reason, _, hfind, hactive,
        hrem, hd, ?_, ?_, ?_, by simp only [hc]; rfl⟩)
      · simp [run_insertStmt_view]
      · simp [run_insertStmt_view, run_writeStmt_procedures]
      · simp [run_insertStmt_view, run_writeStmt_claims, run_writeStmt_claimSeq]

/-- The amount decided never takes the member past the limit. -/
theorem decided_within_limit {requested limit used : ℚ} {status : ClaimStatus}
    {approved : ℚ} {reason : String}
    (hd : (if requested ≤ limit - used then
          (("APPROVED", requested, "") : ClaimStatus × ℚ × String)
        else
          ("PARTIAL", limit - used,
            "Requested amount exceeds remaining benefit; approved up to remaining limit."))
        = (status, approved, reason)) :
    used + approved ≤ limit ∧ (status = "PARTIAL" → used + approved = limit) := by
  by_cases hle : requested ≤ limit - used
  · rw [if_pos hle] at hd
    simp only [Prod.mk.injEq] at hd
    obtain ⟨hs, ha, _⟩ := hd
    subst ha
    refine ⟨by linarith, fun h => ?_⟩
    rw [← hs] at h
    exact absurd h (by decide)
  · rw [if_neg hle] at hd
    simp only [Prod.mk.injEq] at hd
    obtain ⟨_, ha, _⟩ := hd
    subst ha
    exact ⟨by linarith, fun _ => by ring⟩

/-- Scenario 2 through `SubmitClaim`: the decision is committed and member 7
has used the whole limit. -/
theorem sample_partial_SubmitClaim :
    claimService.SubmitClaim Faults.none (sampleStore 800 50) (sampleForm 500) =
      ({ sampleStore 1000 50 with
          claims := [Claim.ofForm 1 (sampleForm 500) 200 "PARTIAL" true
            "Requested amount exceeds remaining benefit; approved up to remaining limit."],
          claimSeq := 2 },
        [TxCall.Begin, TxCall.Commit],
        some { ClaimID := 1, Status := "PARTIAL", FraudFlag := true, ApprovedAmount := 200,
               RejectionReason :=
                 "Requested amount exceeds remaining benefit; approved up to remaining limit." },
        none) := by
  norm_num [claimService.SubmitClaim, appDB.InTransaction, claimService.submitClaimInTx,
    memberDomain.GetMemberByID, memberDomain.scanRow, queryRowMemberByID,
    procedureDomain.GetProcedureByCode, procedureDomain.scanRow, queryRowProcedureByCode,
    memberDomain.CreateMember, claimDomain.CreateClaim, SequentialIdentifier.IsNew,
    SQLOperations.run, Store.exec, Faults.none, sampleStore, sampleForm,
    FraudAmountMultiplier, Claim.ofForm]

/-! ## The fraud signal -/

/-- C6 fails as stated: member 7 is not active, the procedure `P100` of the
submission has average cost 100 and the requested amount 500 exceeds twice
that cost, yet the fraud flag of the `REJECTED` outcome is `false`. -/
theorem inactive_fraudFlag_counterexample :
    inactiveOps.view.procedures.find? (fun p => p.Code == (sampleForm 500).ProcedureCode)
        = some { ID := 1, Code := "P100", Description := "consultation", AverageCost := 100 } ∧
      (sampleForm 500).RequestedAmount > 2.0 * (100 : ℚ) ∧
      (claimService.submitClaimInTx Faults.none inactiveOps (sampleForm 500)).2 =
        (some { ClaimID := 1, Status := "REJECTED", FraudFlag := false, ApprovedAmount := 0,
                RejectionReason := "Member is not active" }, none) := by
  refine ⟨rfl, by norm_num [sampleForm], ?_⟩
  have hm : memberDomain.GetMemberByID Faults.none inactiveOps (sampleForm 500).MemberID
      = (some { ID := 7, FullName := "Amina", IsActive := false, BenefitLimit := 1000,
                UsedAmount := 0 }, none) := GetMemberByID_found rfl rfl
  rw [submitClaimInTx_of_inactive hm rfl, persistRejectedClaim_ok _ _ _ _ rfl]
  rfl

/-- C6 as the code has it: for a submission whose member is found and active
and whose procedure is found, the fraud flag of the outcome is true if and only
if `requestedAmount > 2.0 * procedure.averageCost`, whatever the outcome
(`APPROVED`, `PARTIAL`, or `REJECTED` for an exhausted benefit); so it is false
for a request of `0` against an average cost of `0`, and true for any positive
request against a procedure of cost `0`. -/
theorem submitClaimInTx_fraudFlag_iff (fl : Faults) (ops : SQLOperations)
    (form : ClaimSubmissionForm) (member : Member) (procedure : Procedure)
    (resp : ClaimSubmissionResponse)
    (hmr : fl.memberRead = false)
    (hm : ops.view.members.find? (fun m => m.ID == form.MemberID) = some member)
    (hactive : member.IsActive = true)
    (hpr : fl.procedureRead = false)
    (hp : ops.view.procedures.find? (fun p => p.Code == form.ProcedureCode) = some procedure)
    (hr : (claimService.submitClaimInTx fl ops form).2.1 = some resp) :
    (resp.FraudFlag = true ↔ form.RequestedAmount > 2.0 * procedure.AverageCost) ∧
      (procedure.AverageCost = 0 → form.RequestedAmount = 0 → resp.FraudFlag = false) ∧
      (procedure.AverageCost = 0 → 0 < form.RequestedAmount → resp.FraudFlag = true) := by
  have hflag : resp.FraudFlag
      = decide (form.RequestedAmount > procedure.AverageCost * FraudAmountMultiplier) := by
    have hm1 := GetMemberByID_found hmr hm
    have hp1 := GetProcedureByCode_found hpr hp
    by_cases hrem : member.BenefitLimit - member.UsedAmount ≤ 0
    · rw [submitClaimInTx_of_exhausted hm1 hactive hp1 hrem] at hr
      by_cases hc : fl.claimWrite = true
      · rw [persistRejectedClaim_fault _ _ _ _ hc] at hr
        simp at hr
      · rw [persistRejectedClaim_ok _ _ _ _ (by simpa using hc)] at hr
        simp only [Option.some.injEq] at hr
        rw [← hr]
    · rw [submitClaimInTx_funded hm1 hactive hp1 (not_le.mp hrem) _ _ _ rfl] at hr
      by_cases hw : fl.memberWrite = true
      · simp [hw] at hr
      · by_cases hc : fl.claimWrite = true
        · simp [hw, hc] at hr
        · simp [hw, hc] at hr
          rw [← hr]
  have hiff : resp.FraudFlag = true ↔ form.RequestedAmount > 2.0 * procedure.AverageCost := by
    rw [hflag, decide_eq_true_iff, FraudAmountMultiplier, mul_comm]
  refine ⟨hiff, fun h0 hreq => ?_, fun h0 hpos => ?_⟩
  · have : ¬ resp.FraudFlag = true := by
      rw [hiff, h0, hreq]
      norm_num
    simpa using this
  · rw [hiff, h0]
    simpa using hpos

/-- Scenario 2 evaluated: limit 1000, used 800, average cost 50, request 500. -/
theorem sample_partial_eval :
    claimService.submitClaimInTx Faults.none (sampleOps 800 50) (sampleForm 500) =
      ({ view :=
          { sampleStore 1000 50 with
            claims := [Claim.ofForm 1 (sampleForm 500) 200 "PARTIAL" true
              "Requested amount exceeds remaining benefit; approved up to remaining limit."],
            claimSeq := 2 },
         writes := [Stmt.updateMemberSQL "Amina" true 1000 1000 7,
            claimDomain.insertStmt (sampleForm 500) 200 "PARTIAL" true
              "Requested amount exceeds remaining benefit; approved up to remaining limit."] },
        some { ClaimID := 1, Status := "PARTIAL", FraudFlag := true, ApprovedAmount := 200,
               RejectionReason :=
                 "Requested amount exceeds remaining benefit; approved up to remaining limit." },
        none) := by
  norm_num [claimService.submitClaimInTx, memberDomain.GetMemberByID, memberDomain.scanRow,
    queryRowMemberByID, procedureDomain.GetProcedureByCode, procedureDomain.scanRow,
    queryRowProcedureByCode, memberDomain.CreateMember, claimDomain.CreateClaim,
    SequentialIdentifier.IsNew, SQLOperations.run, Store.exec, Faults.none, sampleStore,
    sampleOps, sampleForm, FraudAmountMultiplier, Claim.ofForm, claimDomain.insertStmt]

/-- Scenario 3 evaluated: limit 1000, used 1000, average cost 100, request 50. -/
theorem sample_exhausted_eval :
    claimService.submitClaimInTx Faults.none (sampleOps 1000 100) (sampleForm 50) =
      ({ view :=
          { sampleStore 1000 100 with
            claims := [Claim.ofForm 1 (sampleForm 50) 0 "REJECTED" false
              "Benefit limit exhausted"],
            claimSeq := 2 },
         writes := [claimDomain.insertStmt (sampleForm 50) 0 "REJECTED" false
              "Benefit limit exhausted"] },
        some { ClaimID := 1, Status := "REJECTED", FraudFlag := false, ApprovedAmount := 0,
               RejectionReason := "Benefit limit exhausted" },
        none) := by
  norm_num [claimService.submitClaimInTx, memberDomain.GetMemberByID, memberDomain.scanRow,
    queryRowMemberByID, procedureDomain.GetProcedureByCode, procedureDomain.scanRow,
    queryRowProcedureByCode, claimService.persistRejectedClaim, claimDomain.CreateClaim,
    SequentialIdentifier.IsNew, SQLOperations.run, Store.exec, Faults.none, sampleStore,
    sampleOps, sampleForm, FraudAmountMultiplier, Claim.ofForm, claimDomain.insertStmt]

/-- Witness of the amended C6: a `PARTIAL` outcome with the flag set (500 > 2 * 50) and a
`REJECTED` outcome for an exhausted benefit with the flag not set (50 ≤ 2 * 100). -/
theorem submitClaimInTx_fraudFlag_iff_witness :
    (true = true ↔ (sampleForm 500).RequestedAmount > 2.0 * (50 : ℚ)) ∧
      (false = true ↔ (sampleForm 50).RequestedAmount > 2.0 * (100 : ℚ)) :=
  ⟨(submitClaimInTx_fraudFlag_iff Faults.none (sampleOps 800 50) (sampleForm 500)
      { ID := 7, FullName := "Amina", IsActive := true, BenefitLimit := 1000, UsedAmount := 800 }
      { ID := 1, Code := "P100", Description := "consultation", AverageCost := 50 }
      { ClaimID := 1, Status := "PARTIAL", FraudFlag := true, ApprovedAmount := 200,
        RejectionReason :=
          "Requested amount exceeds remaining benefit; approved up to remaining limit." }
      rfl rfl rfl rfl rfl (by rw [sample_partial_eval])).1,
    (submitClaimInTx_fraudFlag_iff Faults.none (sampleOps 1000 100) (sampleForm 50)
      { ID := 7, FullName := "Amina", IsActive := true, BenefitLimit := 1000, UsedAmount := 1000 }
      { ID := 1, Code := "P100", Description := "consultation", AverageCost := 100 }
      { ClaimID := 1, Status := "REJECTED", FraudFlag := false, ApprovedAmount := 0,
        RejectionReason := "Benefit limit exhausted" }
      rfl rfl rfl rfl rfl (by rw [sample_exhausted_eval])).1⟩

/-! ## One claim row per call, committed or rolled back as a whole -/

/-- C7: for every call of `SubmitClaim` in which all store operations succeed
(no read or write fails, `Begin` and `Commit` succeed), one response is
returned with a nil error, the transaction commits, and the committed claims
are the claims before the call followed by exactly one new row, the row of the
response (same identifier, status, approved amount, fraud flag and reason);
this holds for `APPROVED`, `PARTIAL` and `REJECTED` alike. -/
theorem SubmitClaim_adds_one_claim (fl : Faults) (db : Store) (form : ClaimSubmissionForm)
    (hfl : fl.StoreOK) (hb : fl.beginTx = false) (hc : fl.commitTx = false) :
    ∃ (db1 : Store) (resp : ClaimSubmissionResponse) (fraudFlag : Bool),
      claimService.SubmitClaim fl db form
          = (db1, [TxCall.Begin, TxCall.Commit], some resp, none) ∧
        db1.claims = db.claims ++
          [Claim.ofForm resp.ClaimID form resp.ApprovedAmount resp.Status fraudFlag
            resp.RejectionReason] ∧
        resp.FraudFlag = fraudFlag ∧
        (resp.Status = "APPROVED" ∨ resp.Status = "PARTIAL" ∨ resp.Status = "REJECTED") := by
  obtain ⟨_, _, hmw, hcw⟩ := hfl
  rcases SubmitClaim_cases fl db form with
    ⟨calls, err, _, hf⟩ | ⟨reason, fraudFlag, h⟩ |
    ⟨member, procedure, status, approved, reason, db1, _, _, _, hd, _, _, hclaims, h⟩
  · rcases hf with ⟨h, _⟩ | ⟨h | h, _⟩ | ⟨h, _⟩
    · rw [hb] at h; exact absurd h (by decide)
    · rw [hmw] at h; exact absurd h (by decide)
    · rw [hcw] at h; exact absurd h (by decide)
    · rw [hc] at h; exact absurd h (by decide)
  · exact ⟨_, _, fraudFlag, h, rfl, rfl, Or.inr (Or.inr rfl)⟩
  · refine ⟨db1, _, _, h, hclaims, rfl, ?_⟩
    by_cases hle : form.RequestedAmount ≤ member.BenefitLimit - member.UsedAmount
    · rw [if_pos hle] at hd
      simp only [Prod.mk.injEq] at hd
      exact Or.inl hd.1.symm
    · rw [if_neg hle] at hd
      simp only [Prod.mk.injEq] at hd
      exact Or.inr (Or.inl hd.1.symm)

/-- Witness of C7 on scenario 3: a rejection is returned with a nil error,
its transaction commits and its row is the one claim added. -/
theorem SubmitClaim_adds_one_claim_witness :
    ∃ (db1 : Store) (resp : ClaimSubmissionResponse) (fraudFlag : Bool),
      claimService.SubmitClaim Faults.none (sampleStore 1000 100) (sampleForm 50)
          = (db1, [TxCall.Begin, TxCall.Commit], some resp, none) ∧
        db1.claims = (sampleStore 1000 100).claims ++
          [Claim.ofForm resp.ClaimID (sampleForm 50) resp.ApprovedAmount resp.Status fraudFlag
            resp.RejectionReason] ∧
        resp.FraudFlag = fraudFlag ∧
        (resp.Status = "APPROVED" ∨ resp.Status = "PARTIAL" ∨ resp.Status = "REJECTED") :=
  SubmitClaim_adds_one_claim Faults.none (sampleStore 1000 100) (sampleForm 50)
    Faults.none_StoreOK rfl rfl

/-- An error of the operation rolls the transaction back: `SubmitClaim`
returns an error and no response, and the committed rows are those before the
call. -/
theorem SubmitClaim_of_tx_error {fl : Faults} {db : Store} {form : ClaimSubmissionForm}
    {tx : SQLOperations} {result : Option ClaimSubmissionResponse} {err : Error}
    (hb : fl.beginTx = false)
    (h : claimService.submitClaimInTx fl { view := db, writes := [] } form
      = (tx, result, some err)) :
    claimService.SubmitClaim fl db form =
      (db, [TxCall.Begin, TxCall.Rollback], none,
        some (if fl.rollbackTx then Error.Tx TxCall.Rollback else err)) := by
  rw [SubmitClaim_eq, h]
  simp [hb]

/-- A rejection that `submitClaimInTx` persists is committed by `SubmitClaim`
when `Begin`, the claim insert and `Commit` succeed. -/
theorem SubmitClaim_of_rejected {fl : Faults} {db : Store} {form : ClaimSubmissionForm}
    {reason : String} {fraudFlag : Bool}
    (hb : fl.beginTx = false) (hcw : fl.claimWrite = false) (hc : fl.commitTx = false)
    (h : claimService.submitClaimInTx fl { view := db, writes := [] } form
      = claimService.persistRejectedClaim fl { view := db, writes := [] } form reason
          fraudFlag) :
    claimService.SubmitClaim fl db form =
      ({ db with
          claims := db.claims ++ [Claim.ofForm db.claimSeq form 0 "REJECTED" fraudFlag reason]
          claimSeq := db.claimSeq + 1 },
        [TxCall.Begin, TxCall.Commit],
        some { ClaimID := db.claimSeq, Status := "REJECTED", FraudFlag := fraudFlag,
               ApprovedAmount := 0, RejectionReason := reason }, none) := by
  rw [SubmitClaim_eq, h, persistRejectedClaim_ok _ _ _ _ hcw]
  simp only [hb, hc, run_insertStmt_view]
  rfl

/-- C9 as the code has it: a fault of a read is handled like not-found. When
`Begin`, the claim insert and `Commit` succeed, a member lookup that fails
makes `SubmitClaim` commit and return, with a nil error, a `REJECTED` claim
with reason "Member not found"; a procedure lookup that fails, for a member
found and active, one with reason "Invalid or unknown procedure code". An
error of `SubmitClaim` comes only from `Begin`, the member update, the claim
insert or `Commit`. -/
theorem SubmitClaim_read_fault_rejected (fl : Faults) (db : Store)
    (form : ClaimSubmissionForm) :
    (fl.beginTx = false → fl.claimWrite = false → fl.commitTx = false →
      fl.memberRead = true →
      claimService.SubmitClaim fl db form =
        ({ db with
            claims := db.claims ++
              [Claim.ofForm db.claimSeq form 0 "REJECTED" false "Member not found"]
            claimSeq := db.claimSeq + 1 },
          [TxCall.Begin, TxCall.Commit],
          some { ClaimID := db.claimSeq, Status := "REJECTED", FraudFlag := false,
                 ApprovedAmount := 0, RejectionReason := "Member not found" }, none)) ∧
    (∀ member : Member, fl.beginTx = false → fl.claimWrite = false → fl.commitTx = false →
      fl.memberRead = false →
      db.members.find? (fun m => m.ID == form.MemberID) = some member →
      member.IsActive = true →
      fl.procedureRead = true →
      claimService.SubmitClaim fl db form =
        ({ db with
            claims := db.claims ++
              [Claim.ofForm db.claimSeq form 0 "REJECTED" false
                "Invalid or unknown procedure code"]
            claimSeq := db.claimSeq + 1 },
          [TxCall.Begin, TxCall.Commit],
          some { ClaimID := db.claimSeq, Status := "REJECTED", FraudFlag := false,
                 ApprovedAmount := 0, RejectionReason := "Invalid or unknown procedure code" },
          none)) ∧
    ((claimService.SubmitClaim fl db form).2.2.2 ≠ none →
      fl.beginTx = true ∨ fl.memberWrite = true ∨ fl.claimWrite = true ∨
        fl.commitTx = true) := by
  refine ⟨fun hb hcw hc hr => ?_, fun member hb hcw hc hmr hfind hactive hpr => ?_, fun h => ?_⟩
  · exact SubmitClaim_of_rejected hb hcw hc
      (submitClaimInTx_of_member_err (GetMemberByID_fault hr))
  · exact SubmitClaim_of_rejected hb hcw hc
      (submitClaimInTx_of_procedure_err (GetMemberByID_found hmr hfind) hactive
        (GetProcedureByCode_fault hpr))
  · rcases SubmitClaim_cases fl db form with
      ⟨calls, err, _, hf⟩ | ⟨reason, fraudFlag, h1⟩ |
      ⟨_, _, _, _, _, _, _, _, _, _, _, _, _, h1⟩
    · rcases hf with ⟨h2, _⟩ | ⟨h2 | h2, _⟩ | ⟨h2, _⟩
      · exact Or.inl h2
      · exact Or.inr (Or.inl h2)
      · exact Or.inr (Or.inr (Or.inl h2))
      · exact Or.inr (Or.inr (Or.inr h2))
    · rw [h1] at h; exact absurd rfl h
    · rw [h1] at h; exact absurd rfl h

/-- Witness of the amended C9, and the input at which C9 as stated fails. -/
theorem SubmitClaim_read_fault_rejected_witness :
    claimService.SubmitClaim memberReadFault (sampleStore 0 100) (sampleForm 300) =
      ({ sampleStore 0 100 with
          claims := [Claim.ofForm 1 (sampleForm 300) 0 "REJECTED" false "Member not found"],
          claimSeq := 2 },
        [TxCall.Begin, TxCall.Commit],
        some { ClaimID := 1, Status := "REJECTED", FraudFlag := false, ApprovedAmount := 0,
               RejectionReason := "Member not found" }, none) :=
  (SubmitClaim_read_fault_rejected memberReadFault (sampleStore 0 100) (sampleForm 300)).1
    rfl rfl rfl rfl

/-- C9 fails as stated: the read of member 7, who exists, reports a storage
fault (not `sql.ErrNoRows`), and `SubmitClaim` returns a nil error and the
adjudication outcome `REJECTED`, "Member not found", whose row it commits; the
same for a fault of the procedure read, with "Invalid or unknown procedure
code". -/
theorem storage_fault_swallowed_counterexample :
    (queryRowMemberByID memberReadFault (sampleOps 0 100) (sampleForm 300).MemberID
        = Except.error SqlError.Fault ∧
      (claimService.SubmitClaim memberReadFault (sampleStore 0 100) (sampleForm 300)).2 =
        ([TxCall.Begin, TxCall.Commit],
          some { ClaimID := 1, Status := "REJECTED", FraudFlag := false, ApprovedAmount := 0,
                 RejectionReason := "Member not found" }, none)) ∧
    (queryRowProcedureByCode procedureReadFault (sampleOps 0 100) (sampleForm 300).ProcedureCode
        = Except.error SqlError.Fault ∧
      (claimService.SubmitClaim procedureReadFault (sampleStore 0 100) (sampleForm 300)).2 =
        ([TxCall.Begin, TxCall.Commit],
          some { ClaimID := 1, Status := "REJECTED", FraudFlag := false, ApprovedAmount := 0,
                 RejectionReason := "Invalid or unknown procedure code" }, none)) := by
  refine ⟨⟨rfl, ?_⟩, ⟨rfl, ?_⟩⟩
  · rw [SubmitClaim_of_rejected rfl rfl rfl
      (submitClaimInTx_of_member_err (GetMemberByID_fault rfl))]
    rfl
  · have hm : memberDomain.GetMemberByID procedureReadFault
        { view := sampleStore 0 100, writes := [] } (sampleForm 300).MemberID
        = (some { ID := 7, FullName := "Amina", IsActive := true, BenefitLimit := 1000,
                  UsedAmount := 0 }, none) := GetMemberByID_found rfl rfl
    rw [SubmitClaim_of_rejected rfl rfl rfl
      (submitClaimInTx_of_procedure_err hm rfl (GetProcedureByCode_fault rfl))]
    rfl

/-- C10: a submission whose member is in no row is rejected with reason
"Member not found", and one whose member is found with `is_active = false`
with reason "Member is not active"; in both cases the approved amount is `0`,
the fraud flag is `false`, and the error is nil (the claim insert being the
one store operation that has to succeed). -/
theorem submitClaimInTx_ineligible (fl : Faults) (ops : SQLOperations)
    (form : ClaimSubmissionForm) (hcw : fl.claimWrite = false) :
    (ops.view.members.find? (fun m => m.ID == form.MemberID) = none →
      (claimService.submitClaimInTx fl ops form).2 =
        (some { ClaimID := ops.view.claimSeq, Status := "REJECTED", FraudFlag := false,
                ApprovedAmount := 0, RejectionReason := "Member not found" }, none)) ∧
    (∀ member : Member, fl.memberRead = false →
      ops.view.members.find? (fun m => m.ID == form.MemberID) = some member →
      member.IsActive = false →
      (claimService.submitClaimInTx fl ops form).2 =
        (some { ClaimID := ops.view.claimSeq, Status := "REJECTED", FraudFlag := false,
                ApprovedAmount := 0, RejectionReason := "Member is not active" }, none)) := by
  constructor
  · intro hfind
    by_cases hr : fl.memberRead = true
    · rw [submitClaimInTx_of_member_err (GetMemberByID_fault hr),
        persistRejectedClaim_ok _ _ _ _ hcw]
    · rw [submitClaimInTx_of_member_err (GetMemberByID_missing (by simpa using hr) hfind),
        persistRejectedClaim_ok _ _ _ _ hcw]
  · intro member hmr hfind hactive
    rw [submitClaimInTx_of_inactive (GetMemberByID_found hmr hfind) hactive,
      persistRejectedClaim_ok _ _ _ _ hcw]

/-- Witness of C10: member 99 is in no row; member 7 is not active. -/
theorem submitClaimInTx_ineligible_witness :
    (claimService.submitClaimInTx Faults.none (sampleOps 0 100) (strangerForm 50)).2 =
        (some { ClaimID := 1, Status := "REJECTED", FraudFlag := false, ApprovedAmount := 0,
                RejectionReason := "Member not found" }, none) ∧
      (claimService.submitClaimInTx Faults.none inactiveOps (sampleForm 50)).2 =
        (some { ClaimID := 1, Status := "REJECTED", FraudFlag := false, ApprovedAmount := 0,
                RejectionReason := "Member is not active" }, none) :=
  ⟨(submitClaimInTx_ineligible Faults.none (sampleOps 0 100) (strangerForm 50) rfl).1 rfl,
    (submitClaimInTx_ineligible Faults.none inactiveOps (sampleForm 50) rfl).2
      { ID := 7, FullName := "Amina", IsActive := false, BenefitLimit := 1000, UsedAmount := 0 }
      rfl rfl rfl⟩

/-! ## The claims of one member and its ledger -/

theorem approvedTotal_append (id : Int) (claims : List Claim) (c : Claim) :
    approvedTotal id (claims ++ [c])
      = approvedTotal id claims + (if c.MemberID = id then c.ApprovedAmount else 0) := by
  by_cases h : c.MemberID = id <;> simp [approvedTotal, List.filter_append, h]

/-- A write for another member leaves the row found for `id` as it is. -/
theorem find_after_write_other (ops : SQLOperations) (written member : Member) (id : Int)
    (hfind : ops.view.members.find? (fun m => m.ID == id) = some member)
    (hne : written.ID ≠ id) :
    (ops.run (memberDomain.writeStmt written)).1.view.members.find? (fun m => m.ID == id)
      = some member := by
  by_cases hn : written.ID = 0
  · rw [run_writeStmt_members_new ops written hn, List.find?_append, hfind]
    rfl
  · rw [run_writeStmt_members_old ops written hn, List.find?_map]
    have hp : ((fun m : Member => m.ID == id) ∘
        fun m : Member => if m.ID = written.ID then { written with ID := m.ID } else m)
        = fun m : Member => m.ID == id := by
      funext r
      by_cases hr : r.ID = written.ID <;> simp [hr]
    rw [hp, hfind]
    have hmid : member.ID = id := find_member_ID hfind
    have : ¬ member.ID = written.ID := fun h => hne (h.symm.trans hmid)
    simp [this]

/-- An update of the member found for `id ≠ 0` is what the lookup finds next. -/
theorem find_after_write_same (ops : SQLOperations) (written member : Member) (id : Int)
    (hfind : ops.view.members.find? (fun m => m.ID == id) = some member)
    (hid : written.ID = id) (hnz : id ≠ 0) :
    (ops.run (memberDomain.writeStmt written)).1.view.members.find? (fun m => m.ID == id)
      = some written := by
  have hn : written.ID ≠ 0 := by rw [hid]; exact hnz
  rw [run_writeStmt_members_old ops written hn, List.find?_map]
  have hp : ((fun m : Member => m.ID == id) ∘
      fun m : Member => if m.ID = written.ID then { written with ID := m.ID } else m)
      = fun m : Member => m.ID == id := by
    funext r
    by_cases hr : r.ID = written.ID <;> simp [hr]
  rw [hp, hfind]
  have hmid : member.ID = id := find_member_ID hfind
  have : member.ID = written.ID := hmid.trans hid.symm
  simp [this]

/-- The ledger of member `id ≠ 0` moves with its claims: over one call of
`SubmitClaim` the row found for `id` keeps its limit, its `used_amount` grows
by exactly what the call added to the approved total of the member's claims,
and it stays within the limit if it was. -/
theorem SubmitClaim_ledger (fl : Faults) (db : Store) (form : ClaimSubmissionForm)
    (id : Int) (member : Member) (hnz : id ≠ 0)
    (hfind : db.members.find? (fun m => m.ID == id) = some member) :
    ∃ member1 : Member,
      (claimService.SubmitClaim fl db form).1.members.find? (fun m => m.ID == id)
        = some member1 ∧
      member1.BenefitLimit = member.BenefitLimit ∧
      approvedTotal id (claimService.SubmitClaim fl db form).1.claims - member1.UsedAmount
        = approvedTotal id db.claims - member.UsedAmount ∧
      (member.UsedAmount ≤ member.BenefitLimit →
        member1.UsedAmount ≤ member1.BenefitLimit) := by
  rcases SubmitClaim_cases fl db form with
    ⟨calls, err, h, _⟩ | ⟨reason, fraudFlag, h⟩ |
    ⟨found, procedure, status, approved, reason, db1, hfound, _, _, hd, hmem, _, hclaims, h⟩
  · rw [h]
    exact ⟨member, hfind, rfl, rfl, fun h => h⟩
  · rw [h]
    refine ⟨member, hfind, rfl, ?_, fun h => h⟩
    show approvedTotal id (db.claims ++ _) - _ = _
    rw [approvedTotal_append]
    simp [Claim.ofForm]
  · rw [h]
    show ∃ member1 : Member, db1.members.find? _ = some member1 ∧ _ ∧
      approvedTotal id db1.claims - _ = _ ∧ _
    rw [hmem, hclaims, approvedTotal_append]
    have hfid : found.ID = form.MemberID := find_member_ID hfound
    by_cases hsame : form.MemberID = id
    · have hfm : found = member := by
        rw [hsame] at hfound
        rw [hfound] at hfind
        exact Option.some.inj hfind
      subst hfm
      refine ⟨{ found with UsedAmount := found.UsedAmount + approved }, ?_, rfl, ?_, fun _ => ?_⟩
      · exact find_after_write_same { view := db, writes := [] } _ found id hfind
          (hfid.trans hsame) hnz
      · simp only [Claim.ofForm, hsame, if_true]
        ring
      · exact (decided_within_limit hd).1
    · refine ⟨member, ?_, rfl, ?_, fun h => h⟩
      · exact find_after_write_other { view := db, writes := [] } _ member id hfind
          (by rw [show ({ found with UsedAmount := found.UsedAmount + approved } : Member).ID
            = found.ID from rfl, hfid]; exact hsame)
      · simp [Claim.ofForm, hsame]

/-! ## Calls that overlap, calls in a row -/

theorem replay_append (db : Store) (writes : List Stmt) (st : Stmt) :
    db.replay (writes ++ [st]) = ((db.replay writes).exec st).1 := by
  simp [Store.replay, List.foldl_append]

/-- Replaying the writes of an operation that returned `nil`, on the rows it
began with, gives the rows of its handle. -/
theorem submitClaimInTx_replay {fl : Faults} {db : Store} {form : ClaimSubmissionForm}
    {tx : SQLOperations} {result : Option ClaimSubmissionResponse}
    (h : claimService.submitClaimInTx fl { view := db, writes := [] } form
      = (tx, result, none)) :
    db.replay tx.writes = tx.view := by
  rcases submitClaimInTx_cases fl { view := db, writes := [] } form with
    ⟨_, _, _, h1⟩ | ⟨_, _, _, h1⟩ | ⟨_, _, _, _, _, _, _, _, _, _, _, h1⟩
  · rw [h1] at h
    simp at h
  · rw [h1] at h
    simp only [Prod.mk.injEq] at h
    rw [← h.1]
    rfl
  · rw [h1] at h
    simp only [Prod.mk.injEq] at h
    rw [← h.1]
    rfl

/-- A call that runs and commits with no other transaction open is a call of
`SubmitClaim`. -/
theorem step_body_commit (c : Concurrent) (fl : Faults) (form : ClaimSubmissionForm)
    (hp : c.pending = []) :
    (c.step (Event.body fl form)).step (Event.commit 0) =
      { committed := (claimService.SubmitClaim fl c.committed form).1
        pending := []
        returned := c.returned ++ (claimService.SubmitClaim fl c.committed form).2.2.1.toList } := by
  obtain ⟨committed, pending, returned⟩ := c
  simp only at hp
  subst hp
  rw [SubmitClaim_eq]
  by_cases hb : fl.beginTx = true
  · simp [Concurrent.step, hb]
  · rcases h : claimService.submitClaimInTx fl { view := committed, writes := [] } form with
      ⟨tx, result, _ | err⟩
    · by_cases hc : fl.commitTx = true
      · simp [Concurrent.step, hb, h, hc]
      · simp [Concurrent.step, hb, h, hc, submitClaimInTx_replay h]
    · simp [Concurrent.step, hb, h]

/-- Calls in a row keep the ledger of member `id ≠ 0` in step with its claims. -/
theorem serial_ledger (calls : List (Faults × ClaimSubmissionForm)) (id : Int) (hnz : id ≠ 0) :
    ∀ (c : Concurrent) (member : Member), c.pending = [] →
      c.committed.members.find? (fun m => m.ID == id) = some member →
      ∃ member1 : Member,
        (c.run (serial calls)).committed.members.find? (fun m => m.ID == id) = some member1 ∧
        member1.BenefitLimit = member.BenefitLimit ∧
        approvedTotal id (c.run (serial calls)).committed.claims - member1.UsedAmount
          = approvedTotal id c.committed.claims - member.UsedAmount ∧
        (member.UsedAmount ≤ member.BenefitLimit →
          member1.UsedAmount ≤ member1.BenefitLimit) := by
  induction calls with
  | nil => exact fun c member _ hfind => ⟨member, hfind, rfl, rfl, fun h => h⟩
  | cons call calls ih =>
    intro c member hp hfind
    obtain ⟨fl, form⟩ := call
    have hrun : c.run (serial ((fl, form) :: calls))
        = ((c.step (Event.body fl form)).step (Event.commit 0)).run (serial calls) := rfl
    rw [hrun, step_body_commit c fl form hp]
    obtain ⟨m1, hf1, hl1, ht1, hi1⟩ := SubmitClaim_ledger fl c.committed form id member hnz hfind
    obtain ⟨m2, hf2, hl2, ht2, hi2⟩ := ih
      { committed := (claimService.SubmitClaim fl c.committed form).1
        pending := []
        returned := c.returned ++ (claimService.SubmitClaim fl c.committed form).2.2.1.toList }
      m1 rfl hf1
    exact ⟨m2, hf2, hl2.trans hl1, ht2.trans ht1, fun h => hi2 (hi1 h)⟩

/-- Scenario 6 with the two calls in a row: the first is approved for 600, the
second for the 400 that are left. -/
theorem serial_eval :
    (((Concurrent.init (sampleStore 0 1000)).run
        (serial [(Faults.none, sampleForm 600), (Faults.none, sampleForm 600)])).returned.map
          (fun r => (r.Status, r.ApprovedAmount))
        = [("APPROVED", 600), ("PARTIAL", 400)]) ∧
      approvedTotal 7 ((Concurrent.init (sampleStore 0 1000)).run
        (serial [(Faults.none, sampleForm 600), (Faults.none, sampleForm 600)])).committed.claims
        = 1000 := by
  norm_num [Concurrent.run, Concurrent.init, serial, Concurrent.step, Store.replay,
    claimService.submitClaimInTx, memberDomain.GetMemberByID, memberDomain.scanRow,
    queryRowMemberByID, procedureDomain.GetProcedureByCode, procedureDomain.scanRow,
    queryRowProcedureByCode, memberDomain.CreateMember, claimDomain.CreateClaim,
    SequentialIdentifier.IsNew, SQLOperations.run, Store.exec, Faults.none, sampleStore,
    sampleForm, FraudAmountMultiplier, approvedTotal]

/-- C5 fails as stated: two calls for 600 against member 7 (limit 1000, used 0)
whose operations both run before either commits are both `APPROVED` for 600;
the committed claims of the member add up to 1200, more than the limit, and the
member's `used_amount` is 600. -/
theorem overlapping_calls_counterexample :
    (((Concurrent.init (sampleStore 0 1000)).run overlapSchedule).returned.map
        (fun r => (r.Status, r.ApprovedAmount))
      = [("APPROVED", 600), ("APPROVED", 600)]) ∧
    approvedTotal 7 ((Concurrent.init (sampleStore 0 1000)).run overlapSchedule).committed.claims
      = 1200 ∧
    ((Concurrent.init (sampleStore 0 1000)).run overlapSchedule).committed.members
      = (sampleStore 600 1000).members ∧
    ¬ (approvedTotal 7
        ((Concurrent.init (sampleStore 0 1000)).run overlapSchedule).committed.claims
      ≤ 1000) := by
  norm_num [Concurrent.run, Concurrent.init, overlapSchedule, Concurrent.step, Store.replay,
    claimService.submitClaimInTx, memberDomain.GetMemberByID, memberDomain.scanRow,
    queryRowMemberByID, procedureDomain.GetProcedureByCode, procedureDomain.scanRow,
    queryRowProcedureByCode, memberDomain.CreateMember, claimDomain.CreateClaim,
    SequentialIdentifier.IsNew, SQLOperations.run, Store.exec, Faults.none, sampleStore,
    sampleForm, FraudAmountMultiplier, approvedTotal]

/-! ## Unknown procedure codes -/

/-- C11: for every submission whose member exists and is active and whose
procedure code is in no row, the outcome is `REJECTED` with reason "Invalid or
unknown procedure code" and approved amount `0`, and the fraud flag is `false`
whatever the requested amount; the error is nil (the claim insert being the
one write on this path). -/
theorem submitClaimInTx_unknown_procedure (fl : Faults) (ops : SQLOperations)
    (form : ClaimSubmissionForm) (member : Member)
    (hmr : fl.memberRead = false) (hcw : fl.claimWrite = false)
    (hm : ops.view.members.find? (fun m => m.ID == form.MemberID) = some member)
    (hactive : member.IsActive = true)
    (hp : ops.view.procedures.find? (fun p => p.Code == form.ProcedureCode) = none) :
    (claimService.submitClaimInTx fl ops form).2 =
      (some { ClaimID := ops.view.claimSeq, Status := "REJECTED", FraudFlag := false,
              ApprovedAmount := 0, RejectionReason := "Invalid or unknown procedure code" },
        none) := by
  have hm1 := GetMemberByID_found hmr hm
  by_cases hr : fl.procedureRead = true
  · rw [submitClaimInTx_of_procedure_err hm1 hactive (GetProcedureByCode_fault hr),
      persistRejectedClaim_ok _ _ _ _ hcw]
  · rw [submitClaimInTx_of_procedure_err hm1 hactive
        (GetProcedureByCode_missing (by simpa using hr) hp),
      persistRejectedClaim_ok _ _ _ _ hcw]

/-- Witness of C11: scenario 5, member 7 asks 5000 for the unknown code `X999`
(the amount is far above any average cost; the flag stays `false`). -/
theorem submitClaimInTx_unknown_procedure_witness :
    (claimService.submitClaimInTx Faults.none (sampleOps 0 100) (unknownCodeForm 5000)).2 =
      (some { ClaimID := 1, Status := "REJECTED", FraudFlag := false, ApprovedAmount := 0,
              RejectionReason := "Invalid or unknown procedure code" }, none) :=
  submitClaimInTx_unknown_procedure Faults.none (sampleOps 0 100) (unknownCodeForm 5000)
    { ID := 7, FullName := "Amina", IsActive := true, BenefitLimit := 1000, UsedAmount := 0 }
    rfl rfl rfl rfl rfl

/-! ## What the member write does -/

/-- The two decisions of lines 93-100, spelled out. -/
theorem decided_cases {requested remaining : ℚ} {status : ClaimStatus}
    {approved : ℚ} {reason : String}
    (hd : (if requested ≤ remaining then
          (("APPROVED", requested, "") : ClaimStatus × ℚ × String)
        else
          ("PARTIAL", remaining,
            "Requested amount exceeds remaining benefit; approved up to remaining limit."))
        = (status, approved, reason)) :
    (requested ≤ remaining ∧ status = "APPROVED" ∧ approved = requested ∧ reason = "") ∨
      (remaining < requested ∧ status = "PARTIAL" ∧ approved = remaining ∧
        reason =
          "Requested amount exceeds remaining benefit; approved up to remaining limit.") := by
  by_cases hle : requested ≤ remaining
  · rw [if_pos hle] at hd
    simp only [Prod.mk.injEq] at hd
    exact Or.inl ⟨hle, hd.1.symm, hd.2.1.symm, hd.2.2.symm⟩
  · rw [if_neg hle] at hd
    simp only [Prod.mk.injEq] at hd
    exact Or.inr ⟨not_le.mp hle, hd.1.symm, hd.2.1.symm, hd.2.2.symm⟩

/-- Scenario 1 through `SubmitClaim`: approved for 300, member 7 has used 300. -/
theorem sample_approved_SubmitClaim :
    claimService.SubmitClaim Faults.none (sampleStore 0 100) (sampleForm 300) =
      ({ sampleStore 300 100 with
          claims := [Claim.ofForm 1 (sampleForm 300) 300 "APPROVED" true ""],
          claimSeq := 2 },
        [TxCall.Begin, TxCall.Commit],
        some { ClaimID := 1, Status := "APPROVED", FraudFlag := true, ApprovedAmount := 300,
               RejectionReason := "" },
        none) := by
  norm_num [claimService.SubmitClaim, appDB.InTransaction, claimService.submitClaimInTx,
    memberDomain.GetMemberByID, memberDomain.scanRow, queryRowMemberByID,
    procedureDomain.GetProcedureByCode, procedureDomain.scanRow, queryRowProcedureByCode,
    memberDomain.CreateMember, claimDomain.CreateClaim, SequentialIdentifier.IsNew,
    SQLOperations.run, Store.exec, Faults.none, sampleStore, sampleForm,
    FraudAmountMultiplier, Claim.ofForm]

/-! ## Frame and bounds of what is persisted -/

/-- C13: every `REJECTED` outcome (member not found, member not active, unknown
procedure code, benefit exhausted) leaves the rows of `members` exactly as they
were: the engine writes the member ledger only on the path that consumes
benefit. -/
theorem SubmitClaim_rejected_members_unchanged (fl : Faults) (db : Store)
    (form : ClaimSubmissionForm) (resp : ClaimSubmissionResponse)
    (hr : (claimService.SubmitClaim fl db form).2.2 = (some resp, none))
    (hs : resp.Status = "REJECTED") :
    (claimService.SubmitClaim fl db form).1.members = db.members ∧
      (claimService.SubmitClaim fl db form).1.memberSeq = db.memberSeq := by
  rcases SubmitClaim_cases fl db form with
    ⟨calls, err, h, _⟩ | ⟨reason, fraudFlag, h⟩ |
    ⟨member, procedure, status, approved, reason, db1, _, _, _, hd, _, _, _, h⟩
  · rw [h]
    exact ⟨rfl, rfl⟩
  · rw [h]
    exact ⟨rfl, rfl⟩
  · rw [h] at hr
    simp only [Prod.mk.injEq, Option.some.injEq, and_true] at hr
    rw [← hr] at hs
    simp only at hs
    rcases decided_cases hd with ⟨_, h1, _⟩ | ⟨_, h1, _⟩ <;>
      · rw [h1] at hs
        exact absurd hs (by decide)

/-- Scenario 3 through `SubmitClaim`: the rejection is committed. -/
theorem sample_exhausted_SubmitClaim :
    claimService.SubmitClaim Faults.none (sampleStore 1000 100) (sampleForm 50) =
      ({ sampleStore 1000 100 with
          claims := [Claim.ofForm 1 (sampleForm 50) 0 "REJECTED" false
            "Benefit limit exhausted"],
          claimSeq := 2 },
        [TxCall.Begin, TxCall.Commit],
        some { ClaimID := 1, Status := "REJECTED", FraudFlag := false, ApprovedAmount := 0,
               RejectionReason := "Benefit limit exhausted" },
        none) := by
  norm_num [claimService.SubmitClaim, appDB.InTransaction, claimService.submitClaimInTx,
    memberDomain.GetMemberByID, memberDomain.scanRow, queryRowMemberByID,
    procedureDomain.GetProcedureByCode, procedureDomain.scanRow, queryRowProcedureByCode,
    claimService.persistRejectedClaim, claimDomain.CreateClaim, SequentialIdentifier.IsNew,
    SQLOperations.run, Store.exec, Faults.none, sampleStore, sampleForm,
    FraudAmountMultiplier, Claim.ofForm]

/-- Witness of C13: scenario 3 is rejected and the rows of `members` after it
are those before it. -/
theorem SubmitClaim_rejected_members_unchanged_witness :
    (claimService.SubmitClaim Faults.none (sampleStore 1000 100) (sampleForm 50)).1.members
        = (sampleStore 1000 100).members ∧
      (claimService.SubmitClaim Faults.none (sampleStore 1000 100) (sampleForm 50)).1.memberSeq
        = (sampleStore 1000 100).memberSeq :=
  SubmitClaim_rejected_members_unchanged Faults.none (sampleStore 1000 100) (sampleForm 50)
    { ClaimID := 1, Status := "REJECTED", FraudFlag := false, ApprovedAmount := 0,
      RejectionReason := "Benefit limit exhausted" }
    (by rw [sample_exhausted_SubmitClaim]) rfl

/-- C14: for every store and every submission with `requestedAmount > 0`, a call
of `SubmitClaim` that returns a nil error has persisted exactly one claim, and
that claim satisfies `0 ≤ approvedAmount ≤ requestedAmount`, its requested
amount being the one of the form. -/
theorem SubmitClaim_approved_bounds (fl : Faults) (db : Store) (form : ClaimSubmissionForm)
    (hpos : 0 < form.RequestedAmount)
    (hok : (claimService.SubmitClaim fl db form).2.2.2 = none) :
    ∃ claim : Claim,
      (claimService.SubmitClaim fl db form).1.claims = db.claims ++ [claim] ∧
      claim.RequestedAmount = form.RequestedAmount ∧
      0 ≤ claim.ApprovedAmount ∧ claim.ApprovedAmount ≤ claim.RequestedAmount := by
  rcases SubmitClaim_cases fl db form with
    ⟨calls, err, h, _⟩ | ⟨reason, fraudFlag, h⟩ |
    ⟨member, procedure, status, approved, reason, db1, _, _, hrem, hd, _, _, hclaims, h⟩
  · rw [h] at hok
    simp at hok
  · rw [h]
    exact ⟨_, rfl, rfl, le_refl _, le_of_lt hpos⟩
  · rw [h]
    refine ⟨_, hclaims, rfl, ?_, ?_⟩
    · show 0 ≤ approved
      rcases decided_cases hd with ⟨_, _, h1, _⟩ | ⟨_, _, h1, _⟩ <;> linarith
    · show approved ≤ form.RequestedAmount
      rcases decided_cases hd with ⟨_, _, h1, _⟩ | ⟨hlt, _, h1, _⟩ <;> linarith

/-- Witness of C14: scenario 2, requested 500, approved 200. -/
theorem SubmitClaim_approved_bounds_witness :
    ∃ claim : Claim,
      (claimService.SubmitClaim Faults.none (sampleStore 800 50) (sampleForm 500)).1.claims
        = (sampleStore 800 50).claims ++ [claim] ∧
      claim.RequestedAmount = (sampleForm 500).RequestedAmount ∧
      0 ≤ claim.ApprovedAmount ∧ claim.ApprovedAmount ≤ claim.RequestedAmount :=
  SubmitClaim_approved_bounds Faults.none (sampleStore 800 50) (sampleForm 500)
    (by norm_num [sampleForm]) (by rw [sample_partial_SubmitClaim])

/-- C19: for every call of `SubmitClaim` that returns a nil error, the response
mirrors the one claim row the call has persisted: `claimID` is the identifier
the store gave the row (the value of `RETURNING id`), status, approved amount,
fraud flag and rejection reason are those of the row, and the row's member,
provider, procedure code, diagnosis code and requested amount are those of the
form. -/
theorem SubmitClaim_response_mirrors_row (fl : Faults) (db : Store)
    (form : ClaimSubmissionForm)
    (hok : (claimService.SubmitClaim fl db form).2.2.2 = none) :
    ∃ (claim : Claim) (resp : ClaimSubmissionResponse),
      (claimService.SubmitClaim fl db form).2.2.1 = some resp ∧
      (claimService.SubmitClaim fl db form).1.claims = db.claims ++ [claim] ∧
      claim.ID = db.claimSeq ∧
      resp.ClaimID = claim.ID ∧
      resp.Status = claim.Status ∧
      resp.ApprovedAmount = claim.ApprovedAmount ∧
      resp.FraudFlag = claim.FraudFlag ∧
      resp.RejectionReason = claim.RejectionReason ∧
      claim.MemberID = form.MemberID ∧
      claim.ProviderID = form.ProviderID ∧
      claim.ProcedureCode = form.ProcedureCode ∧
      claim.DiagnosisCode = form.DiagnosisCode ∧
      claim.RequestedAmount = form.RequestedAmount := by
  rcases SubmitClaim_cases fl db form with
    ⟨calls, err, h, _⟩ | ⟨reason, fraudFlag, h⟩ |
    ⟨member, procedure, status, approved, reason, db1, _, _, _, _, _, _, hclaims, h⟩
  · rw [h] at hok
    simp at hok
  · rw [h]
    exact ⟨_, _, rfl, rfl, rfl, rfl, rfl, rfl, rfl, rfl, rfl, rfl, rfl, rfl, rfl⟩
  · rw [h]
    exact ⟨_, _, rfl, hclaims, rfl, rfl, rfl, rfl, rfl, rfl, rfl, rfl, rfl, rfl, rfl⟩

/-- Witness of C19: scenario 1. -/
theorem SubmitClaim_response_mirrors_row_witness :
    ∃ (claim : Claim) (resp : ClaimSubmissionResponse),
      (claimService.SubmitClaim Faults.none (sampleStore 0 100) (sampleForm 300)).2.2.1
        = some resp ∧
      (claimService.SubmitClaim Faults.none (sampleStore 0 100) (sampleForm 300)).1.claims
        = (sampleStore 0 100).claims ++ [claim] ∧
      claim.ID = (sampleStore 0 100).claimSeq ∧
      resp.ClaimID = claim.ID ∧
      resp.Status = claim.Status ∧
      resp.ApprovedAmount = claim.ApprovedAmount ∧
      resp.FraudFlag = claim.FraudFlag ∧
      resp.RejectionReason = claim.RejectionReason ∧
      claim.MemberID = (sampleForm 300).MemberID ∧
      claim.ProviderID = (sampleForm 300).ProviderID ∧
      claim.ProcedureCode = (sampleForm 300).ProcedureCode ∧
      claim.DiagnosisCode = (sampleForm 300).DiagnosisCode ∧
      claim.RequestedAmount = (sampleForm 300).RequestedAmount :=
  SubmitClaim_response_mirrors_row Faults.none (sampleStore 0 100) (sampleForm 300)
    (by rw [sample_approved_SubmitClaim])

/-! ## The ledger over calls in a row -/

theorem approvedTotal_append_list (id : Int) (claims added : List Claim) :
    approvedTotal id (claims ++ added) = approvedTotal id claims + approvedTotal id added := by
  simp [approvedTotal, List.filter_append]

/-- A call of `SubmitClaim` only appends to `claims`. -/
theorem SubmitClaim_claims_append (fl : Faults) (db : Store) (form : ClaimSubmissionForm) :
    ∃ added : List Claim,
      (claimService.SubmitClaim fl db form).1.claims = db.claims ++ added := by
  rcases SubmitClaim_cases fl db form with
    ⟨calls, err, h, _⟩ | ⟨reason, fraudFlag, h⟩ |
    ⟨_, _, _, _, _, db1, _, _, _, _, _, _, hclaims, h⟩
  · exact ⟨[], by rw [h, List.append_nil]⟩
  · exact ⟨_, by rw [h]⟩
  · exact ⟨_, by rw [h]; exact hclaims⟩

/-- Calls in a row only append to `claims`. -/
theorem serial_claims_append (calls : List (Faults × ClaimSubmissionForm)) :
    ∀ c : Concurrent, c.pending = [] →
      ∃ added : List Claim,
        (c.run (serial calls)).committed.claims = c.committed.claims ++ added := by
  induction calls with
  | nil => exact fun c _ => ⟨[], (List.append_nil _).symm⟩
  | cons call calls ih =>
    intro c hp
    obtain ⟨fl, form⟩ := call
    have hrun : c.run (serial ((fl, form) :: calls))
        = ((c.step (Event.body fl form)).step (Event.commit 0)).run (serial calls) := rfl
    rw [hrun, step_body_commit c fl form hp]
    obtain ⟨a1, h1⟩ := SubmitClaim_claims_append fl c.committed form
    obtain ⟨a2, h2⟩ := ih
      { committed := (claimService.SubmitClaim fl c.committed form).1
        pending := []
        returned := c.returned ++ (claimService.SubmitClaim fl c.committed form).2.2.1.toList }
      rfl
    exact ⟨a1 ++ a2, by rw [h2, h1, List.append_assoc]⟩

/-- Three calls for 600, 600 and 50 in a row against member 7 (limit 1000, used
0): approved 600, then the 400 left, then rejected. -/
theorem serial_three_eval :
    ((Concurrent.init (sampleStore 0 1000)).run
        (serial [(Faults.none, sampleForm 600), (Faults.none, sampleForm 600),
          (Faults.none, sampleForm 50)])).committed =
      { sampleStore 1000 1000 with
        claims := [Claim.ofForm 1 (sampleForm 600) 600 "APPROVED" false "",
          Claim.ofForm 2 (sampleForm 600) 400 "PARTIAL" false
            "Requested amount exceeds remaining benefit; approved up to remaining limit.",
          Claim.ofForm 3 (sampleForm 50) 0 "REJECTED" false "Benefit limit exhausted"],
        claimSeq := 4 } := by
  norm_num [Concurrent.run, Concurrent.init, serial, Concurrent.step, Store.replay,
    claimService.submitClaimInTx, claimService.persistRejectedClaim,
    memberDomain.GetMemberByID, memberDomain.scanRow,
    queryRowMemberByID, procedureDomain.GetProcedureByCode, procedureDomain.scanRow,
    queryRowProcedureByCode, memberDomain.CreateMember, claimDomain.CreateClaim,
    SequentialIdentifier.IsNew, SQLOperations.run, Store.exec, Faults.none, sampleStore,
    sampleForm, FraudAmountMultiplier, Claim.ofForm]

/-! ## The used amount never goes down -/

/-- An `INSERT` into `members` leaves what a lookup finds as it is. -/
theorem find_after_insert (ops : SQLOperations) (written member : Member) (id : Int)
    (hfind : ops.view.members.find? (fun m => m.ID == id) = some member)
    (hn : written.ID = 0) :
    (ops.run (memberDomain.writeStmt written)).1.view.members.find? (fun m => m.ID == id)
      = some member := by
  rw [run_writeStmt_members_new ops written hn, List.find?_append, hfind]
  rfl

/-- C20: a member's `used_amount` never decreases through adjudication. For
every store, every fault pattern and every submission with
`requestedAmount > 0`, a member found under an identifier before the call of
`SubmitClaim` is found under it after the call, with a `used_amount` greater
than or equal to the one before. -/
theorem SubmitClaim_used_never_decreases (fl : Faults) (db : Store)
    (form : ClaimSubmissionForm) (id : Int) (member : Member)
    (hpos : 0 < form.RequestedAmount)
    (hfind : db.members.find? (fun m => m.ID == id) = some member) :
    ∃ member1 : Member,
      (claimService.SubmitClaim fl db form).1.members.find? (fun m => m.ID == id)
        = some member1 ∧
      member.UsedAmount ≤ member1.UsedAmount := by
  rcases SubmitClaim_cases fl db form with
    ⟨calls, err, h, _⟩ | ⟨reason, fraudFlag, h⟩ |
    ⟨found, procedure, status, approved, reason, db1, hfound, _, hrem, hd, hmem, _, _, h⟩
  · rw [h]
    exact ⟨member, hfind, le_refl _⟩
  · rw [h]
    exact ⟨member, hfind, le_refl _⟩
  · rw [h]
    show ∃ member1 : Member, db1.members.find? _ = some member1 ∧ _
    rw [hmem]
    have hfid : found.ID = form.MemberID := find_member_ID hfound
    have happ : 0 ≤ approved := by
      rcases decided_cases hd with ⟨_, _, h1, _⟩ | ⟨_, _, h1, _⟩ <;> linarith
    by_cases hn : found.ID = 0
    · exact ⟨member, find_after_insert { view := db, writes := [] }
        { found with UsedAmount := found.UsedAmount + approved } member id hfind hn, le_refl _⟩
    · by_cases hsame : found.ID = id
      · have hfm : found = member := by
          rw [← hfid, hsame] at hfound
          rw [hfound] at hfind
          exact Option.some.inj hfind
        subst hfm
        refine ⟨{ found with UsedAmount := found.UsedAmount + approved }, ?_, ?_⟩
        · exact find_after_write_same { view := db, writes := [] } _ found id hfind hsame
            (by rw [← hsame]; exact hn)
        · show found.UsedAmount ≤ found.UsedAmount + approved
          linarith
      · exact ⟨member, find_after_write_other { view := db, writes := [] }
          { found with UsedAmount := found.UsedAmount + approved } member id hfind hsame,
          le_refl _⟩

/-- Witness of C20: scenario 1, member 7 goes from 0 used to at least 0. -/
theorem SubmitClaim_used_never_decreases_witness :
    ∃ member1 : Member,
      (claimService.SubmitClaim Faults.none (sampleStore 0 100) (sampleForm 300)).1.members.find?
          (fun m => m.ID == 7) = some member1 ∧
      (0 : ℚ) ≤ member1.UsedAmount :=
  SubmitClaim_used_never_decreases Faults.none (sampleStore 0 100) (sampleForm 300) 7
    { ID := 7, FullName := "Amina", IsActive := true, BenefitLimit := 1000, UsedAmount := 0 }
    (by norm_num [sampleForm]) rfl

/-! ## Status and reason of every outcome -/

/-- A response of `persistRejectedClaim` is the rejection it was asked for. -/
theorem persistRejectedClaim_response {fl : Faults} {ops : SQLOperations}
    {form : ClaimSubmissionForm} {reason : String} {fraudFlag : Bool}
    {resp : ClaimSubmissionResponse}
    (h : (claimService.persistRejectedClaim fl ops form reason fraudFlag).2.1 = some resp) :
    resp = { ClaimID := ops.view.claimSeq, Status := "REJECTED", FraudFlag := fraudFlag,
             ApprovedAmount := 0, RejectionReason := reason } := by
  by_cases hc : fl.claimWrite = true
  · rw [persistRejectedClaim_fault _ _ _ _ hc] at h
    simp at h
  · rw [persistRejectedClaim_ok _ _ _ _ (by simpa using hc)] at h
    simp only [Option.some.injEq] at h
    exact h.symm

/-- A response of `SubmitClaim` is the response of its operation. -/
theorem SubmitClaim_response_of_tx {fl : Faults} {db : Store} {form : ClaimSubmissionForm}
    {resp : ClaimSubmissionResponse}
    (h : (claimService.SubmitClaim fl db form).2.2.1 = some resp) :
    (claimService.submitClaimInTx fl { view := db, writes := [] } form).2.1 = some resp := by
  rw [SubmitClaim_eq] at h
  by_cases hb : fl.beginTx = true
  · simp [hb] at h
  · rcases hx : claimService.submitClaimInTx fl { view := db, writes := [] } form with
      ⟨tx, result, _ | err⟩
    · by_cases hc : fl.commitTx = true
      · simp [hb, hx, hc] at h
      · simpa [hb, hx, hc] using h
    · simp [hb, hx] at h

/-- Every response of `submitClaimInTx`, whatever fails, is an approval with no
reason, a partial approval with its reason, or a rejection with one of the
four reasons. -/
theorem submitClaimInTx_response_shape {fl : Faults} {ops : SQLOperations}
    {form : ClaimSubmissionForm} {resp : ClaimSubmissionResponse}
    (h : (claimService.submitClaimInTx fl ops form).2.1 = some resp) :
    (resp.Status = "APPROVED" ∧ resp.RejectionReason = "") ∨
    (resp.Status = "PARTIAL" ∧ resp.RejectionReason =
      "Requested amount exceeds remaining benefit; approved up to remaining limit.") ∨
    (resp.Status = "REJECTED" ∧
      (resp.RejectionReason = "Member not found" ∨
        resp.RejectionReason = "Member is not active" ∨
        resp.RejectionReason = "Invalid or unknown procedure code" ∨
        resp.RejectionReason = "Benefit limit exhausted")) := by
  rcases GetMemberByID_cases fl ops form.MemberID with ⟨member, _, _, hm⟩ | ⟨err, hm⟩
  · by_cases hactive : member.IsActive = true
    · rcases GetProcedureByCode_cases fl ops form.ProcedureCode with
        ⟨procedure, _, _, hp⟩ | ⟨err, hp⟩
      · by_cases hrem : member.BenefitLimit - member.UsedAmount ≤ 0
        · rw [submitClaimInTx_of_exhausted hm hactive hp hrem] at h
          rw [persistRejectedClaim_response h]
          exact Or.inr (Or.inr ⟨rfl, Or.inr (Or.inr (Or.inr rfl))⟩)
        · by_cases hle : form.RequestedAmount ≤ member.BenefitLimit - member.UsedAmount
          · rw [submitClaimInTx_funded hm hactive hp (not_le.mp hrem) "APPROVED"
              form.RequestedAmount "" (by rw [if_pos hle])] at h
            by_cases hw : fl.memberWrite = true
            · simp [hw] at h
            · by_cases hc : fl.claimWrite = true
              · simp [hw, hc] at h
              · simp [hw, hc] at h
                rw [← h]
                exact Or.inl ⟨rfl, rfl⟩
          · rw [submitClaimInTx_funded hm hactive hp (not_le.mp hrem) "PARTIAL"
              (member.BenefitLimit - member.UsedAmount)
              "Requested amount exceeds remaining benefit; approved up to remaining limit."
              (by rw [if_neg hle])] at h
            by_cases hw : fl.memberWrite = true
            · simp [hw] at h
            · by_cases hc : fl.claimWrite = true
              · simp [hw, hc] at h
              · simp [hw, hc] at h
                rw [← h]
                exact Or.inr (Or.inl ⟨rfl, rfl⟩)
      · rw [submitClaimInTx_of_procedure_err hm hactive hp] at h
        rw [persistRejectedClaim_response h]
        exact Or.inr (Or.inr ⟨rfl, Or.inr (Or.inr (Or.inl rfl))⟩)
    · rw [submitClaimInTx_of_inactive hm (by simpa using hactive)] at h
      rw [persistRejectedClaim_response h]
      exact Or.inr (Or.inr ⟨rfl, Or.inr (Or.inl rfl)⟩)
  · rw [submitClaimInTx_of_member_err hm] at h
    rw [persistRejectedClaim_response h]
    exact Or.inr (Or.inr ⟨rfl, Or.inl rfl⟩)

/-- C17: for every response that `SubmitClaim` returns, whatever fails, the
rejection/partial reason is the empty string if and only if the status is
`APPROVED`; a `PARTIAL` and a `REJECTED` response carry a reason that is not
empty. -/
theorem SubmitClaim_reason_empty_iff_approved (fl : Faults) (db : Store)
    (form : ClaimSubmissionForm) (resp : ClaimSubmissionResponse)
    (hr : (claimService.SubmitClaim fl db form).2.2.1 = some resp) :
    (resp.RejectionReason = "" ↔ resp.Status = "APPROVED") ∧
      (resp.Status = "PARTIAL" → resp.RejectionReason ≠ "") ∧
      (resp.Status = "REJECTED" → resp.RejectionReason ≠ "") := by
  rcases submitClaimInTx_response_shape (SubmitClaim_response_of_tx hr) with
    ⟨hs, hq⟩ | ⟨hs, hq⟩ | ⟨hs, hq | hq | hq | hq⟩ <;>
    · rw [hs, hq]
      decide

/-- Witness of C17: scenario 2, `PARTIAL` with its reason. -/
theorem SubmitClaim_reason_empty_iff_approved_witness :
    ("Requested amount exceeds remaining benefit; approved up to remaining limit." = ""
        ↔ "PARTIAL" = "APPROVED") ∧
      ("PARTIAL" = "PARTIAL" →
        "Requested amount exceeds remaining benefit; approved up to remaining limit." ≠ "") ∧
      ("PARTIAL" = "REJECTED" →
        "Requested amount exceeds remaining benefit; approved up to remaining limit." ≠ "") :=
  SubmitClaim_reason_empty_iff_approved Faults.none (sampleStore 800 50) (sampleForm 500)
    { ClaimID := 1, Status := "PARTIAL", FraudFlag := true, ApprovedAmount := 200,
      RejectionReason :=
        "Requested amount exceeds remaining benefit; approved up to remaining limit." }
    (by rw [sample_partial_SubmitClaim])

/-! ## When the outcome is a rejection -/

/-- A decision that `submitClaimInTx` persists is committed by `SubmitClaim`
when `Begin`, both writes and `Commit` succeed. -/
theorem SubmitClaim_of_funded {fl : Faults} {db : Store} {form : ClaimSubmissionForm}
    {member : Member} {procedure : Procedure}
    (hb : fl.beginTx = false) (hmw : fl.memberWrite = false) (hcw : fl.claimWrite = false)
    (hc : fl.commitTx = false)
    (hm : memberDomain.GetMemberByID fl { view := db, writes := [] } form.MemberID
      = (some member, none))
    (hactive : member.IsActive = true)
    (hp : procedureDomain.GetProcedureByCode fl { view := db, writes := [] } form.ProcedureCode
      = (some procedure, none))
    (hrem : 0 < member.BenefitLimit - member.UsedAmount)
    (status : ClaimStatus) (approved : ℚ) (reason : String)
    (hd : (if form.RequestedAmount ≤ member.BenefitLimit - member.UsedAmount then
            (("APPROVED", form.RequestedAmount, "") : ClaimStatus × ℚ × String)
          else
            ("PARTIAL", member.BenefitLimit - member.UsedAmount,
              "Requested amount exceeds remaining benefit; approved up to remaining limit."))
          = (status, approved, reason)) :
    (claimService.SubmitClaim fl db form).2.2 =
      (some
        { ClaimID := db.claimSeq
          Status := status
          FraudFlag :=
            decide (form.RequestedAmount > procedure.AverageCost * FraudAmountMultiplier)
          ApprovedAmount := approved
          RejectionReason := reason }, none) := by
  rw [SubmitClaim_eq, submitClaimInTx_funded hm hactive hp hrem status approved reason hd]
  simp [hb, hmw, hcw, hc]

/-- C16: when all store operations succeed (no read or write fails, `Begin` and
`Commit` succeed), `SubmitClaim` returns a response, and its status is
`REJECTED` if and only if the member is not found, or is found and not active,
or the procedure code is unknown, or the member is found with
`remaining ≤ 0`; a response that is not `REJECTED` is `APPROVED` or `PARTIAL`
and belongs to a member found with `remaining > 0`. -/
theorem SubmitClaim_rejected_iff (fl : Faults) (db : Store) (form : ClaimSubmissionForm)
    (hfl : fl.StoreOK) (hb : fl.beginTx = false) (hc : fl.commitTx = false) :
    ∃ resp : ClaimSubmissionResponse,
      (claimService.SubmitClaim fl db form).2.2 = (some resp, none) ∧
      (resp.Status = "REJECTED" ↔
        (db.members.find? (fun m => m.ID == form.MemberID) = none ∨
          (∃ member : Member,
            db.members.find? (fun m => m.ID == form.MemberID) = some member ∧
            member.IsActive = false) ∨
          db.procedures.find? (fun p => p.Code == form.ProcedureCode) = none ∨
          (∃ member : Member,
            db.members.find? (fun m => m.ID == form.MemberID) = some member ∧
            member.BenefitLimit - member.UsedAmount ≤ 0))) ∧
      (resp.Status ≠ "REJECTED" →
        (resp.Status = "APPROVED" ∨ resp.Status = "PARTIAL") ∧
        ∃ member : Member,
          db.members.find? (fun m => m.ID == form.MemberID) = some member ∧
          0 < member.BenefitLimit - member.UsedAmount) := by
  obtain ⟨hmr, hpr, hmw, hcw⟩ := hfl
  have hrej : ∀ (reason : String) (fraudFlag : Bool),
      claimService.submitClaimInTx fl { view := db, writes := [] } form
        = claimService.persistRejectedClaim fl { view := db, writes := [] } form reason
            fraudFlag →
      (claimService.SubmitClaim fl db form).2.2 =
        (some { ClaimID := db.claimSeq, Status := "REJECTED", FraudFlag := fraudFlag,
                ApprovedAmount := 0, RejectionReason := reason }, none) := by
    intro reason fraudFlag h
    rw [SubmitClaim_of_rejected hb hcw hc h]
  cases hfm : db.members.find? (fun m => m.ID == form.MemberID) with
  | none =>
    have hm : memberDomain.GetMemberByID fl { view := db, writes := [] } form.MemberID
        = (some Member.zero, some (Error.DatabaseError SqlError.ErrNoRows)) :=
      GetMemberByID_missing hmr hfm
    exact ⟨_, hrej _ _ (submitClaimInTx_of_member_err hm),
      ⟨fun _ => Or.inl rfl, fun _ => rfl⟩, fun h => absurd rfl h⟩
  | some member =>
    have hm : memberDomain.GetMemberByID fl { view := db, writes := [] } form.MemberID
        = (some member, none) := GetMemberByID_found hmr hfm
    by_cases hactive : member.IsActive = true
    · cases hfp : db.procedures.find? (fun p => p.Code == form.ProcedureCode) with
      | none =>
        have hp : procedureDomain.GetProcedureByCode fl { view := db, writes := [] }
            form.ProcedureCode
            = (some Procedure.zero, some (Error.DatabaseError SqlError.ErrNoRows)) :=
          GetProcedureByCode_missing hpr hfp
        exact ⟨_, hrej _ _ (submitClaimInTx_of_procedure_err hm hactive hp),
          ⟨fun _ => Or.inr (Or.inr (Or.inl rfl)), fun _ => rfl⟩, fun h => absurd rfl h⟩
      | some procedure =>
        have hp : procedureDomain.GetProcedureByCode fl { view := db, writes := [] }
            form.ProcedureCode = (some procedure, none) := GetProcedureByCode_found hpr hfp
        by_cases hrem : member.BenefitLimit - member.UsedAmount ≤ 0
        · exact ⟨_, hrej _ _ (submitClaimInTx_of_exhausted hm hactive hp hrem),
            ⟨fun _ => Or.inr (Or.inr (Or.inr ⟨member, rfl, hrem⟩)), fun _ => rfl⟩,
            fun h => absurd rfl h⟩
        · have hrem1 : 0 < member.BenefitLimit - member.UsedAmount := not_le.mp hrem
          have hnot : ¬ (some member = none ∨
              (∃ m : Member, some member = some m ∧ m.IsActive = false) ∨
              some procedure = none ∨
              (∃ m : Member, some member = some m ∧ m.BenefitLimit - m.UsedAmount ≤ 0)) := by
            rintro (h | ⟨m, h1, h2⟩ | h | ⟨m, h1, h2⟩)
            · simp at h
            · rw [← Option.some.inj h1, hactive] at h2
              exact absurd h2 (by decide)
            · simp at h
            · rw [← Option.some.inj h1] at h2
              exact hrem h2
          by_cases hle : form.RequestedAmount ≤ member.BenefitLimit - member.UsedAmount
          · refine ⟨_, SubmitClaim_of_funded hb hmw hcw hc hm hactive hp hrem1 "APPROVED"
              form.RequestedAmount "" (by rw [if_pos hle]), ⟨fun h => ?_, fun h => ?_⟩,
              fun _ => ⟨Or.inl rfl, member, rfl, hrem1⟩⟩
            · exact absurd (show ("APPROVED" : String) = "REJECTED" from h) (by decide)
            · exact absurd h hnot
          · refine ⟨_, SubmitClaim_of_funded hb hmw hcw hc hm hactive hp hrem1 "PARTIAL"
              (member.BenefitLimit - member.UsedAmount)
              "Requested amount exceeds remaining benefit; approved up to remaining limit."
              (by rw [if_neg hle]), ⟨fun h => ?_, fun h => ?_⟩,
              fun _ => ⟨Or.inr rfl, member, rfl, hrem1⟩⟩
            · exact absurd (show ("PARTIAL" : String) = "REJECTED" from h) (by decide)
            · exact absurd h hnot
    · have hactive1 : member.IsActive = false := by simpa using hactive
      exact ⟨_, hrej _ _ (submitClaimInTx_of_inactive hm hactive1),
        ⟨fun _ => Or.inr (Or.inl ⟨member, rfl, hactive1⟩), fun _ => rfl⟩,
        fun h => absurd rfl h⟩

/-- Witness of C16: member 7 is found and not active, and the response is
`REJECTED`. -/
theorem SubmitClaim_rejected_iff_witness :
    ∃ resp : ClaimSubmissionResponse,
      (claimService.SubmitClaim Faults.none inactiveOps.view (sampleForm 50)).2.2
        = (some resp, none) ∧
      resp.Status = "REJECTED" ∧
      ∃ member : Member,
        inactiveOps.view.members.find? (fun m => m.ID == (sampleForm 50).MemberID)
          = some member ∧
        member.IsActive = false := by
  obtain ⟨resp, hr, hiff, _⟩ := SubmitClaim_rejected_iff Faults.none inactiveOps.view
    (sampleForm 50) Faults.none_StoreOK rfl rfl
  refine ⟨resp, hr, hiff.mpr (Or.inr (Or.inl ⟨_, rfl, rfl⟩)), _, rfl, rfl⟩

/-! ## The spelling of the status -/

/-- Whatever `SubmitClaim` returns carries one of the three strings written in
the service, and none of them is a declared `ClaimStatus` value. -/
theorem SubmitClaim_status_not_declared {fl : Faults} {db : Store}
    {form : ClaimSubmissionForm} {resp : ClaimSubmissionResponse}
    (hr : (claimService.SubmitClaim fl db form).2.2.1 = some resp) :
    (resp.Status = "APPROVED" ∨ resp.Status = "PARTIAL" ∨ resp.Status = "REJECTED") ∧
      resp.Status ∉ ClaimStatus.declared := by
  rcases submitClaimInTx_response_shape (SubmitClaim_response_of_tx hr) with
    ⟨hs, _⟩ | ⟨hs, _⟩ | ⟨hs, _⟩ <;>
    · rw [hs]
      decide

/-- C18 against the code: in scenarios 1, 2 and 3 the claim `SubmitClaim`
persists and the response it returns carry the status `"APPROVED"`,
`"PARTIAL"` and `"REJECTED"`, and none of these is one of the declared values
`ClaimStatusApproved = "approved"`, `ClaimStatusPartial = "partial"`,
`ClaimStatusRejected = "rejected"`. -/
theorem status_spelling_divergence :
    ((claimService.SubmitClaim Faults.none (sampleStore 0 100) (sampleForm 300)).1.claims.map
          (fun c => c.Status) = ["APPROVED"] ∧
      (claimService.SubmitClaim Faults.none (sampleStore 0 100) (sampleForm 300)).2.2.1.map
          (fun r => r.Status) = some "APPROVED" ∧
      "APPROVED" ∉ ClaimStatus.declared) ∧
    ((claimService.SubmitClaim Faults.none (sampleStore 800 50) (sampleForm 500)).1.claims.map
          (fun c => c.Status) = ["PARTIAL"] ∧
      (claimService.SubmitClaim Faults.none (sampleStore 800 50) (sampleForm 500)).2.2.1.map
          (fun r => r.Status) = some "PARTIAL" ∧
      "PARTIAL" ∉ ClaimStatus.declared) ∧
    ((claimService.SubmitClaim Faults.none (sampleStore 1000 100) (sampleForm 50)).1.claims.map
          (fun c => c.Status) = ["REJECTED"] ∧
      (claimService.SubmitClaim Faults.none (sampleStore 1000 100) (sampleForm 50)).2.2.1.map
          (fun r => r.Status) = some "REJECTED" ∧
      "REJECTED" ∉ ClaimStatus.declared) := by
  rw [sample_approved_SubmitClaim, sample_partial_SubmitClaim, sample_exhausted_SubmitClaim]
  refine ⟨⟨rfl, rfl, by decide⟩, ⟨rfl, rfl, by decide⟩, ⟨rfl, rfl, by decide⟩⟩

/-! ## The precedence of the rejection reasons -/

/-- C24: the rejection reasons are chosen in a fixed precedence. With the reads
and the claim insert succeeding: a member in no row is rejected with "Member
not found" whatever the procedure code; a member found and not active with
"Member is not active" whatever the procedure code and the remaining benefit
(so also with `remaining ≤ 0`); an active member with an unknown procedure code
with "Invalid or unknown procedure code" whatever the remaining benefit (so
also with `remaining ≤ 0`); and only an active member with a known procedure
code and `remaining ≤ 0` with "Benefit limit exhausted". -/
theorem submitClaimInTx_reason_precedence (fl : Faults) (ops : SQLOperations)
    (form : ClaimSubmissionForm)
    (hmr : fl.memberRead = false) (hpr : fl.procedureRead = false)
    (hcw : fl.claimWrite = false) :
    (ops.view.members.find? (fun m => m.ID == form.MemberID) = none →
      (claimService.submitClaimInTx fl ops form).2 =
        (some { ClaimID := ops.view.claimSeq, Status := "REJECTED", FraudFlag := false,
                ApprovedAmount := 0, RejectionReason := "Member not found" }, none)) ∧
    (∀ member : Member,
      ops.view.members.find? (fun m => m.ID == form.MemberID) = some member →
      member.IsActive = false →
      (claimService.submitClaimInTx fl ops form).2 =
        (some { ClaimID := ops.view.claimSeq, Status := "REJECTED", FraudFlag := false,
                ApprovedAmount := 0, RejectionReason := "Member is not active" }, none)) ∧
    (∀ member : Member,
      ops.view.members.find? (fun m => m.ID == form.MemberID) = some member →
      member.IsActive = true →
      ops.view.procedures.find? (fun p => p.Code == form.ProcedureCode) = none →
      (claimService.submitClaimInTx fl ops form).2 =
        (some { ClaimID := ops.view.claimSeq, Status := "REJECTED", FraudFlag := false,
                ApprovedAmount := 0, RejectionReason := "Invalid or unknown procedure code" },
          none)) ∧
    (∀ (member : Member) (procedure : Procedure),
      ops.view.members.find? (fun m => m.ID == form.MemberID) = some member →
      member.IsActive = true →
      ops.view.procedures.find? (fun p => p.Code == form.ProcedureCode) = some procedure →
      member.BenefitLimit - member.UsedAmount ≤ 0 →
      (claimService.submitClaimInTx fl ops form).2 =
        (some { ClaimID := ops.view.claimSeq, Status := "REJECTED",
                FraudFlag :=
                  decide (form.RequestedAmount > procedure.AverageCost * FraudAmountMultiplier),
                ApprovedAmount := 0, RejectionReason := "Benefit limit exhausted" },
          none)) := by
  refine ⟨fun hf => ?_, fun member hf hactive => ?_, fun member hf hactive hp => ?_,
    fun member procedure hf hactive hp hrem => ?_⟩
  · rw [submitClaimInTx_of_member_err (GetMemberByID_missing hmr hf),
      persistRejectedClaim_ok _ _ _ _ hcw]
  · rw [submitClaimInTx_of_inactive (GetMemberByID_found hmr hf) hactive,
      persistRejectedClaim_ok _ _ _ _ hcw]
  · rw [submitClaimInTx_of_procedure_err (GetMemberByID_found hmr hf) hactive
        (GetProcedureByCode_missing hpr hp),
      persistRejectedClaim_ok _ _ _ _ hcw]
  · rw [submitClaimInTx_of_exhausted (GetMemberByID_found hmr hf) hactive
        (GetProcedureByCode_found hpr hp) hrem,
      persistRejectedClaim_ok _ _ _ _ hcw]

/-- Witness of C24: an active member with `remaining = 1000 - 1000 ≤ 0` and the
unknown code `X999` is rejected for the code; a member that is not active and
has `remaining = 1000 - 1000 ≤ 0` is rejected for not being active. -/
theorem submitClaimInTx_reason_precedence_witness :
    (claimService.submitClaimInTx Faults.none (sampleOps 1000 100) (unknownCodeForm 50)).2 =
        (some { ClaimID := 1, Status := "REJECTED", FraudFlag := false, ApprovedAmount := 0,
                RejectionReason := "Invalid or unknown procedure code" }, none) ∧
      (claimService.submitClaimInTx Faults.none exhaustedInactiveOps (sampleForm 50)).2 =
        (some { ClaimID := 1, Status := "REJECTED", FraudFlag := false, ApprovedAmount := 0,
                RejectionReason := "Member is not active" }, none) :=
  ⟨(submitClaimInTx_reason_precedence Faults.none (sampleOps 1000 100) (unknownCodeForm 50)
      rfl rfl rfl).2.2.1
      { ID := 7, FullName := "Amina", IsActive := true, BenefitLimit := 1000,
        UsedAmount := 1000 } rfl rfl rfl,
    (submitClaimInTx_reason_precedence Faults.none exhaustedInactiveOps (sampleForm 50)
      rfl rfl rfl).2.1
      { ID := 7, FullName := "Amina", IsActive := false, BenefitLimit := 1000,
        UsedAmount := 1000 } rfl rfl⟩

/-! ## A requested amount that is not positive -/

/-- C26: once `Begin` has succeeded, `InTransaction` calls `Commit` if and only
if the operation returns nil and `Rollback` if and only if it returns an error,
exactly one of the two; when the operation fails it returns the operation's
error, unless the rollback fails too: then it returns the error of the rollback
and the operation's error is lost. When the operation returns nil it returns
what `Commit` returns. -/
theorem InTransaction_commit_iff {α : Type} (fl : Faults) (db : Store)
    (operations : SQLOperations → SQLOperations × α × Option Error)
    (hb : fl.beginTx = false) :
    (TxCall.Commit ∈ (appDB.InTransaction fl db operations).2.1 ↔
        (operations { view := db, writes := [] }).2.2 = none) ∧
      (TxCall.Rollback ∈ (appDB.InTransaction fl db operations).2.1 ↔
        (operations { view := db, writes := [] }).2.2 ≠ none) ∧
      (TxCall.Commit ∈ (appDB.InTransaction fl db operations).2.1 ↔
        TxCall.Rollback ∉ (appDB.InTransaction fl db operations).2.1) ∧
      (∀ err, (operations { view := db, writes := [] }).2.2 = some err →
        (appDB.InTransaction fl db operations).2.2.2 =
          some (if fl.rollbackTx then Error.Tx TxCall.Rollback else err)) ∧
      ((operations { view := db, writes := [] }).2.2 = none →
        (appDB.InTransaction fl db operations).2.2.2 =
          if fl.commitTx then some (Error.Tx TxCall.Commit) else none) := by
  unfold appDB.InTransaction
  rcases h : operations { view := db, writes := [] } with ⟨tx, a, _ | err⟩
  · by_cases hc : fl.commitTx = true <;> simp [hb, hc]
  · by_cases hr : fl.rollbackTx = true <;> simp [hb, hr]

/-- An operation that writes nothing and fails. -/
theorem failingOperation_eval :
    (failingOperation { view := sampleStore 0 100, writes := [] }).2.2
      = some (Error.DatabaseError SqlError.Fault) := rfl

/-- Witness of C26: the operation fails and so does the rollback; `Rollback` is
called, `Commit` is not, and the error returned is the one of the rollback. -/
theorem InTransaction_commit_iff_witness :
    (TxCall.Rollback ∈ (appDB.InTransaction rollbackFault (sampleStore 0 100)
        failingOperation).2.1) ∧
      (TxCall.Commit ∉ (appDB.InTransaction rollbackFault (sampleStore 0 100)
        failingOperation).2.1) ∧
      (appDB.InTransaction rollbackFault (sampleStore 0 100) failingOperation).2.2.2 =
        some (Error.Tx TxCall.Rollback) := by
  obtain ⟨h1, h2, h3, h4, _⟩ :=
    InTransaction_commit_iff rollbackFault (sampleStore 0 100) failingOperation rfl
  have hf := failingOperation_eval
  refine ⟨h2.mpr (by rw [hf]; simp), fun hc => ?_, ?_⟩
  · rw [h1, hf] at hc
    simp at hc
  · rw [h4 _ hf]
    rfl

/-! ## The outcome depends on the member, the procedure and the form only -/

theorem GetMemberByID_congr {fl : Faults} {ops1 ops2 : SQLOperations} {id : Int}
    (h : ops1.view.members.find? (fun m => m.ID == id)
      = ops2.view.members.find? (fun m => m.ID == id)) :
    memberDomain.GetMemberByID fl ops1 id = memberDomain.GetMemberByID fl ops2 id := by
  simp only [memberDomain.GetMemberByID, queryRowMemberByID, h]

theorem GetProcedureByCode_congr {fl : Faults} {ops1 ops2 : SQLOperations} {code : String}
    (h : ops1.view.procedures.find? (fun p => p.Code == code)
      = ops2.view.procedures.find? (fun p => p.Code == code)) :
    procedureDomain.GetProcedureByCode fl ops1 code
      = procedureDomain.GetProcedureByCode fl ops2 code := by
  simp only [procedureDomain.GetProcedureByCode, queryRowProcedureByCode, h]

/-- The decision and the error of a rejection do not depend on the rows. -/
theorem persistRejectedClaim_decision (fl : Faults) (ops1 ops2 : SQLOperations)
    (form : ClaimSubmissionForm) (reason : String) (fraudFlag : Bool) :
    ((claimService.persistRejectedClaim fl ops1 form reason fraudFlag).2.1.map
        ClaimSubmissionResponse.decision,
      (claimService.persistRejectedClaim fl ops1 form reason fraudFlag).2.2) =
    ((claimService.persistRejectedClaim fl ops2 form reason fraudFlag).2.1.map
        ClaimSubmissionResponse.decision,
      (claimService.persistRejectedClaim fl ops2 form reason fraudFlag).2.2) := by
  by_cases hc : fl.claimWrite = true
  · rw [persistRejectedClaim_fault _ _ _ _ hc, persistRejectedClaim_fault _ _ _ _ hc]
  · rw [persistRejectedClaim_ok _ _ _ _ (by simpa using hc),
      persistRejectedClaim_ok _ _ _ _ (by simpa using hc)]
    rfl

/-- C22: the eligibility, fraud and decision steps are pure. Two runs of
`submitClaimInTx` with the same form, under the same faults, on handles whose
rows give the same member for the form's member identifier and the same
procedure for its procedure code, return the same status, approved amount,
fraud flag and rejection reason, and the same error; nothing else in the rows
(other members, procedures, claims, sequences, statements issued) has a
say. In particular two runs on identical rows agree. -/
theorem submitClaimInTx_decision_congr (fl : Faults) (ops1 ops2 : SQLOperations)
    (form : ClaimSubmissionForm)
    (hm : ops1.view.members.find? (fun m => m.ID == form.MemberID)
      = ops2.view.members.find? (fun m => m.ID == form.MemberID))
    (hp : ops1.view.procedures.find? (fun p => p.Code == form.ProcedureCode)
      = ops2.view.procedures.find? (fun p => p.Code == form.ProcedureCode)) :
    ((claimService.submitClaimInTx fl ops1 form).2.1.map ClaimSubmissionResponse.decision,
      (claimService.submitClaimInTx fl ops1 form).2.2) =
    ((claimService.submitClaimInTx fl ops2 form).2.1.map ClaimSubmissionResponse.decision,
      (claimService.submitClaimInTx fl ops2 form).2.2) := by
  have hm2 := @GetMemberByID_congr fl ops1 ops2 form.MemberID hm
  have hp2 := @GetProcedureByCode_congr fl ops1 ops2 form.ProcedureCode hp
  rcases GetMemberByID_cases fl ops1 form.MemberID with ⟨member, _, _, hm1⟩ | ⟨err, hm1⟩
  · by_cases hactive : member.IsActive = true
    · rcases GetProcedureByCode_cases fl ops1 form.ProcedureCode with
        ⟨procedure, _, _, hp1⟩ | ⟨err, hp1⟩
      · by_cases hrem : member.BenefitLimit - member.UsedAmount ≤ 0
        · rw [submitClaimInTx_of_exhausted hm1 hactive hp1 hrem,
            submitClaimInTx_of_exhausted (hm2 ▸ hm1) hactive (hp2 ▸ hp1) hrem]
          exact persistRejectedClaim_decision _ _ _ _ _ _
        · rw [submitClaimInTx_funded hm1 hactive hp1 (not_le.mp hrem) _ _ _ rfl,
            submitClaimInTx_funded (hm2 ▸ hm1) hactive (hp2 ▸ hp1) (not_le.mp hrem) _ _ _ rfl]
          by_cases hw : fl.memberWrite = true
          · simp [hw]
          · by_cases hc : fl.claimWrite = true
            · simp [hw, hc]
            · simp [hw, hc, ClaimSubmissionResponse.decision]
      · rw [submitClaimInTx_of_procedure_err hm1 hactive hp1,
          submitClaimInTx_of_procedure_err (hm2 ▸ hm1) hactive (hp2 ▸ hp1)]
        exact persistRejectedClaim_decision _ _ _ _ _ _
    · have hactive1 : member.IsActive = false := by simpa using hactive
      rw [submitClaimInTx_of_inactive hm1 hactive1,
        submitClaimInTx_of_inactive (hm2 ▸ hm1) hactive1]
      exact persistRejectedClaim_decision _ _ _ _ _ _
  · rw [submitClaimInTx_of_member_err hm1, submitClaimInTx_of_member_err (hm2 ▸ hm1)]
    exact persistRejectedClaim_decision _ _ _ _ _ _

/-- Witness of C22: scenario 2 on the sample rows and on rows with further
members, procedures and claims gives the same decision (and another claim
identifier). -/
theorem submitClaimInTx_decision_congr_witness :
    ((claimService.submitClaimInTx Faults.none (sampleOps 800 50) (sampleForm 500)).2.1.map
        ClaimSubmissionResponse.decision,
      (claimService.submitClaimInTx Faults.none (sampleOps 800 50) (sampleForm 500)).2.2) =
    ((claimService.submitClaimInTx Faults.none busyOps (sampleForm 500)).2.1.map
        ClaimSubmissionResponse.decision,
      (claimService.submitClaimInTx Faults.none busyOps (sampleForm 500)).2.2) :=
  submitClaimInTx_decision_congr Faults.none (sampleOps 800 50) busyOps (sampleForm 500)
    rfl rfl

/-! ## A deadline on the call -/

/-- A claim insert that fails rolls every call back. -/
theorem SubmitClaim_of_claimWrite_fault {fl : Faults} (db : Store)
    (form : ClaimSubmissionForm) (hb : fl.beginTx = false) (hc : fl.claimWrite = true) :
    ∃ err, claimService.SubmitClaim fl db form
      = (db, [TxCall.Begin, TxCall.Rollback], none, some err) := by
  rcases submitClaimInTx_cases fl { view := db, writes := [] } form with
    ⟨tx, err, _, h⟩ | ⟨_, _, hc1, _⟩ | ⟨_, _, _, _, _, _, _, _, _, _, hc1, _⟩
  · exact ⟨_, SubmitClaim_of_tx_error hb h⟩
  · rw [hc] at hc1; exact absurd hc1 (by decide)
  · rw [hc] at hc1; exact absurd hc1 (by decide)

theorem deadlineBefore_late {k : Nat} (hk : 5 ≤ k) : Faults.deadlineBefore k = Faults.none := by
  have h1 : ¬ k ≤ 1 := by omega
  have h2 : ¬ k ≤ 2 := by omega
  have h3 : ¬ k ≤ 3 := by omega
  have h4 : ¬ k ≤ 4 := by omega
  simp [Faults.deadlineBefore, Faults.none, h1, h2, h3, h4]

/-- C23 as the code has it: a deadline that elapses before the last statement
of the call (the claim insert) has run makes `SubmitClaim` return an error and
no response; `Rollback` is called, `Commit` is not, and the committed rows are
those before the call, so neither a claim row nor a ledger update survives. A
deadline that elapses after the last statement and before `Commit` goes
unnoticed: the call does exactly what a call without deadline does. Either
way the committed rows are never half-applied. -/
theorem SubmitClaim_deadline (k : Nat) (db : Store) (form : ClaimSubmissionForm) :
    (k ≤ 4 →
      ∃ err, claimService.SubmitClaim (Faults.deadlineBefore k) db form
        = (db, [TxCall.Begin, TxCall.Rollback], none, some err)) ∧
    (5 ≤ k →
      claimService.SubmitClaim (Faults.deadlineBefore k) db form
        = claimService.SubmitClaim Faults.none db form) := by
  constructor
  · intro hk
    exact SubmitClaim_of_claimWrite_fault db form rfl
      (by simp [Faults.deadlineBefore, hk])
  · intro hk
    rw [deadlineBefore_late hk]

/-- Witness of the amended C23: in scenario 1 the deadline elapses after the
member update and before the claim insert; the call is rolled back. -/
theorem SubmitClaim_deadline_witness :
    ∃ err, claimService.SubmitClaim (Faults.deadlineBefore 4) (sampleStore 0 100)
        (sampleForm 300)
      = (sampleStore 0 100, [TxCall.Begin, TxCall.Rollback], none, some err) :=
  (SubmitClaim_deadline 4 (sampleStore 0 100) (sampleForm 300)).1 (by decide)

/-- C23 fails as stated: in scenario 1 the deadline elapses after the claim
insert and before `Commit`; no statement is left to notice it, `Commit` takes
no context, the transaction commits the member update and the claim row, and
`SubmitClaim` returns the response with a nil error. -/
theorem deadline_before_commit_counterexample :
    claimService.SubmitClaim (Faults.deadlineBefore 5) (sampleStore 0 100) (sampleForm 300) =
      ({ sampleStore 300 100 with
          claims := [Claim.ofForm 1 (sampleForm 300) 300 "APPROVED" true ""],
          claimSeq := 2 },
        [TxCall.Begin, TxCall.Commit],
        some { ClaimID := 1, Status := "APPROVED", FraudFlag := true, ApprovedAmount := 300,
               RejectionReason := "" },
        none) := by
  rw [deadlineBefore_late (by decide), sample_approved_SubmitClaim]

/-! ## Claim rows that are removed or rewritten -/

/-- `SubmitClaim` keeps the committed claims and adds at most one row, exactly
one when it returns a nil error. -/
theorem SubmitClaim_claims_append_one (fl : Faults) (db : Store) (form : ClaimSubmissionForm) :
    ∃ added : List Claim,
      (claimService.SubmitClaim fl db form).1.claims = db.claims ++ added ∧
      added.length ≤ 1 ∧
      ((claimService.SubmitClaim fl db form).2.2.2 = none → added.length = 1) := by
  rcases SubmitClaim_cases fl db form with
    ⟨calls, err, h, _⟩ | ⟨reason, fraudFlag, h⟩ |
    ⟨_, _, _, _, _, db1, _, _, _, _, _, _, hclaims, h⟩
  · refine ⟨[], by rw [h, List.append_nil], by simp, ?_⟩
    rw [h]
    intro he
    exact absurd he (by simp)
  · exact ⟨[Claim.ofForm db.claimSeq form 0 "REJECTED" fraudFlag reason], by rw [h],
      by simp, fun _ => rfl⟩
  · exact ⟨[_], by rw [h]; exact hclaims, by simp, fun _ => rfl⟩

/-- The `UPDATE` of `CreateClaim` puts the claim in the place of every row with
its `ID`. -/
theorem CreateClaim_update_claims (fl : Faults) (ops : SQLOperations) (claim : Claim)
    (hid : claim.ID ≠ 0) (hw : fl.claimWrite = false) :
    claimDomain.CreateClaim fl ops claim =
      ({ view := { ops.view with
            claims := ops.view.claims.map (fun c => if c.ID = claim.ID then claim else c) },
          writes := ops.writes ++ [Stmt.updateClaimSQL claim.MemberID claim.ProviderID
            claim.ProcedureCode claim.DiagnosisCode claim.RequestedAmount claim.ApprovedAmount
            claim.Status claim.FraudFlag claim.RejectionReason claim.ID] },
        claim, none) := by
  have hnew : SequentialIdentifier.IsNew claim.ID = false := by
    simp [SequentialIdentifier.IsNew, hid]
  unfold claimDomain.CreateClaim
  rw [hnew, hw]
  simp only [Bool.false_eq_true, if_false, SQLOperations.run, Store.exec, Prod.mk.injEq,
    and_true, SQLOperations.mk.injEq, Store.mk.injEq, true_and]
  apply List.map_congr_left
  intro c _
  by_cases hc : c.ID = claim.ID
  · rw [if_pos hc, if_pos hc]
    cases c
    cases claim
    simp only at hc
    subst hc
    rfl
  · rw [if_neg hc, if_neg hc]

/-- C21 as the code has it. `SubmitClaim` keeps every committed claim row as
it is and adds at most one row, exactly one when it returns a nil error. The
service and the domain do expose a removal and a rewrite:
`claimService.DeleteClaim` removes every claim row with the given id and
leaves the other rows as they are (when its statement fails, it returns the
error and the rows are unchanged), and `claimDomain.CreateClaim` called with a
claim whose `ID` is not zero puts that claim, adjudicated fields included, in
the place of every row with that `ID`. -/
theorem claim_rows_lifecycle (fl : Faults) (db : Store) (form : ClaimSubmissionForm)
    (claimID : Int) (ops : SQLOperations) (claim : Claim) :
    (∃ added : List Claim,
      (claimService.SubmitClaim fl db form).1.claims = db.claims ++ added ∧
      added.length ≤ 1 ∧
      ((claimService.SubmitClaim fl db form).2.2.2 = none → added.length = 1)) ∧
    (fl.claimWrite = false →
      claimService.DeleteClaim fl db claimID =
        ({ db with claims := db.claims.filter (fun c => c.ID != claimID) }, none)) ∧
    (fl.claimWrite = true →
      claimService.DeleteClaim fl db claimID = (db, some (Error.DatabaseError .Fault))) ∧
    (claim.ID ≠ 0 → fl.claimWrite = false →
      (claimDomain.CreateClaim fl ops claim).1.view.claims =
          ops.view.claims.map (fun c => if c.ID = claim.ID then claim else c) ∧
        (claimDomain.CreateClaim fl ops claim).2.2 = none) := by
  refine ⟨SubmitClaim_claims_append_one fl db form, ?_, ?_, ?_⟩
  · intro hw
    simp [claimService.DeleteClaim, claimDomain.DeleteClaim, hw, SQLOperations.run, Store.exec]
  · intro hw
    simp [claimService.DeleteClaim, claimDomain.DeleteClaim, hw]
  · intro hid hw
    rw [CreateClaim_update_claims fl ops claim hid hw]
    exact ⟨rfl, rfl⟩

/-- Witness of the amended C21 on the rows of scenario 1: a submission adds
one row to the claims, `DeleteClaim 1` leaves no claim, and `CreateClaim` with
`ID = 1` puts its claim in the place of claim 1. -/
theorem claim_rows_lifecycle_witness :
    (∃ added : List Claim,
      (claimService.SubmitClaim Faults.none settledStore (sampleForm 50)).1.claims
          = settledStore.claims ++ added ∧
      added.length ≤ 1 ∧
      ((claimService.SubmitClaim Faults.none settledStore (sampleForm 50)).2.2.2 = none →
        added.length = 1)) ∧
    claimService.DeleteClaim Faults.none settledStore 1 =
      ({ settledStore with claims := settledStore.claims.filter (fun c => c.ID != 1) }, none) ∧
    (claimDomain.CreateClaim Faults.none { view := settledStore, writes := [] }
        (Claim.ofForm 1 (sampleForm 300) 0 "REJECTED" false "Member is not eligible.")).1.view.claims
      = settledStore.claims.map (fun c =>
          if c.ID = 1 then Claim.ofForm 1 (sampleForm 300) 0 "REJECTED" false
            "Member is not eligible." else c) :=
  have h := claim_rows_lifecycle Faults.none settledStore (sampleForm 50) 1
    { view := settledStore, writes := [] }
    (Claim.ofForm 1 (sampleForm 300) 0 "REJECTED" false "Member is not eligible.")
  ⟨h.1, h.2.1 rfl, (h.2.2.2 (by decide) rfl).1⟩

/-- C21 fails as stated: the rows that scenario 1 commits hold claim 1,
`APPROVED` for 300. `claimService.DeleteClaim` with id 1 returns a nil error
and leaves no claim row; `claimDomain.CreateClaim` with a claim of `ID` 1
returns a nil error and leaves claim 1 `REJECTED` for 0. -/
theorem claim_deleted_and_rewritten_counterexample :
    (claimService.SubmitClaim Faults.none (sampleStore 0 100) (sampleForm 300)).1
      = settledStore ∧
    claimService.DeleteClaim Faults.none settledStore 1
      = ({ settledStore with claims := [] }, none) ∧
    (claimDomain.CreateClaim Faults.none { view := settledStore, writes := [] }
        (Claim.ofForm 1 (sampleForm 300) 0 "REJECTED" false "Member is not eligible.")).1.view.claims
      = [Claim.ofForm 1 (sampleForm 300) 0 "REJECTED" false "Member is not eligible."] ∧
    (claimDomain.CreateClaim Faults.none { view := settledStore, writes := [] }
        (Claim.ofForm 1 (sampleForm 300) 0 "REJECTED" false "Member is not eligible.")).2.2
      = none := by
  refine ⟨by rw [sample_approved_SubmitClaim]; rfl, ?_, ?_, ?_⟩
  · simp [claimService.DeleteClaim, claimDomain.DeleteClaim, Faults.none, SQLOperations.run,
      Store.exec, settledStore, Claim.ofForm]
  · rw [CreateClaim_update_claims Faults.none _ _ (by simp [Claim.ofForm]) rfl]
    simp [settledStore, Claim.ofForm]
  · rw [CreateClaim_update_claims Faults.none _ _ (by simp [Claim.ofForm]) rfl]

/-! ## `ValidateCredentials` -/

/-- The lookup returns a user and a nil error, or no user and an error. -/
theorem GetUserByUsername_cases (userRead : Bool) (users : List User) (username : String) :
    (∃ user, userDomain.GetUserByUsername userRead users username = (some user, none) ∧
      userRead = false ∧ users.find? (fun u => u.Username == username) = some user) ∨
    (∃ err, userDomain.GetUserByUsername userRead users username = (none, some err) ∧
      (userRead = true ∨ users.find? (fun u => u.Username == username) = none)) := by
  unfold userDomain.GetUserByUsername queryRowUserByUsername
  cases userRead
  · cases hfind : users.find? (fun u => u.Username == username) with
    | none =>
      exact Or.inr ⟨Error.DatabaseError .ErrNoRows, by simp [userDomain.scanRow], Or.inr rfl⟩
    | some u => exact Or.inl ⟨u, by simp [userDomain.scanRow], rfl, rfl⟩
  · exact Or.inr ⟨Error.DatabaseError .Fault, by simp [userDomain.scanRow], Or.inl rfl⟩

/-- `ValidateCredentials` when the lookup returns an error. -/
theorem ValidateCredentials_of_lookup_err
    (compareHashAndPassword : String → String → Option String)
    {userRead : Bool} {users : List User} {username : String} (password : String) {err : Error}
    (h : userDomain.GetUserByUsername userRead users username = (none, some err)) :
    userService.ValidateCredentials compareHashAndPassword userRead users username password
      = (none, some (Error.Authorization "invalid username or password")) := by
  unfold userService.ValidateCredentials
  rw [h]

/-- `ValidateCredentials` on a user that is not active. -/
theorem ValidateCredentials_of_inactive
    (compareHashAndPassword : String → String → Option String)
    {userRead : Bool} {users : List User} {username : String} (password : String) {user : User}
    (h : userDomain.GetUserByUsername userRead users username = (some user, none))
    (hact : user.IsActive = false) :
    userService.ValidateCredentials compareHashAndPassword userRead users username password
      = (none, some (Error.Authorization "account is inactive")) := by
  unfold userService.ValidateCredentials
  rw [h]
  simp [hact]

/-- `ValidateCredentials` on an active user whose password does not match. -/
theorem ValidateCredentials_of_mismatch
    {compareHashAndPassword : String → String → Option String}
    {userRead : Bool} {users : List User} {username password : String} {user : User}
    (h : userDomain.GetUserByUsername userRead users username = (some user, none))
    (hact : user.IsActive = true) {e : String}
    (hpw : utils.ValidatePassword compareHashAndPassword password user.PasswordHash = some e) :
    userService.ValidateCredentials compareHashAndPassword userRead users username password
      = (none, some (Error.Authorization "invalid username or password")) := by
  unfold userService.ValidateCredentials
  rw [h]
  simp [hact, hpw]

/-- `ValidateCredentials` on an active user whose password matches. -/
theorem ValidateCredentials_of_match
    {compareHashAndPassword : String → String → Option String}
    {userRead : Bool} {users : List User} {username password : String} {user : User}
    (h : userDomain.GetUserByUsername userRead users username = (some user, none))
    (hact : user.IsActive = true)
    (hpw : utils.ValidatePassword compareHashAndPassword password user.PasswordHash = none) :
    userService.ValidateCredentials compareHashAndPassword userRead users username password
      = (some user, none) := by
  unfold userService.ValidateCredentials
  rw [h]
  simp [hact, hpw]

/-- C29: `ValidateCredentials` returns a user, with a nil error, exactly when
the lookup by username returns that user with a nil error, the user is active
and the comparison of the password with the stored hash returns no error; in
every other case it returns no user and an error. A lookup that fails (unknown
username, or a failed read) and a password that does not match give the same
error, "invalid username or password"; a user that is not active gives
"account is inactive" whatever the password and whatever the comparison would
say. -/
theorem ValidateCredentials_iff (compareHashAndPassword : String → String → Option String)
    (userRead : Bool) (users : List User) (username password : String) :
    (∀ user,
      (userService.ValidateCredentials compareHashAndPassword userRead users username password).1
          = some user ↔
        (userDomain.GetUserByUsername userRead users username = (some user, none) ∧
          user.IsActive = true ∧
          utils.ValidatePassword compareHashAndPassword password user.PasswordHash = none)) ∧
    ((userService.ValidateCredentials compareHashAndPassword userRead users username password).1
        = none ↔
      (userService.ValidateCredentials compareHashAndPassword userRead users username password).2
        ≠ none) ∧
    ((userDomain.GetUserByUsername userRead users username).2 ≠ none →
      userService.ValidateCredentials compareHashAndPassword userRead users username password
        = (none, some (Error.Authorization "invalid username or password"))) ∧
    (∀ user, userDomain.GetUserByUsername userRead users username = (some user, none) →
      user.IsActive = true →
      utils.ValidatePassword compareHashAndPassword password user.PasswordHash ≠ none →
      userService.ValidateCredentials compareHashAndPassword userRead users username password
        = (none, some (Error.Authorization "invalid username or password"))) ∧
    (∀ user, userDomain.GetUserByUsername userRead users username = (some user, none) →
      user.IsActive = false →
      userService.ValidateCredentials compareHashAndPassword userRead users username password
        = (none, some (Error.Authorization "account is inactive"))) := by
  rcases GetUserByUsername_cases userRead users username with ⟨u, h, _, _⟩ | ⟨err, h, _⟩
  · cases hact : u.IsActive
    · rw [ValidateCredentials_of_inactive compareHashAndPassword password h hact, h]
      refine ⟨fun user => ⟨fun hu => absurd hu (by simp), ?_⟩, by simp, by simp, ?_, ?_⟩
      · rintro ⟨hu, ha, _⟩
        simp only [Prod.mk.injEq, Option.some.injEq, and_true] at hu
        subst hu
        rw [hact] at ha
        exact absurd ha (by decide)
      · intro user hu ha
        simp only [Prod.mk.injEq, Option.some.injEq, and_true] at hu
        subst hu
        rw [hact] at ha
        exact absurd ha (by decide)
      · intro user _ _
        rfl
    · cases hpw : utils.ValidatePassword compareHashAndPassword password u.PasswordHash
      · rw [ValidateCredentials_of_match h hact hpw, h]
        refine ⟨fun user => ⟨?_, ?_⟩, by simp, by simp, ?_, ?_⟩
        · intro hu
          simp only [Option.some.injEq] at hu
          subst hu
          exact ⟨rfl, hact, hpw⟩
        · rintro ⟨hu, _, _⟩
          simp only [Prod.mk.injEq, Option.some.injEq, and_true] at hu
          subst hu
          rfl
        · intro user hu _ hne
          simp only [Prod.mk.injEq, Option.some.injEq, and_true] at hu
          subst hu
          exact absurd hpw hne
        · intro user hu ha
          simp only [Prod.mk.injEq, Option.some.injEq, and_true] at hu
          subst hu
          rw [hact] at ha
          exact absurd ha (by decide)
      · rw [ValidateCredentials_of_mismatch h hact hpw, h]
        refine ⟨fun user => ⟨fun hu => absurd hu (by simp), ?_⟩, by simp, by simp, ?_, ?_⟩
        · rintro ⟨hu, _, hn⟩
          simp only [Prod.mk.injEq, Option.some.injEq, and_true] at hu
          subst hu
          rw [hpw] at hn
          exact absurd hn (by simp)
        · intro user _ _ _
          rfl
        · intro user hu ha
          simp only [Prod.mk.injEq, Option.some.injEq, and_true] at hu
          subst hu
          rw [hact] at ha
          exact absurd ha (by decide)
  · rw [ValidateCredentials_of_lookup_err compareHashAndPassword password h, h]
    refine ⟨fun user => ⟨fun hu => absurd hu (by simp), ?_⟩, by simp, by simp, ?_, ?_⟩
    · rintro ⟨hu, _, _⟩
      exact absurd hu (by simp)
    · intro user hu
      exact absurd hu (by simp)
    · intro user hu
      exact absurd hu (by simp)

/-- Witness of C29 on the sample users: `amina` with her password is returned,
and `baraka`, who is not active, gets "account is inactive" with his own
password. -/
theorem ValidateCredentials_iff_witness :
    (userService.ValidateCredentials sampleCompare false sampleUsers "amina" "pw1").1
      = some { ID := 1, Username := "amina", Email := "amina@example.org",
               PasswordHash := "[pw1]", IsActive := true } ∧
    userService.ValidateCredentials sampleCompare false sampleUsers "baraka" "pw2"
      = (none, some (Error.Authorization "account is inactive")) :=
  ⟨((ValidateCredentials_iff sampleCompare false sampleUsers "amina" "pw1").1 _).2
      ⟨by decide, rfl, by decide⟩,
    (ValidateCredentials_iff sampleCompare false sampleUsers "baraka" "pw2").2.2.2.2
      { ID := 2, Username := "baraka", Email := "baraka@example.org", PasswordHash := "[pw2]",
        IsActive := false } (by decide) rfl⟩

/-! ## `AuthMiddleware` -/

/-- The middleware on a header that is not empty and has two fields. -/
theorem AuthMiddleware_of_two_fields (EqualFold : String → String → Bool)
    (VerifyToken : String → Option Payload × Option String) {header scheme tokenStr : String}
    (hne : header ≠ "") (hf : strings.Fields header = [scheme, tokenStr]) :
    AuthMiddleware EqualFold VerifyToken header =
      if !EqualFold scheme authorizationBearer then
        .abort StatusUnauthorized "INVALID_TOKEN_FORMAT"
          "authorization header must be in format: Bearer <token>"
      else
        match VerifyToken tokenStr with
        | (_, some err) => .abort StatusUnauthorized "INVALID_TOKEN" err
        | (payload, none) => .next payload := by
  have he : header.isEmpty = false := by
    cases h : header.isEmpty
    · rfl
    · exact absurd ((String.isEmpty_iff header).1 h) hne
  unfold AuthMiddleware
  rw [he, hf]
  simp only [Bool.false_eq_true, if_false]

/-- The middleware on a header that is not empty and does not have two
fields. -/
theorem AuthMiddleware_of_other_fields (EqualFold : String → String → Bool)
    (VerifyToken : String → Option Payload × Option String) {header : String}
    (hne : header ≠ "") (hf : ∀ scheme tokenStr, strings.Fields header ≠ [scheme, tokenStr]) :
    AuthMiddleware EqualFold VerifyToken header =
      .abort StatusUnauthorized "INVALID_TOKEN_FORMAT"
        "authorization header must be in format: Bearer <token>" := by
  have he : header.isEmpty = false := by
    cases h : header.isEmpty
    · rfl
    · exact absurd ((String.isEmpty_iff header).1 h) hne
  unfold AuthMiddleware
  rw [he]
  simp only [Bool.false_eq_true, if_false]

/-- The middleware on an empty header. -/
theorem AuthMiddleware_of_empty (EqualFold : String → String → Bool)
    (VerifyToken : String → Option Payload × Option String) :
    AuthMiddleware EqualFold VerifyToken "" =
      .abort StatusUnauthorized "MISSING_TOKEN" "authorization header is required" := by
  unfold AuthMiddleware
  rfl

/-- C30: `AuthMiddleware` stores a payload and calls `Next` exactly when the
header is not empty, `strings.Fields` splits it into exactly two fields, the
first field equals "Bearer" under `strings.EqualFold`, and `VerifyToken`
returns a nil error on the second field; the payload stored is the one
`VerifyToken` returned. In every other case the request is aborted with status
401 and the handlers are not run: with code `MISSING_TOKEN` for an empty
header, `INVALID_TOKEN_FORMAT` for a header that does not split into two
fields or whose first field is not "Bearer", and `INVALID_TOKEN`, with the
text of the error as message, when `VerifyToken` returns an error. -/
theorem AuthMiddleware_next_iff (EqualFold : String → String → Bool)
    (VerifyToken : String → Option Payload × Option String) (header : String) :
    (∀ payload, AuthMiddleware EqualFold VerifyToken header = .next payload ↔
      (header ≠ "" ∧ ∃ scheme tokenStr, strings.Fields header = [scheme, tokenStr] ∧
        EqualFold scheme "Bearer" = true ∧ VerifyToken tokenStr = (payload, none))) ∧
    ((∀ payload, AuthMiddleware EqualFold VerifyToken header ≠ .next payload) →
      ∃ code message, AuthMiddleware EqualFold VerifyToken header = .abort 401 code message) ∧
    (header = "" →
      AuthMiddleware EqualFold VerifyToken header =
        .abort 401 "MISSING_TOKEN" "authorization header is required") ∧
    (header ≠ "" →
      (∀ scheme tokenStr, strings.Fields header = [scheme, tokenStr] →
        EqualFold scheme "Bearer" = false) →
      AuthMiddleware EqualFold VerifyToken header =
        .abort 401 "INVALID_TOKEN_FORMAT"
          "authorization header must be in format: Bearer <token>") ∧
    (header ≠ "" →
      ∀ scheme tokenStr payload err, strings.Fields header = [scheme, tokenStr] →
        EqualFold scheme "Bearer" = true → VerifyToken tokenStr = (payload, some err) →
        AuthMiddleware EqualFold VerifyToken header = .abort 401 "INVALID_TOKEN" err) := by
  by_cases hne : header = ""
  · subst hne
    rw [AuthMiddleware_of_empty]
    refine ⟨fun payload => ⟨fun h => absurd h (by simp), fun h => absurd rfl h.1⟩,
      fun _ => ⟨_, _, rfl⟩, fun _ => rfl, fun h => absurd rfl h, fun h => absurd rfl h⟩
  · by_cases hf : ∃ scheme tokenStr, strings.Fields header = [scheme, tokenStr]
    · obtain ⟨scheme, tokenStr, hf⟩ := hf
      rw [AuthMiddleware_of_two_fields EqualFold VerifyToken hne hf]
      have hinj : ∀ {s t : String}, strings.Fields header = [s, t] → s = scheme ∧ t = tokenStr := by
        intro s t h
        rw [hf] at h
        simp only [List.cons.injEq, and_true] at h
        exact ⟨h.1.symm, h.2.symm⟩
      cases hfold : EqualFold scheme authorizationBearer
      · simp only [Bool.not_false, if_true]
        refine ⟨fun payload => ⟨fun h => absurd h (by simp), ?_⟩, fun _ => ⟨_, _, rfl⟩,
          fun h => absurd h hne, fun _ _ => rfl, ?_⟩
        · rintro ⟨_, s, t, hst, hb, _⟩
          obtain ⟨hs, _⟩ := hinj hst
          subst hs
          rw [show EqualFold s "Bearer" = EqualFold s authorizationBearer from rfl, hfold] at hb
          exact absurd hb (by decide)
        · intro _ s t payload err hst hb _
          obtain ⟨hs, _⟩ := hinj hst
          subst hs
          rw [show EqualFold s "Bearer" = EqualFold s authorizationBearer from rfl, hfold] at hb
          exact absurd hb (by decide)
      · simp only [Bool.not_true, Bool.false_eq_true, if_false]
        rcases hv : VerifyToken tokenStr with ⟨p, _ | err⟩
        · simp only
          refine ⟨fun payload => ⟨?_, ?_⟩, fun h => absurd rfl (h p), fun h => absurd h hne, ?_, ?_⟩
          · intro h
            simp only [GinOutcome.next.injEq] at h
            subst h
            exact ⟨hne, scheme, tokenStr, hf, hfold, hv⟩
          · rintro ⟨_, s, t, hst, _, hvt⟩
            obtain ⟨_, ht⟩ := hinj hst
            subst ht
            rw [hv] at hvt
            simp only [Prod.mk.injEq, and_true] at hvt
            rw [hvt]
          · intro _ h
            have := h scheme tokenStr hf
            rw [show EqualFold scheme "Bearer" = EqualFold scheme authorizationBearer from rfl,
              hfold] at this
            exact absurd this (by decide)
          · intro _ s t payload err hst _ hvt
            obtain ⟨_, ht⟩ := hinj hst
            subst ht
            rw [hv] at hvt
            exact absurd hvt (by simp)
        · simp only
          refine ⟨fun payload => ⟨fun h => absurd h (by simp), ?_⟩, fun _ => ⟨_, _, rfl⟩,
            fun h => absurd h hne, ?_, ?_⟩
          · rintro ⟨_, s, t, hst, _, hvt⟩
            obtain ⟨_, ht⟩ := hinj hst
            subst ht
            rw [hv] at hvt
            exact absurd hvt (by simp)
          · intro _ h
            have := h scheme tokenStr hf
            rw [show EqualFold scheme "Bearer" = EqualFold scheme authorizationBearer from rfl,
              hfold] at this
            exact absurd this (by decide)
          · intro _ s t payload e hst _ hvt
            obtain ⟨_, ht⟩ := hinj hst
            subst ht
            rw [hv] at hvt
            simp only [Prod.mk.injEq, Option.some.injEq] at hvt
            rw [hvt.2]
            rfl
    · have hf2 : ∀ scheme tokenStr, strings.Fields header ≠ [scheme, tokenStr] :=
        fun s t h => hf ⟨s, t, h⟩
      rw [AuthMiddleware_of_other_fields EqualFold VerifyToken hne hf2]
      refine ⟨fun payload => ⟨fun h => absurd h (by simp), ?_⟩, fun _ => ⟨_, _, rfl⟩,
        fun h => absurd h hne, fun _ _ => rfl, ?_⟩
      · rintro ⟨_, s, t, hst, _⟩
        exact absurd hst (hf2 s t)
      · intro _ s t _ _ hst
        exact absurd hst (hf2 s t)

/-- Witness of C30: the header `bearer good`, with the scheme in lower case,
is let through with the payload of the token; the header `Token good` is
aborted with `INVALID_TOKEN_FORMAT`. -/
theorem AuthMiddleware_next_iff_witness :
    AuthMiddleware sampleEqualFold sampleVerifyToken "bearer good" =
      .next (some { ID := "t1", Username := "amina", IssuedAt := 100, ExpiresAt := 1000 }) ∧
    AuthMiddleware sampleEqualFold sampleVerifyToken "Token good" =
      .abort 401 "INVALID_TOKEN_FORMAT"
        "authorization header must be in format: Bearer <token>" :=
  ⟨((AuthMiddleware_next_iff sampleEqualFold sampleVerifyToken "bearer good").1 _).2
      ⟨by decide, "bearer", "good", by decide, by decide, by decide⟩,
    (AuthMiddleware_next_iff sampleEqualFold sampleVerifyToken "Token good").2.2.2.1
      (by decide) (by
        intro scheme tokenStr h
        have h2 : strings.Fields "Token good" = ["Token", "good"] := by decide
        rw [h2] at h
        simp only [List.cons.injEq, and_true] at h
        rw [← h.1]
        decide)⟩

/-! ## `buildQuery` -/

set_option maxRecDepth 100000 in
/-- The result of `buildQuery`, by the parts of the filter that are present. -/
theorem buildQuery_shape (ValueFromNull : Option String → String) (ToLower : String → String)
    (query : String) (f : Filter) :
    claimDomain.buildQuery ValueFromNull ToLower query f =
      (query ++ claimDomain.buildQuery.suffix f.MemberID.isSome f.ProviderID.isSome
          (decide (f.Term ≠ "")) (decide (f.Page > 0 ∧ f.Per > 0)),
        claimDomain.buildQuery.boundValues ValueFromNull ToLower f) := by
  unfold claimDomain.buildQuery claimDomain.buildQuery.boundValues
  cases hm : f.MemberID <;> cases hp : f.ProviderID <;> by_cases ht : f.Term = "" <;>
    by_cases hl : (f.Page > 0 ∧ f.Per > 0) <;>
    simp only [hm, hp, ht, hl, Option.isSome_some, Option.isSome_none, if_true, if_false,
      claimDomain.buildQuery.likeLoop, Placeholder.Touch, utils.NewPlaceholder,
      ne_eq, not_true_eq_false, not_false_eq_true, List.nil_append, List.length_nil,
      List.length_cons, List.length_append, List.cons_append, Bool.false_eq_true,
      gt_iff_lt, lt_self_iff_false, Nat.lt_irrefl, Nat.zero_lt_succ, Nat.zero_add, and_self,
      decide_True, decide_False, List.replicate, List.append_nil, String.append_assoc,
      Nat.lt_add_one, Nat.succ_pos, Nat.pos_of_ne_zero] <;>
    first
    | exact congrArg (fun s => (query ++ s, _)) (by decide)
    | (have h : claimDomain.buildQuery.suffix false false false false = "" := by decide
       rw [h, String.append_empty])

/-- The number of values that `buildQuery` binds. -/
theorem boundValues_length (ValueFromNull : Option String → String) (ToLower : String → String)
    (f : Filter) :
    (claimDomain.buildQuery.boundValues ValueFromNull ToLower f).length =
      (if f.MemberID.isSome then 1 else 0) + (if f.ProviderID.isSome then 1 else 0) +
        (if decide (f.Term ≠ "") then 3 else 0) +
        (if decide (f.Page > 0 ∧ f.Per > 0) then 2 else 0) := by
  unfold claimDomain.buildQuery.boundValues
  cases hm : f.MemberID <;> cases hp : f.ProviderID <;> by_cases ht : f.Term = "" <;>
    by_cases hl : (f.Page > 0 ∧ f.Per > 0) <;>
    simp [hm, hp, ht, hl]

set_option maxRecDepth 100000 in
/-- The placeholders of every text that `buildQuery` adds are numbered from 1,
in order of appearance, one for each value bound. -/
theorem suffix_placeholders : ∀ m p t l : Bool,
    placeholders (claimDomain.buildQuery.suffix m p t l) =
      List.range' 1 ((if m then 1 else 0) + (if p then 1 else 0) + (if t then 3 else 0) +
        (if l then 2 else 0)) := by
  decide

set_option maxRecDepth 100000 in
/-- Without a page, no text that `buildQuery` adds to `getClaimsSQL` holds
`LIMIT` or `OFFSET`. -/
theorem suffix_unpaged : ∀ m p t : Bool,
    strings.Contains (getClaimsSQL ++ claimDomain.buildQuery.suffix m p t false) "LIMIT" = false ∧
    strings.Contains (getClaimsSQL ++ claimDomain.buildQuery.suffix m p t false) "OFFSET"
      = false := by
  decide

set_option maxRecDepth 100000 in
/-- With a page, the text that `buildQuery` adds ends in a `LIMIT` and an
`OFFSET`. -/
theorem suffix_paged : ∀ m p t : Bool,
    strings.Contains (claimDomain.buildQuery.suffix m p t true) " LIMIT $" = true ∧
    strings.Contains (claimDomain.buildQuery.suffix m p t true) " OFFSET $" = true := by
  decide

/-- C28: for every filter there is a suffix, the same for every query, every
`ValueFromNull` and every `ToLower`, such that `buildQuery` returns the input
query followed by that suffix; so the list query and the count query get the
same `WHERE` clause and the same arguments. The arguments are, in this order,
the member id, the provider id, the lower-cased term three times, `Per` and
`(Page-1)*Per` (as an `int` of 64 bits), each present when its part of the
filter is. The placeholders of the suffix are numbered 1, 2, ..., n in order
of appearance, n being the number of arguments, so that the i-th argument is
the value bound to the i-th placeholder. The counter is taken to yield 1, 2,
3, ... on successive calls of `Touch`. -/
theorem buildQuery_well_formed (f : Filter) :
    ∃ suffix : String, ∀ (ValueFromNull : Option String → String) (ToLower : String → String),
      (∀ query : String,
        claimDomain.buildQuery ValueFromNull ToLower query f =
          (query ++ suffix, claimDomain.buildQuery.boundValues ValueFromNull ToLower f)) ∧
      placeholders suffix =
        List.range' 1 (claimDomain.buildQuery.boundValues ValueFromNull ToLower f).length ∧
      (claimDomain.buildQuery ValueFromNull ToLower getClaimsSQL f).2 =
        (claimDomain.buildQuery ValueFromNull ToLower getClaimsCountSQL f).2 := by
  refine ⟨claimDomain.buildQuery.suffix f.MemberID.isSome f.ProviderID.isSome
    (decide (f.Term ≠ "")) (decide (f.Page > 0 ∧ f.Per > 0)), ?_⟩
  intro ValueFromNull ToLower
  refine ⟨fun query => buildQuery_shape ValueFromNull ToLower query f, ?_, ?_⟩
  · rw [boundValues_length, suffix_placeholders]
  · rw [buildQuery_shape, buildQuery_shape]

set_option maxRecDepth 100000 in
/-- The sample filter with a member id: seven placeholders, seven values. -/
theorem buildQuery_sample_eval :
    claimDomain.buildQuery sampleValueFromNull sampleToLower "SELECT COUNT(*) FROM claims"
        { sampleFilter with MemberID := some "7" } =
      ("SELECT COUNT(*) FROM claims WHERE member_id = $1 AND provider_id = $2 AND  ( (LOWER(procedure_code) LIKE '%' || $3 || '%')  OR  (LOWER(diagnosis_code) LIKE '%' || $4 || '%')  OR  (LOWER(rejection_reason) LIKE '%' || $5 || '%') ) LIMIT $6 OFFSET $7",
        [Arg.str "7", Arg.str "3", Arg.str "mal", Arg.str "mal", Arg.str "mal", Arg.int 20,
          Arg.int 40]) := by
  decide

/-! ## The listing of claims -/

/-- The loop of `GetClaims` on rows that all scan. -/
theorem scanLoop_ok (claims : List Claim) : ∀ acc : List Claim,
    claimDomain.GetClaims.scanLoop (claims.map Except.ok) acc = (acc ++ claims, none) := by
  induction claims with
  | nil => intro acc; simp [claimDomain.GetClaims.scanLoop]
  | cons c cs ih =>
    intro acc
    simp only [List.map_cons, claimDomain.GetClaims.scanLoop, claimDomain.scanRow]
    rw [ih]
    simp

/-- The statement of a listing: the text is the query followed by the
conditions, with no page, and no value is an `int`. -/
theorem listStatement_eq (NullValue : String → Option String)
    (ValueFromNull : Option String → String) (ToLower : String → String) (sql memberID : String)
    (filter : Filter) :
    claimDomain.listStatement NullValue ValueFromNull ToLower sql memberID filter =
      ({ filter with MemberID := NullValue memberID },
        sql ++ claimDomain.buildQuery.suffix (NullValue memberID).isSome filter.ProviderID.isSome
          (decide (filter.Term ≠ "")) false,
        (if (NullValue memberID).isSome then [Arg.str (ValueFromNull (NullValue memberID))]
          else []) ++
        (if filter.ProviderID.isSome then [Arg.str (ValueFromNull filter.ProviderID)] else []) ++
        (if filter.Term ≠ "" then List.replicate 3 (Arg.str (ToLower filter.Term)) else [])) := by
  unfold claimDomain.listStatement
  simp only [buildQuery_shape]
  simp [Filter.NoPagination, Filter.zero, claimDomain.buildQuery.boundValues]

/-- C27: for every filter, whatever its `Page` and `Per`, `NoPagination` gives
a filter with `Page = 0` and `Per = 0`, and the statement that
`claimDomain.GetClaims` builds from it holds neither `LIMIT` nor `OFFSET` and
binds no page size or offset (every argument is a string). So `GetClaims`
returns every row that the statement yields, and `claimService.GetClaims`
still computes `Pagination` from the count and the `Page` and `Per` of the
caller, whose filter is left as it was but for `MemberID`, which `GetClaims`
sets: `NoPagination` builds a new filter and does not modify its receiver. -/
theorem GetClaims_never_paginates {P : Type} (NewPagination : Int → Int → Int → P)
    (emptyClaimList : ClaimList P) (NullValue : String → Option String)
    (ValueFromNull : Option String → String) (ToLower : String → String)
    (QueryContext : String → List Arg → Except SqlError Rows)
    (QueryRowContext : String → List Arg → Except SqlError Int)
    (memberID : String) (filter : Filter) :
    (filter.NoPagination.Page = 0 ∧ filter.NoPagination.Per = 0) ∧
    (claimDomain.listStatement NullValue ValueFromNull ToLower getClaimsSQL memberID filter).1
      = { filter with MemberID := NullValue memberID } ∧
    strings.Contains
      (claimDomain.listStatement NullValue ValueFromNull ToLower getClaimsSQL memberID filter).2.1
      "LIMIT" = false ∧
    strings.Contains
      (claimDomain.listStatement NullValue ValueFromNull ToLower getClaimsSQL memberID filter).2.1
      "OFFSET" = false ∧
    (∀ a ∈
      (claimDomain.listStatement NullValue ValueFromNull ToLower getClaimsSQL memberID filter).2.2,
      ∃ s, a = Arg.str s) ∧
    (∀ claims : List Claim,
      QueryContext
        (claimDomain.listStatement NullValue ValueFromNull ToLower getClaimsSQL memberID
          filter).2.1
        (claimDomain.listStatement NullValue ValueFromNull ToLower getClaimsSQL memberID
          filter).2.2
        = .ok { scans := claims.map Except.ok, err := none } →
      claimDomain.GetClaims NullValue ValueFromNull ToLower QueryContext memberID filter
          = ({ filter with MemberID := NullValue memberID }, claims, none) ∧
        ∀ count : Int,
          QueryRowContext
            (claimDomain.listStatement NullValue ValueFromNull ToLower getClaimsCountSQL memberID
              filter).2.1
            (claimDomain.listStatement NullValue ValueFromNull ToLower getClaimsCountSQL memberID
              filter).2.2
            = .ok count →
          claimService.GetClaims NewPagination emptyClaimList NullValue ValueFromNull ToLower
              QueryContext QueryRowContext memberID filter
            = ({ filter with MemberID := NullValue memberID },
                some { Claims := claims
                       Pagination := NewPagination count filter.Page filter.Per },
                none)) := by
  have hget : ∀ claims : List Claim,
      QueryContext
        (claimDomain.listStatement NullValue ValueFromNull ToLower getClaimsSQL memberID
          filter).2.1
        (claimDomain.listStatement NullValue ValueFromNull ToLower getClaimsSQL memberID
          filter).2.2
        = .ok { scans := claims.map Except.ok, err := none } →
      claimDomain.GetClaims NullValue ValueFromNull ToLower QueryContext memberID filter
          = ({ filter with MemberID := NullValue memberID }, claims, none) := by
    intro claims hq
    unfold claimDomain.GetClaims
    simp only [hq, scanLoop_ok, List.nil_append]
    rw [listStatement_eq]
  have hsame : ∀ sql,
      claimDomain.listStatement NullValue ValueFromNull ToLower sql memberID
        { filter with MemberID := NullValue memberID } =
      claimDomain.listStatement NullValue ValueFromNull ToLower sql memberID filter := by
    intro sql
    rfl
  refine ⟨⟨rfl, rfl⟩, by rw [listStatement_eq], ?_, ?_, ?_, ?_⟩
  · rw [listStatement_eq]
    exact (suffix_unpaged _ _ _).1
  · rw [listStatement_eq]
    exact (suffix_unpaged _ _ _).2
  · rw [listStatement_eq]
    intro a ha
    simp only [List.mem_append] at ha
    rcases ha with (ha | ha) | ha
    · split at ha
      · exact ⟨_, List.eq_of_mem_singleton ha⟩
      · exact absurd ha (List.not_mem_nil a)
    · split at ha
      · exact ⟨_, List.eq_of_mem_singleton ha⟩
      · exact absurd ha (List.not_mem_nil a)
    · split at ha
      · exact ⟨_, List.eq_of_mem_replicate ha⟩
      · exact absurd ha (List.not_mem_nil a)
  · intro claims hq
    refine ⟨hget claims hq, ?_⟩
    intro count hc
    unfold claimService.GetClaims
    rw [hget claims hq]
    simp only
    unfold claimDomain.GetClaimsCount
    rw [hsame]
    simp only [hc]
    rw [listStatement_eq]

set_option maxRecDepth 100000 in
/-- The statement of the listing for the sample filter has no `LIMIT`, so the
sample table gives all its rows. -/
theorem sampleQueryContext_eval :
    sampleQueryContext
      (claimDomain.listStatement sampleNullValue sampleValueFromNull sampleToLower getClaimsSQL
        "7" sampleFilter).2.1
      (claimDomain.listStatement sampleNullValue sampleValueFromNull sampleToLower getClaimsSQL
        "7" sampleFilter).2.2
      = .ok { scans := sampleClaims.map Except.ok, err := none } := by
  have h : strings.Contains
      (claimDomain.listStatement sampleNullValue sampleValueFromNull sampleToLower getClaimsSQL
        "7" sampleFilter).2.1 " LIMIT $" = false := by
    decide
  unfold sampleQueryContext
  rw [h]
  rfl

/-- Witness of C27: the caller asks for page 3 of 20 of the claims of member
7; the listing returns the three claims of the table, and `Pagination` is
computed from the count 3, page 3 and 20 per page. -/
theorem GetClaims_never_paginates_witness :
    claimDomain.GetClaims sampleNullValue sampleValueFromNull sampleToLower sampleQueryContext
        "7" sampleFilter
      = ({ sampleFilter with MemberID := sampleNullValue "7" }, sampleClaims, none) ∧
    claimService.GetClaims (fun count page per => (count, page, per))
        { Claims := [], Pagination := (0, 0, 0) } sampleNullValue sampleValueFromNull
        sampleToLower sampleQueryContext sampleQueryRowContext "7" sampleFilter
      = ({ sampleFilter with MemberID := sampleNullValue "7" },
          some { Claims := sampleClaims, Pagination := (3, sampleFilter.Page, sampleFilter.Per) },
          none) :=
  have h := (GetClaims_never_paginates (fun count page per => (count, page, per))
    { Claims := [], Pagination := (0, 0, 0) } sampleNullValue sampleValueFromNull
    sampleToLower sampleQueryContext sampleQueryRowContext "7" sampleFilter).2.2.2.2.2
    sampleClaims sampleQueryContext_eval
  ⟨h.1, h.2 3 rfl⟩

/-! ## Rounding to `float64` -/

theorem roundHalfEven_intCast (m : ℤ) : roundHalfEven (m : ℚ) = m := by
  simp [roundHalfEven]

/-- A number less than a half away from an integer rounds to it. -/
theorem roundHalfEven_of_near {q : ℚ} {n : ℤ} (h : |q - n| < 1 / 2) : roundHalfEven q = n := by
  rw [abs_lt] at h
  obtain ⟨h1, h2⟩ := h
  by_cases hq : (n : ℚ) ≤ q
  · have hfl : ⌊q⌋ = n := Int.floor_eq_iff.mpr ⟨hq, by linarith⟩
    unfold roundHalfEven
    rw [hfl, if_pos (by linarith)]
  · have hfl : ⌊q⌋ = n - 1 := by
      apply Int.floor_eq_iff.mpr
      push_cast
      constructor <;> linarith
    unfold roundHalfEven
    rw [hfl]
    push_cast
    rw [if_neg (by linarith), if_pos (by linarith)]
    ring

/-- Half-way above an even integer rounds down to it. -/
theorem roundHalfEven_of_tie_above {q : ℚ} {n : ℤ} (h : q = n + 1 / 2) (he : n % 2 = 0) :
    roundHalfEven q = n := by
  have hfl : ⌊q⌋ = n := Int.floor_eq_iff.mpr ⟨by linarith, by linarith⟩
  unfold roundHalfEven
  rw [hfl, if_neg (by linarith), if_neg (by linarith), if_pos he]

/-- Half-way below an even integer rounds up to it. -/
theorem roundHalfEven_of_tie_below {q : ℚ} {n : ℤ} (h : q = n - 1 / 2) (he : n % 2 = 0) :
    roundHalfEven q = n := by
  have hfl : ⌊q⌋ = n - 1 := by
    apply Int.floor_eq_iff.mpr
    push_cast
    constructor <;> linarith
  unfold roundHalfEven
  rw [hfl]
  push_cast
  have hodd : ¬ (n - 1) % 2 = 0 := by omega
  rw [if_neg (by linarith), if_neg (by linarith), if_neg hodd]
  ring

/-- The exponent of the last place of a normal number. -/
theorem Float64.ulpExp_eq {x : ℚ} {k : ℤ} (h1 : (2 : ℚ) ^ k ≤ |x|) (h2 : |x| < (2 : ℚ) ^ (k + 1))
    (hk : -1022 ≤ k) : Float64.ulpExp x = k - 52 := by
  have hpos : 0 < |x| := lt_of_lt_of_le (by positivity) h1
  have hlog : Int.log 2 |x| = k := by
    apply le_antisymm
    · have h2c : |x| < ((2 : ℕ) : ℚ) ^ (k + 1) := by exact_mod_cast h2
      have := (Int.lt_zpow_iff_log_lt (by norm_num : 1 < 2) hpos).mp h2c
      omega
    · have h1c : ((2 : ℕ) : ℚ) ^ k ≤ |x| := by exact_mod_cast h1
      exact (Int.zpow_le_iff_le_log (by norm_num : 1 < 2) hpos).mp h1c
  unfold Float64.ulpExp
  rw [hlog]
  omega

/-- Rounding a normal number: to the nearest multiple of its last place. -/
theorem Float64.round_eq {x : ℚ} {k : ℤ} (h1 : (2 : ℚ) ^ k ≤ |x|) (h2 : |x| < (2 : ℚ) ^ (k + 1))
    (hk : -1022 ≤ k) :
    Float64.round x = roundHalfEven (x / 2 ^ (k - 52)) * 2 ^ (k - 52) := by
  unfold Float64.round
  rw [Float64.ulpExp_eq h1 h2 hk]

theorem Float64.round_zero : Float64.round 0 = 0 := by
  simp [Float64.round, roundHalfEven]

/-- Every whole number up to `2^53` in magnitude is a `float64`. -/
theorem Float64.round_intCast (n : ℤ) (h : |n| ≤ 2 ^ 53) : Float64.round (n : ℚ) = n := by
  by_cases hn : n = 0
  · subst hn
    simpa using Float64.round_zero
  have hpos : (0 : ℚ) < |(n : ℚ)| := abs_pos.mpr (by exact_mod_cast hn)
  have hone : (1 : ℚ) ≤ |(n : ℚ)| := by
    have : (1 : ℤ) ≤ |n| := Int.one_le_abs hn
    exact_mod_cast this
  have hle : |(n : ℚ)| ≤ 2 ^ (53 : ℤ) := by
    have h53 : ((|n| : ℤ) : ℚ) ≤ ((2 ^ 53 : ℤ) : ℚ) := Int.cast_le.mpr h
    rw [Int.cast_abs] at h53
    calc |(n : ℚ)| ≤ ((2 ^ 53 : ℤ) : ℚ) := h53
      _ = 2 ^ (53 : ℤ) := by norm_num
  have h1 : (2 : ℚ) ^ Int.log 2 |(n : ℚ)| ≤ |(n : ℚ)| := by
    have := Int.zpow_log_le_self (by norm_num : 1 < 2) hpos
    exact_mod_cast this
  have h2 : |(n : ℚ)| < (2 : ℚ) ^ (Int.log 2 |(n : ℚ)| + 1) := by
    have := Int.lt_zpow_succ_log_self (by norm_num : 1 < 2) |(n : ℚ)|
    exact_mod_cast this
  generalize Int.log 2 |(n : ℚ)| = k at h1 h2
  have hk0 : 0 ≤ k := by
    by_contra hneg
    have : (2 : ℚ) ^ (k + 1) ≤ 2 ^ (0 : ℤ) := zpow_le_zpow_right₀ (by norm_num) (by omega)
    have h0 : (2 : ℚ) ^ (0 : ℤ) = 1 := by norm_num
    linarith
  have hk53 : k ≤ 53 := by
    by_contra hbig
    have : (2 : ℚ) ^ (54 : ℤ) ≤ 2 ^ k := zpow_le_zpow_right₀ (by norm_num) (by omega)
    have h54 : (2 : ℚ) ^ (53 : ℤ) < 2 ^ (54 : ℤ) := by norm_num
    linarith
  rw [Float64.round_eq h1 h2 (by omega)]
  by_cases hk : k ≤ 52
  · obtain ⟨t, ht⟩ : ∃ t : ℕ, (t : ℤ) = 52 - k := ⟨(52 - k).toNat, by omega⟩
    have hpow : (2 : ℚ) ^ (k - 52) = ((2 ^ t : ℤ) : ℚ)⁻¹ := by
      rw [show k - 52 = -(t : ℤ) by omega, zpow_neg, zpow_natCast]
      push_cast
      rfl
    have hq : (n : ℚ) / 2 ^ (k - 52) = ((n * 2 ^ t : ℤ) : ℚ) := by
      rw [hpow]
      push_cast
      field_simp
    rw [hq, roundHalfEven_intCast, hpow]
    push_cast
    field_simp
  · have hk' : k = 53 := by omega
    subst hk'
    have habs : |(n : ℚ)| = 2 ^ (53 : ℤ) := le_antisymm hle h1
    have hp1 : (2 : ℚ) ^ ((53 : ℤ) - 52) = 2 := by norm_num
    rw [hp1]
    rcases abs_eq (by positivity : (0 : ℚ) ≤ 2 ^ (53 : ℤ)) |>.mp habs with hv | hv
    · rw [hv]
      have : ((2 : ℚ) ^ (53 : ℤ)) / 2 = ((2 ^ 52 : ℤ) : ℚ) := by norm_num
      rw [this, roundHalfEven_intCast]
      norm_num
    · rw [hv]
      have : (-(2 : ℚ) ^ (53 : ℤ)) / 2 = ((-2 ^ 52 : ℤ) : ℚ) := by norm_num
      rw [this, roundHalfEven_intCast]
      norm_num

/-- Rounding a positive normal number that is less than half a last place
away from the multiple `n` of its last place. -/
theorem Float64.round_of_near {x : ℚ} (k n : ℤ) (hk : -1022 ≤ k) (h1 : (2 : ℚ) ^ k ≤ x)
    (h2 : x < (2 : ℚ) ^ (k + 1)) (hn : |x / 2 ^ (k - 52) - n| < 1 / 2) :
    Float64.round x = n * 2 ^ (k - 52) := by
  have hpos : 0 < x := lt_of_lt_of_le (by positivity) h1
  rw [Float64.round_eq (by rwa [abs_of_pos hpos]) (by rwa [abs_of_pos hpos]) hk,
    roundHalfEven_of_near hn]

/-- Rounding a positive normal number that is half-way between two multiples of
its last place: to the even multiple `n`. -/
theorem Float64.round_of_tie {x : ℚ} (k n : ℤ) (hk : -1022 ≤ k) (h1 : (2 : ℚ) ^ k ≤ x)
    (h2 : x < (2 : ℚ) ^ (k + 1))
    (hn : x / 2 ^ (k - 52) = n + 1 / 2 ∨ x / 2 ^ (k - 52) = n - 1 / 2) (he : n % 2 = 0) :
    Float64.round x = n * 2 ^ (k - 52) := by
  have hpos : 0 < x := lt_of_lt_of_le (by positivity) h1
  rw [Float64.round_eq (by rwa [abs_of_pos hpos]) (by rwa [abs_of_pos hpos]) hk]
  rcases hn with hn | hn
  · rw [roundHalfEven_of_tie_above hn he]
  · rw [roundHalfEven_of_tie_below hn he]

/-- A whole number up to `2^53` in magnitude is a `float64`. -/
theorem Float64.round_of_whole {x : ℚ} (h : Float64.Whole x) : Float64.round x = x := by
  obtain ⟨hd, hb⟩ := h
  have hx : ((x.num : ℤ) : ℚ) = x := (Rat.den_eq_one_iff x).mp hd
  rw [← hx] at hb ⊢
  apply Float64.round_intCast
  have h53 : |((x.num : ℤ) : ℚ)| ≤ ((2 ^ 53 : ℤ) : ℚ) := by
    calc |((x.num : ℤ) : ℚ)| ≤ 2 ^ 53 := hb
      _ = ((2 ^ 53 : ℤ) : ℚ) := by norm_num
  rw [← Int.cast_abs] at h53
  exact Int.cast_le.mp h53

/-- The difference of two whole numbers, when it is at most `2^53` in
magnitude, is computed exactly. -/
theorem Float64.sub_of_whole {x y : ℚ} (hx : x.den = 1) (hy : y.den = 1)
    (h : |x - y| ≤ 2 ^ 53) : Float64.sub x y = x - y := by
  apply Float64.round_of_whole
  refine ⟨?_, h⟩
  have h1 : ((x.num : ℤ) : ℚ) = x := (Rat.den_eq_one_iff x).mp hx
  have h2 : ((y.num : ℤ) : ℚ) = y := (Rat.den_eq_one_iff y).mp hy
  rw [← h1, ← h2, ← Int.cast_sub]
  exact Rat.den_intCast _

/-- The sum of two whole numbers, when it is at most `2^53` in magnitude, is
computed exactly. -/
theorem Float64.add_of_whole {x y : ℚ} (hx : x.den = 1) (hy : y.den = 1)
    (h : |x + y| ≤ 2 ^ 53) : Float64.add x y = x + y := by
  apply Float64.round_of_whole
  refine ⟨?_, h⟩
  have h1 : ((x.num : ℤ) : ℚ) = x := (Rat.den_eq_one_iff x).mp hx
  have h2 : ((y.num : ℤ) : ℚ) = y := (Rat.den_eq_one_iff y).mp hy
  rw [← h1, ← h2, ← Int.cast_add]
  exact Rat.den_intCast _

/-! ## The service on `float64` amounts -/

/-- The path of `submitClaimInTx` with the member found, active, the procedure
found and benefit left, in closed form: `approved` is the amount decided. -/
theorem submitClaimInTx_funded_f64 {fl : Faults} {ops : SQLOperations}
    {form : ClaimSubmissionForm} {member : Member} {procedure : Procedure}
    (hm : memberDomain.GetMemberByID fl ops form.MemberID = (some member, none))
    (hactive : member.IsActive = true)
    (hp : procedureDomain.GetProcedureByCode fl ops form.ProcedureCode = (some procedure, none))
    (hrem : 0 < Float64.sub member.BenefitLimit member.UsedAmount)
    (status : ClaimStatus) (approved : ℚ) (reason : String)
    (hd : (if form.RequestedAmount ≤ Float64.sub member.BenefitLimit member.UsedAmount then
            (("APPROVED", form.RequestedAmount, "") : ClaimStatus × ℚ × String)
          else
            ("PARTIAL", Float64.sub member.BenefitLimit member.UsedAmount,
              "Requested amount exceeds remaining benefit; approved up to remaining limit."))
          = (status, approved, reason)) :
    F64.claimService.submitClaimInTx fl ops form =
      if fl.memberWrite then (ops, none, some (Error.DatabaseError SqlError.Fault))
      else if fl.claimWrite then
        ((ops.run (memberDomain.writeStmt
            { member with UsedAmount := Float64.add member.UsedAmount approved })).1,
          none, some (Error.DatabaseError SqlError.Fault))
      else
        (((ops.run (memberDomain.writeStmt
            { member with UsedAmount := Float64.add member.UsedAmount approved })).1.run
            (claimDomain.insertStmt form approved status
              (decide (form.RequestedAmount > procedure.AverageCost * FraudAmountMultiplier))
              reason)).1,
          some
            { ClaimID := ops.view.claimSeq
              Status := status
              FraudFlag :=
                decide (form.RequestedAmount > procedure.AverageCost * FraudAmountMultiplier)
              ApprovedAmount := approved
              RejectionReason := reason },
          none) := by
  have hrem1 : ¬ (Float64.sub member.BenefitLimit member.UsedAmount ≤ 0) := not_le.mpr hrem
  simp only [F64.claimService.submitClaimInTx, hm, hp, hactive, hrem1, hd]
  by_cases hw : fl.memberWrite = true
  · simp [CreateMember_fault _ _ hw, hw]
  · have hw1 : fl.memberWrite = false := by simpa using hw
    by_cases hc : fl.claimWrite = true
    · simp [CreateMember_ok _ _ hw1, hw1, hc, claimDomain.CreateClaim, SequentialIdentifier.IsNew]
    · have hc1 : fl.claimWrite = false := by simpa using hc
      have hid : ∀ (o : SQLOperations) (a b : Int) (c d : String) (e f : ℚ) (g : ClaimStatus)
          (h : Bool) (i : String),
          (o.run (Stmt.createClaimSQL a b c d e f g h i)).2 = o.view.claimSeq := fun _ _ _ _ _ _ _ _ _ _ => rfl
      simp [CreateMember_ok _ _ hw1, hw1, hc1, claimDomain.CreateClaim, claimDomain.insertStmt,
        SequentialIdentifier.IsNew, run_writeStmt_claimSeq, hid]


theorem submitClaimInTx_of_member_err_f64 {fl : Faults} {ops : SQLOperations}
    {form : ClaimSubmissionForm} {member : Option Member} {err : Error}
    (hm : memberDomain.GetMemberByID fl ops form.MemberID = (member, some err)) :
    F64.claimService.submitClaimInTx fl ops form
      = claimService.persistRejectedClaim fl ops form "Member not found" false := by
  simp only [F64.claimService.submitClaimInTx, hm]

theorem submitClaimInTx_of_inactive_f64 {fl : Faults} {ops : SQLOperations}
    {form : ClaimSubmissionForm} {member : Member}
    (hm : memberDomain.GetMemberByID fl ops form.MemberID = (some member, none))
    (hactive : member.IsActive = false) :
    F64.claimService.submitClaimInTx fl ops form
      = claimService.persistRejectedClaim fl ops form "Member is not active" false := by
  simp [F64.claimService.submitClaimInTx, hm, hactive]

theorem submitClaimInTx_of_procedure_err_f64 {fl : Faults} {ops : SQLOperations}
    {form : ClaimSubmissionForm} {member : Member} {procedure : Option Procedure} {err : Error}
    (hm : memberDomain.GetMemberByID fl ops form.MemberID = (some member, none))
    (hactive : member.IsActive = true)
    (hp : procedureDomain.GetProcedureByCode fl ops form.ProcedureCode = (procedure, some err)) :
    F64.claimService.submitClaimInTx fl ops form
      = claimService.persistRejectedClaim fl ops form "Invalid or unknown procedure code"
          false := by
  simp [F64.claimService.submitClaimInTx, hm, hactive, hp]

theorem submitClaimInTx_of_exhausted_f64 {fl : Faults} {ops : SQLOperations}
    {form : ClaimSubmissionForm} {member : Member} {procedure : Procedure}
    (hm : memberDomain.GetMemberByID fl ops form.MemberID = (some member, none))
    (hactive : member.IsActive = true)
    (hp : procedureDomain.GetProcedureByCode fl ops form.ProcedureCode = (some procedure, none))
    (hrem : Float64.sub member.BenefitLimit member.UsedAmount ≤ 0) :
    F64.claimService.submitClaimInTx fl ops form
      = claimService.persistRejectedClaim fl ops form "Benefit limit exhausted"
          (decide (form.RequestedAmount > procedure.AverageCost * FraudAmountMultiplier)) := by
  simp [F64.claimService.submitClaimInTx, hm, hactive, hp, hrem]


/-- Every run of `submitClaimInTx` has one of three shapes: an error and no
response; a rejection, which appends one claim row and writes nothing else; a
decision for an active member with benefit left, which writes the member and
appends one claim row. -/
theorem submitClaimInTx_cases_f64 (fl : Faults) (ops : SQLOperations)
    (form : ClaimSubmissionForm) :
    (∃ tx err, (fl.memberWrite = true ∨ fl.claimWrite = true) ∧
      F64.claimService.submitClaimInTx fl ops form = (tx, none, some err)) ∨
    (∃ reason fraudFlag, fl.claimWrite = false ∧
      F64.claimService.submitClaimInTx fl ops form =
        ((ops.run (claimDomain.insertStmt form 0 "REJECTED" fraudFlag reason)).1,
          some { ClaimID := ops.view.claimSeq, Status := "REJECTED", FraudFlag := fraudFlag,
                 ApprovedAmount := 0, RejectionReason := reason }, none)) ∨
    (∃ (member : Member) (procedure : Procedure) (status : ClaimStatus) (approved : ℚ)
        (reason : String),
      ops.view.members.find? (fun m => m.ID == form.MemberID) = some member ∧
      member.IsActive = true ∧
      0 < Float64.sub member.BenefitLimit member.UsedAmount ∧
      (if form.RequestedAmount ≤ Float64.sub member.BenefitLimit member.UsedAmount then
          (("APPROVED", form.RequestedAmount, "") : ClaimStatus × ℚ × String)
        else
          ("PARTIAL", Float64.sub member.BenefitLimit member.UsedAmount,
            "Requested amount exceeds remaining benefit; approved up to remaining limit."))
        = (status, approved, reason) ∧
      fl.memberWrite = false ∧ fl.claimWrite = false ∧
      F64.claimService.submitClaimInTx fl ops form =
        (((ops.run (memberDomain.writeStmt
            { member with UsedAmount := Float64.add member.UsedAmount approved })).1.run
            (claimDomain.insertStmt form approved status
              (decide (form.RequestedAmount > procedure.AverageCost * FraudAmountMultiplier))
              reason)).1,
          some
            { ClaimID := ops.view.claimSeq
              Status := status
              FraudFlag :=
                decide (form.RequestedAmount > procedure.AverageCost * FraudAmountMultiplier)
              ApprovedAmount := approved
              RejectionReason := reason },
          none)) := by
  have hrej : ∀ reason fraudFlag,
      F64.claimService.submitClaimInTx fl ops form
        = claimService.persistRejectedClaim fl ops form reason fraudFlag →
      (∃ tx err, (fl.memberWrite = true ∨ fl.claimWrite = true) ∧
        F64.claimService.submitClaimInTx fl ops form = (tx, none, some err)) ∨
      (∃ reason fraudFlag, fl.claimWrite = false ∧
        F64.claimService.submitClaimInTx fl ops form =
          ((ops.run (claimDomain.insertStmt form 0 "REJECTED" fraudFlag reason)).1,
            some { ClaimID := ops.view.claimSeq, Status := "REJECTED", FraudFlag := fraudFlag,
                   ApprovedAmount := 0, RejectionReason := reason }, none)) := by
    intro reason fraudFlag h
    by_cases hc : fl.claimWrite = true
    · exact Or.inl ⟨_, _, Or.inr hc, h.trans (persistRejectedClaim_fault _ _ _ _ hc)⟩
    · have hc1 : fl.claimWrite = false := by simpa using hc
      exact Or.inr ⟨reason, fraudFlag, hc1, h.trans (persistRejectedClaim_ok _ _ _ _ hc1)⟩
  have lift : ∀ {P Q R : Prop}, P ∨ Q → P ∨ Q ∨ R := fun h => h.elim Or.inl (fun q => Or.inr (Or.inl q))
  rcases GetMemberByID_cases fl ops form.MemberID with ⟨member, _, hfind, hm⟩ | ⟨err, hm⟩
  · by_cases hactive : member.IsActive = true
    · rcases GetProcedureByCode_cases fl ops form.ProcedureCode with
        ⟨procedure, _, _, hp⟩ | ⟨err, hp⟩
      · by_cases hrem : Float64.sub member.BenefitLimit member.UsedAmount ≤ 0
        · exact lift (hrej _ _ (submitClaimInTx_of_exhausted_f64 hm hactive hp hrem))
        · have hrem1 : 0 < Float64.sub member.BenefitLimit member.UsedAmount := not_le.mp hrem
          obtain ⟨status, approved, reason, hd⟩ :
              ∃ status approved reason,
                (if form.RequestedAmount ≤ Float64.sub member.BenefitLimit member.UsedAmount then
                  (("APPROVED", form.RequestedAmount, "") : ClaimStatus × ℚ × String)
                else
                  ("PARTIAL", Float64.sub member.BenefitLimit member.UsedAmount,
                    "Requested amount exceeds remaining benefit; approved up to remaining limit."))
                = (status, approved, reason) := ⟨_, _, _, rfl⟩
          have h := submitClaimInTx_funded_f64 hm hactive hp hrem1 status approved reason hd
          by_cases hw : fl.memberWrite = true
          · rw [if_pos hw] at h
            exact Or.inl ⟨_, _, Or.inl hw, h⟩
          · have hw1 : fl.memberWrite = false := by simpa using hw
            by_cases hc : fl.claimWrite = true
            · rw [if_neg hw, if_pos hc] at h
              exact Or.inl ⟨_, _, Or.inr hc, h⟩
            · have hc1 : fl.claimWrite = false := by simpa using hc
              rw [if_neg hw, if_neg hc] at h
              exact Or.inr (Or.inr ⟨member, procedure, status, approved, reason, hfind, hactive,
                hrem1, hd, hw1, hc1, h⟩)
      · exact lift (hrej _ _ (submitClaimInTx_of_procedure_err_f64 hm hactive hp))
    · have hactive1 : member.IsActive = false := by simpa using hactive
      exact lift (hrej _ _ (submitClaimInTx_of_inactive_f64 hm hactive1))
  · exact lift (hrej _ _ (submitClaimInTx_of_member_err_f64 hm))

/-- `SubmitClaim` in terms of the run of `submitClaimInTx` on a fresh handle. -/
theorem SubmitClaim_eq_f64 (fl : Faults) (db : Store) (form : ClaimSubmissionForm) :
    F64.claimService.SubmitClaim fl db form =
      if fl.beginTx then (db, [TxCall.Begin], none, some (Error.Tx TxCall.Begin))
      else
        match F64.claimService.submitClaimInTx fl { view := db, writes := [] } form with
        | (_, _, some err) =>
          (db, [TxCall.Begin, TxCall.Rollback], none,
            some (if fl.rollbackTx then Error.Tx TxCall.Rollback else err))
        | (tx, result, none) =>
          if fl.commitTx then
            (db, [TxCall.Begin, TxCall.Commit], none, some (Error.Tx TxCall.Commit))
          else (tx.view, [TxCall.Begin, TxCall.Commit], result, none) := by
  unfold F64.claimService.SubmitClaim appDB.InTransaction
  by_cases hb : fl.beginTx = true
  · simp [hb]
  · simp only [hb]
    rcases h : F64.claimService.submitClaimInTx fl { view := db, writes := [] } form with
      ⟨tx, result, _ | err⟩
    · by_cases hc : fl.commitTx = true <;> simp [hc]
    · by_cases hr : fl.rollbackTx = true <;> simp [hr]

/-- Every call of `SubmitClaim` has one of three shapes: it fails, returns an
error and no response and leaves the committed rows as they were; it commits a
rejection, one claim row added; or it commits a decision for an active member
with benefit left, the member written and one claim row added. -/
theorem SubmitClaim_cases_f64 (fl : Faults) (db : Store) (form : ClaimSubmissionForm) :
    (∃ calls err, F64.claimService.SubmitClaim fl db form = (db, calls, none, some err) ∧
      ((fl.beginTx = true ∧ calls = [TxCall.Begin]) ∨
        ((fl.memberWrite = true ∨ fl.claimWrite = true) ∧
          calls = [TxCall.Begin, TxCall.Rollback]) ∨
        (fl.commitTx = true ∧ calls = [TxCall.Begin, TxCall.Commit]))) ∨
    (∃ reason fraudFlag,
      F64.claimService.SubmitClaim fl db form =
        ({ db with
            claims := db.claims ++ [Claim.ofForm db.claimSeq form 0 "REJECTED" fraudFlag reason]
            claimSeq := db.claimSeq + 1 },
          [TxCall.Begin, TxCall.Commit],
          some { ClaimID := db.claimSeq, Status := "REJECTED", FraudFlag := fraudFlag,
                 ApprovedAmount := 0, RejectionReason := reason }, none)) ∨
    (∃ (member : Member) (procedure : Procedure) (status : ClaimStatus) (approved : ℚ)
        (reason : String) (db1 : Store),
      db.members.find? (fun m => m.ID == form.MemberID) = some member ∧
      member.IsActive = true ∧
      0 < Float64.sub member.BenefitLimit member.UsedAmount ∧
      (if form.RequestedAmount ≤ Float64.sub member.BenefitLimit member.UsedAmount then
          (("APPROVED", form.RequestedAmount, "") : ClaimStatus × ℚ × String)
        else
          ("PARTIAL", Float64.sub member.BenefitLimit member.UsedAmount,
            "Requested amount exceeds remaining benefit; approved up to remaining limit."))
        = (status, approved, reason) ∧
      db1.members = (({ view := db, writes := [] } : SQLOperations).run
        (memberDomain.writeStmt
          { member with UsedAmount := Float64.add member.UsedAmount approved })).1.view.members ∧
      db1.procedures = db.procedures ∧
      db1.claims = db.claims ++ [Claim.ofForm db.claimSeq form approved status
          (decide (form.RequestedAmount > procedure.AverageCost * FraudAmountMultiplier))
          reason] ∧
      F64.claimService.SubmitClaim fl db form =
        (db1, [TxCall.Begin, TxCall.Commit],
          some
            { ClaimID := db.claimSeq
              Status := status
              FraudFlag :=
                decide (form.RequestedAmount > procedure.AverageCost * FraudAmountMultiplier)
              ApprovedAmount := approved
              RejectionReason := reason }, none)) := by
  rw [SubmitClaim_eq_f64]
  by_cases hb : fl.beginTx = true
  · exact Or.inl ⟨_, _, by rw [if_pos hb], Or.inl ⟨hb, rfl⟩⟩
  rw [if_neg hb]
  rcases submitClaimInTx_cases_f64 fl { view := db, writes := [] } form with
    ⟨tx, err, hw, h⟩ | ⟨reason, fraudFlag, _, h⟩ |
    ⟨member, procedure, status, approved, reason, hfind, hactive, hrem, hd, _, _, h⟩
  · rw [h]
    exact Or.inl ⟨_, _, rfl, Or.inr (Or.inl ⟨hw, rfl⟩)⟩
  · rw [h]
    by_cases hc : fl.commitTx = true
    · exact Or.inl ⟨_, _, by simp only [hc, if_true]; rfl, Or.inr (Or.inr ⟨hc, rfl⟩)⟩
    · refine Or.inr (Or.inl ⟨reason, fraudFlag, ?_⟩)
      simp only [hc, run_insertStmt_view]
      rfl
  · rw [h]
    by_cases hc : fl.commitTx = true
    · exact Or.inl ⟨_, _, by simp only [hc, if_true]; rfl, Or.inr (Or.inr ⟨hc, rfl⟩)⟩
    · refine Or.inr (Or.inr ⟨member, procedure, status, approved, reason, _, hfind, hactive,
        hrem, hd, ?_, ?_, ?_, by simp only [hc]; rfl⟩)
      · simp [run_insertStmt_view]
      · simp [run_insertStmt_view, run_writeStmt_procedures]
      · simp [run_insertStmt_view, run_writeStmt_claims, run_writeStmt_claimSeq]


/-- A decision that `submitClaimInTx` persists is committed by `SubmitClaim`
when `Begin`, both writes and `Commit` succeed. -/
theorem SubmitClaim_of_funded_f64 {fl : Faults} {db : Store} {form : ClaimSubmissionForm}
    {member : Member} {procedure : Procedure}
    (hb : fl.beginTx = false) (hmw : fl.memberWrite = false) (hcw : fl.claimWrite = false)
    (hc : fl.commitTx = false)
    (hm : memberDomain.GetMemberByID fl { view := db, writes := [] } form.MemberID
      = (some member, none))
    (hactive : member.IsActive = true)
    (hp : procedureDomain.GetProcedureByCode fl { view := db, writes := [] } form.ProcedureCode
      = (some procedure, none))
    (hrem : 0 < Float64.sub member.BenefitLimit member.UsedAmount)
    (status : ClaimStatus) (approved : ℚ) (reason : String)
    (hd : (if form.RequestedAmount ≤ Float64.sub member.BenefitLimit member.UsedAmount then
            (("APPROVED", form.RequestedAmount, "") : ClaimStatus × ℚ × String)
          else
            ("PARTIAL", Float64.sub member.BenefitLimit member.UsedAmount,
              "Requested amount exceeds remaining benefit; approved up to remaining limit."))
          = (status, approved, reason)) :
    (F64.claimService.SubmitClaim fl db form).2.2 =
      (some
        { ClaimID := db.claimSeq
          Status := status
          FraudFlag :=
            decide (form.RequestedAmount > procedure.AverageCost * FraudAmountMultiplier)
          ApprovedAmount := approved
          RejectionReason := reason }, none) := by
  rw [SubmitClaim_eq_f64, submitClaimInTx_funded_f64 hm hactive hp hrem status approved reason hd]
  simp [hb, hmw, hcw, hc]

/-- A decision committed with no fault, in closed form. -/
theorem SubmitClaim_funded_f64 {db : Store} {form : ClaimSubmissionForm}
    {member : Member} {procedure : Procedure}
    (hm : db.members.find? (fun m => m.ID == form.MemberID) = some member)
    (hactive : member.IsActive = true)
    (hp : db.procedures.find? (fun p => p.Code == form.ProcedureCode) = some procedure)
    (hrem : 0 < Float64.sub member.BenefitLimit member.UsedAmount)
    (status : ClaimStatus) (approved : ℚ) (reason : String)
    (hd : (if form.RequestedAmount ≤ Float64.sub member.BenefitLimit member.UsedAmount then
            (("APPROVED", form.RequestedAmount, "") : ClaimStatus × ℚ × String)
          else
            ("PARTIAL", Float64.sub member.BenefitLimit member.UsedAmount,
              "Requested amount exceeds remaining benefit; approved up to remaining limit."))
          = (status, approved, reason))
    (fraudFlag : Bool)
    (hf : decide (form.RequestedAmount > procedure.AverageCost * FraudAmountMultiplier)
      = fraudFlag)
    (used : ℚ) (hu : Float64.add member.UsedAmount approved = used) :
    F64.claimService.SubmitClaim Faults.none db form =
      (((({ view := db, writes := [] } : SQLOperations).run (memberDomain.writeStmt
            { member with UsedAmount := used })).1.run
            (claimDomain.insertStmt form approved status fraudFlag reason)).1.view,
        [TxCall.Begin, TxCall.Commit],
        some
          { ClaimID := db.claimSeq
            Status := status
            FraudFlag := fraudFlag
            ApprovedAmount := approved
            RejectionReason := reason },
        none) := by
  subst hf hu
  rw [SubmitClaim_eq_f64, submitClaimInTx_funded_f64 (GetMemberByID_found rfl hm) hactive
    (GetProcedureByCode_found rfl hp) hrem status approved reason hd]
  rfl

/-! ## Exact amounts and `float64` amounts -/

/-- When the subtraction and the addition of a call are exact, the run on
`float64` amounts is the run on exact amounts. -/
theorem submitClaimInTx_f64_eq_exact (fl : Faults) (ops : SQLOperations)
    (form : ClaimSubmissionForm)
    (hexact : ∀ member : Member,
      ops.view.members.find? (fun m => m.ID == form.MemberID) = some member →
      Float64.sub member.BenefitLimit member.UsedAmount
          = member.BenefitLimit - member.UsedAmount ∧
        Float64.add member.UsedAmount
            (if form.RequestedAmount ≤ member.BenefitLimit - member.UsedAmount then
              form.RequestedAmount
            else member.BenefitLimit - member.UsedAmount)
          = member.UsedAmount +
            (if form.RequestedAmount ≤ member.BenefitLimit - member.UsedAmount then
              form.RequestedAmount
            else member.BenefitLimit - member.UsedAmount)) :
    F64.claimService.submitClaimInTx fl ops form = claimService.submitClaimInTx fl ops form := by
  rcases GetMemberByID_cases fl ops form.MemberID with ⟨member, _, hfind, hm⟩ | ⟨err, hm⟩
  · obtain ⟨hsub, hadd⟩ := hexact member hfind
    by_cases hactive : member.IsActive = true
    · rcases GetProcedureByCode_cases fl ops form.ProcedureCode with
        ⟨procedure, _, _, hp⟩ | ⟨err, hp⟩
      · by_cases hrem : member.BenefitLimit - member.UsedAmount ≤ 0
        · rw [submitClaimInTx_of_exhausted hm hactive hp hrem,
            submitClaimInTx_of_exhausted_f64 hm hactive hp (by rw [hsub]; exact hrem)]
        · have hrem1 : 0 < member.BenefitLimit - member.UsedAmount := not_le.mp hrem
          by_cases hle : form.RequestedAmount ≤ member.BenefitLimit - member.UsedAmount
          · rw [if_pos hle] at hadd
            rw [submitClaimInTx_funded hm hactive hp hrem1 "APPROVED" form.RequestedAmount ""
                (by rw [if_pos hle]),
              submitClaimInTx_funded_f64 hm hactive hp (by rw [hsub]; exact hrem1) "APPROVED"
                form.RequestedAmount "" (by rw [hsub, if_pos hle]), hadd]
          · rw [if_neg hle] at hadd
            rw [submitClaimInTx_funded hm hactive hp hrem1 "PARTIAL"
                (member.BenefitLimit - member.UsedAmount)
                "Requested amount exceeds remaining benefit; approved up to remaining limit."
                (by rw [if_neg hle]),
              submitClaimInTx_funded_f64 hm hactive hp (by rw [hsub]; exact hrem1) "PARTIAL"
                (member.BenefitLimit - member.UsedAmount)
                "Requested amount exceeds remaining benefit; approved up to remaining limit."
                (by rw [hsub, if_neg hle]), hadd]
      · rw [submitClaimInTx_of_procedure_err hm hactive hp,
          submitClaimInTx_of_procedure_err_f64 hm hactive hp]
    · have hactive1 : member.IsActive = false := by simpa using hactive
      rw [submitClaimInTx_of_inactive hm hactive1, submitClaimInTx_of_inactive_f64 hm hactive1]
  · rw [submitClaimInTx_of_member_err hm, submitClaimInTx_of_member_err_f64 hm]

/-! ## The decision on `float64` amounts -/

/-- The `float64` values of the decimals 3117.97, 433.51 and 2684.46. -/
theorem float64_of_decimals :
    Float64.round (311797 / 100) = 6856488540113469 / 2199023255552 ∧
    Float64.round (43351 / 100) = 1906597143028695 / 4398046511104 ∧
    Float64.round (268446 / 100) = 2951594984299561 / 1099511627776 := by
  refine ⟨?_, ?_, ?_⟩
  · rw [Float64.round_of_near 11 6856488540113469 (by norm_num) (by norm_num) (by norm_num)
      (by rw [abs_lt]; constructor <;> norm_num)]
    norm_num
  · rw [Float64.round_of_near 8 7626388572114780 (by norm_num) (by norm_num) (by norm_num)
      (by rw [abs_lt]; constructor <;> norm_num)]
    norm_num
  · rw [Float64.round_of_near 11 5903189968599122 (by norm_num) (by norm_num) (by norm_num)
      (by rw [abs_lt]; constructor <;> norm_num)]
    norm_num

/-- The difference 3117.97 - 433.51 as the Go code computes it is the
`float64` 2684.46: the exact difference is half-way between two `float64`
and rounds up to it. -/
theorem float64_sub_eval :
    Float64.sub (6856488540113469 / 2199023255552) (1906597143028695 / 4398046511104)
      = 2951594984299561 / 1099511627776 := by
  unfold Float64.sub
  rw [Float64.round_of_tie 11 5903189968599122 (by norm_num) (by norm_num) (by norm_num)
    (Or.inr (by norm_num)) (by norm_num)]
  norm_num

/-- C2 as the code has it: for every submission whose member exists and is
active, whose procedure code is known, and whose requested amount is above the
remaining benefit as the code computes it, `remaining = benefit_limit -
used_amount` rounded to the nearest `float64`, with `remaining > 0`,
`submitClaimInTx` returns, with a nil error, status `PARTIAL`, that remaining
benefit as approved amount and the reason "Requested amount exceeds remaining
benefit; approved up to remaining limit.". -/
theorem submitClaimInTx_partial_f64 (fl : Faults) (ops : SQLOperations)
    (form : ClaimSubmissionForm) (member : Member) (procedure : Procedure)
    (hfl : fl.StoreOK)
    (hm : ops.view.members.find? (fun m => m.ID == form.MemberID) = some member)
    (hactive : member.IsActive = true)
    (hp : ops.view.procedures.find? (fun p => p.Code == form.ProcedureCode) = some procedure)
    (hrem : 0 < Float64.sub member.BenefitLimit member.UsedAmount)
    (hgt : Float64.sub member.BenefitLimit member.UsedAmount < form.RequestedAmount) :
    (F64.claimService.submitClaimInTx fl ops form).2 =
      (some
        { ClaimID := ops.view.claimSeq
          Status := "PARTIAL"
          FraudFlag :=
            decide (form.RequestedAmount > procedure.AverageCost * FraudAmountMultiplier)
          ApprovedAmount := Float64.sub member.BenefitLimit member.UsedAmount
          RejectionReason :=
            "Requested amount exceeds remaining benefit; approved up to remaining limit." },
        none) := by
  obtain ⟨h1, h2, h3, h4⟩ := hfl
  rw [submitClaimInTx_funded_f64 (GetMemberByID_found h1 hm) hactive
    (GetProcedureByCode_found h2 hp) hrem "PARTIAL"
    (Float64.sub member.BenefitLimit member.UsedAmount)
    "Requested amount exceeds remaining benefit; approved up to remaining limit."
    (by rw [if_neg (not_le.mpr hgt)])]
  simp [h3, h4]

/-- The difference 1000 - 800 is computed exactly. -/
theorem float64_sub_1000_800 : Float64.sub 1000 800 = 200 := by
  rw [Float64.sub_of_whole (by norm_num) (by norm_num) (by norm_num)]
  norm_num

/-- Witness of the amended C2: scenario 2 (limit 1000, used 800, average cost
50, request 500) gives `PARTIAL`, approved 200, fraud flag set. -/
theorem submitClaimInTx_partial_f64_witness :
    (F64.claimService.submitClaimInTx Faults.none (sampleOps 800 50) (sampleForm 500)).2 =
        (some { ClaimID := 1, Status := "PARTIAL", FraudFlag := true, ApprovedAmount := 200,
                RejectionReason :=
                  "Requested amount exceeds remaining benefit; approved up to remaining limit." },
          none) := by
  have hs : Float64.sub (1000 : ℚ) 800 = 200 := float64_sub_1000_800
  have h := submitClaimInTx_partial_f64 Faults.none (sampleOps 800 50)
    (sampleForm 500)
    { ID := 7, FullName := "Amina", IsActive := true, BenefitLimit := 1000, UsedAmount := 800 }
    { ID := 1, Code := "P100", Description := "consultation", AverageCost := 50 }
    Faults.none_StoreOK rfl rfl rfl (by simp only [hs]; norm_num)
    (by simp only [hs]; norm_num [sampleForm])
  rw [h]
  simp only [hs]
  norm_num [sampleOps, sampleStore, sampleForm, FraudAmountMultiplier]

/-- C2 fails as stated, with `remaining` the exact difference: member 7 has
limit 3117.97 and has used 433.51, and the request is 2684.46 (the `float64`
values of these decimals). The exact difference `limit - used` is positive and
below the request, but the Go code computes `remaining` = 2684.46 (the exact
difference rounds up to it), the request is not above that, and the outcome is
`APPROVED` with the whole request as approved amount, not `PARTIAL`. -/
theorem exact_remaining_counterexample :
    Float64.round (311797 / 100) = 6856488540113469 / 2199023255552 ∧
    Float64.round (43351 / 100) = 1906597143028695 / 4398046511104 ∧
    Float64.round (268446 / 100) = 2951594984299561 / 1099511627776 ∧
    (0 : ℚ) < 6856488540113469 / 2199023255552 - 1906597143028695 / 4398046511104 ∧
    (6856488540113469 / 2199023255552 - 1906597143028695 / 4398046511104 : ℚ)
      < 2951594984299561 / 1099511627776 ∧
    (F64.claimService.submitClaimInTx Faults.none
        { view := ledgerStore (6856488540113469 / 2199023255552)
            (1906597143028695 / 4398046511104),
          writes := [] }
        (sampleForm (2951594984299561 / 1099511627776))).2 =
      (some { ClaimID := 1, Status := "APPROVED", FraudFlag := true,
              ApprovedAmount := 2951594984299561 / 1099511627776, RejectionReason := "" },
        none) := by
  refine ⟨float64_of_decimals.1, float64_of_decimals.2.1, float64_of_decimals.2.2,
    by norm_num, by norm_num, ?_⟩
  have hs : Float64.sub (6856488540113469 / 2199023255552 : ℚ)
      (1906597143028695 / 4398046511104) = 2951594984299561 / 1099511627776 := float64_sub_eval
  have h := @submitClaimInTx_funded_f64 Faults.none
    { view := ledgerStore (6856488540113469 / 2199023255552)
        (1906597143028695 / 4398046511104),
      writes := [] }
    (sampleForm (2951594984299561 / 1099511627776))
    { ID := 7, FullName := "Amina", IsActive := true,
      BenefitLimit := 6856488540113469 / 2199023255552,
      UsedAmount := 1906597143028695 / 4398046511104 }
    { ID := 1, Code := "P100", Description := "consultation", AverageCost := 100 }
    (GetMemberByID_found rfl rfl) rfl (GetProcedureByCode_found rfl rfl)
    (by simp only [hs]; norm_num) "APPROVED" (2951594984299561 / 1099511627776) ""
    (by
      simp only [hs]
      rw [if_pos (show (sampleForm (2951594984299561 / 1099511627776)).RequestedAmount
        ≤ 2951594984299561 / 1099511627776 from le_refl _)]
      rfl)
  rw [h]
  norm_num [Faults.none, ledgerStore, sampleForm, FraudAmountMultiplier]

/-! ## The member write on `float64` amounts -/

/-- C12 as the code has it: for every `APPROVED` or `PARTIAL` outcome of a
submission with a member identifier that is not zero, the engine writes the
member by an `UPDATE` of the existing row: the rows of `members` are the rows
before the call, in the same number, with the row of the submission's member
replaced by the record read with `used_amount` set to the `float64` sum of the
previous `used_amount` and the approved amount (their exact sum rounded to the
nearest `float64`); its identity, full name, active flag and benefit limit are
those read, and every other row is as it was. -/
theorem SubmitClaim_updates_member_f64 (fl : Faults) (db : Store) (form : ClaimSubmissionForm)
    (resp : ClaimSubmissionResponse)
    (hnz : form.MemberID ≠ 0)
    (hr : (F64.claimService.SubmitClaim fl db form).2.2 = (some resp, none))
    (hs : resp.Status = "APPROVED" ∨ resp.Status = "PARTIAL") :
    ∃ member : Member,
      db.members.find? (fun m => m.ID == form.MemberID) = some member ∧
      (F64.claimService.SubmitClaim fl db form).1.members.find?
          (fun m => m.ID == form.MemberID)
        = some { ID := member.ID, FullName := member.FullName, IsActive := member.IsActive,
                 BenefitLimit := member.BenefitLimit,
                 UsedAmount := Float64.add member.UsedAmount resp.ApprovedAmount } ∧
      (F64.claimService.SubmitClaim fl db form).1.members =
        db.members.map (fun m =>
          if m.ID = form.MemberID then
            { member with UsedAmount := Float64.add member.UsedAmount resp.ApprovedAmount }
          else m) ∧
      (F64.claimService.SubmitClaim fl db form).1.members.length = db.members.length := by
  rcases SubmitClaim_cases_f64 fl db form with
    ⟨calls, err, h, _⟩ | ⟨reason, fraudFlag, h⟩ |
    ⟨member, procedure, status, approved, reason, db1, hfind, _, _, _, hmem, _, _, h⟩
  · rw [h] at hr
    simp at hr
  · rw [h] at hr
    simp only [Prod.mk.injEq, Option.some.injEq, and_true] at hr
    rw [← hr] at hs
    simp at hs
  · rw [h] at hr ⊢
    simp only [Prod.mk.injEq, Option.some.injEq, and_true] at hr
    have happ : resp.ApprovedAmount = approved := by rw [← hr]
    have hid : member.ID = form.MemberID := find_member_ID hfind
    have hmap : db1.members = db.members.map (fun m =>
        if m.ID = form.MemberID then
          { member with UsedAmount := Float64.add member.UsedAmount resp.ApprovedAmount }
        else m) := by
      rw [hmem, happ, run_writeStmt_members_old _
        { member with UsedAmount := Float64.add member.UsedAmount approved }
        (by rw [hid]; exact hnz)]
      apply List.map_congr_left
      intro r _
      by_cases hrid : r.ID = member.ID
      · have hrf : r.ID = form.MemberID := hrid.trans hid
        simp [hrid, hid]
      · have hrf : ¬ r.ID = form.MemberID := fun h => hrid (h.trans hid.symm)
        simp [hrid, hrf]
    refine ⟨member, hfind, ?_, hmap, ?_⟩
    · show db1.members.find? _ = _
      rw [hmem, happ]
      exact find_after_write_same { view := db, writes := [] }
        { member with UsedAmount := Float64.add member.UsedAmount approved } member
        form.MemberID hfind hid hnz
    · show db1.members.length = _
      rw [hmap, List.length_map]

/-- The sum 0 + 300 is computed exactly. -/
theorem float64_add_0_300 : Float64.add 0 300 = 300 := by
  rw [Float64.add_of_whole (by norm_num) (by norm_num) (by norm_num)]
  norm_num

/-- The difference 1000 - 0 is computed exactly. -/
theorem float64_sub_1000_0 : Float64.sub 1000 0 = 1000 := by
  rw [Float64.sub_of_whole (by norm_num) (by norm_num) (by norm_num)]
  norm_num

/-- Scenario 1 through `SubmitClaim` on `float64` amounts: approved for 300,
member 7 has used 300. -/
theorem sample_approved_SubmitClaim_f64 :
    F64.claimService.SubmitClaim Faults.none (sampleStore 0 100) (sampleForm 300) =
      ({ sampleStore 300 100 with
          claims := [Claim.ofForm 1 (sampleForm 300) 300 "APPROVED" true ""],
          claimSeq := 2 },
        [TxCall.Begin, TxCall.Commit],
        some { ClaimID := 1, Status := "APPROVED", FraudFlag := true, ApprovedAmount := 300,
               RejectionReason := "" },
        none) := by
  have hs : Float64.sub (1000 : ℚ) 0 = 1000 := float64_sub_1000_0
  rw [@SubmitClaim_funded_f64 (sampleStore 0 100) (sampleForm 300)
    { ID := 7, FullName := "Amina", IsActive := true, BenefitLimit := 1000, UsedAmount := 0 }
    { ID := 1, Code := "P100", Description := "consultation", AverageCost := 100 }
    rfl rfl rfl (by simp only [hs]; norm_num) "APPROVED" 300 ""
    (by
      simp only [hs]
      rw [if_pos (show (sampleForm 300).RequestedAmount ≤ 1000 by norm_num [sampleForm])]
      rfl)
    true (by norm_num [sampleForm, FraudAmountMultiplier]) 300 float64_add_0_300]
  rfl

/-- Witness of the amended C12: scenario 1; member 7 is still the one row of
`members`, with the same name, flag and limit and `used_amount` the `float64`
sum of 0 and 300. -/
theorem SubmitClaim_updates_member_f64_witness :
    ∃ member : Member,
      (sampleStore 0 100).members.find? (fun m => m.ID == (sampleForm 300).MemberID)
        = some member ∧
      (F64.claimService.SubmitClaim Faults.none (sampleStore 0 100)
          (sampleForm 300)).1.members.find? (fun m => m.ID == (sampleForm 300).MemberID)
        = some { ID := member.ID, FullName := member.FullName, IsActive := member.IsActive,
                 BenefitLimit := member.BenefitLimit,
                 UsedAmount := Float64.add member.UsedAmount 300 } ∧
      (F64.claimService.SubmitClaim Faults.none (sampleStore 0 100) (sampleForm 300)).1.members =
        (sampleStore 0 100).members.map (fun m =>
          if m.ID = (sampleForm 300).MemberID then
            { member with UsedAmount := Float64.add member.UsedAmount 300 }
          else m) ∧
      (F64.claimService.SubmitClaim Faults.none (sampleStore 0 100)
          (sampleForm 300)).1.members.length
        = (sampleStore 0 100).members.length :=
  SubmitClaim_updates_member_f64 Faults.none (sampleStore 0 100) (sampleForm 300)
    { ClaimID := 1, Status := "APPROVED", FraudFlag := true, ApprovedAmount := 300,
      RejectionReason := "" }
    (by decide) (by rw [sample_approved_SubmitClaim_f64]) (Or.inl rfl)

/-- The `float64` values of the decimals 0.1, 0.2, 0.3 and 0.9. -/
theorem float64_of_tenths :
    Float64.round (1 / 10) = 3602879701896397 / 36028797018963968 ∧
    Float64.round (2 / 10) = 3602879701896397 / 18014398509481984 ∧
    Float64.round (3 / 10) = 5404319552844595 / 18014398509481984 ∧
    Float64.round (9 / 10) = 8106479329266893 / 9007199254740992 := by
  refine ⟨?_, ?_, ?_, ?_⟩
  · rw [Float64.round_of_near (-4) 7205759403792794 (by norm_num) (by norm_num) (by norm_num)
      (by rw [abs_lt]; constructor <;> norm_num)]
    norm_num
  · rw [Float64.round_of_near (-3) 7205759403792794 (by norm_num) (by norm_num) (by norm_num)
      (by rw [abs_lt]; constructor <;> norm_num)]
    norm_num
  · rw [Float64.round_of_near (-2) 5404319552844595 (by norm_num) (by norm_num) (by norm_num)
      (by rw [abs_lt]; constructor <;> norm_num)]
    norm_num
  · rw [Float64.round_of_near (-1) 8106479329266893 (by norm_num) (by norm_num) (by norm_num)
      (by rw [abs_lt]; constructor <;> norm_num)]
    norm_num

/-- The difference 1000 - 0.1 as the Go code computes it. -/
theorem float64_sub_1000_tenth :
    Float64.sub 1000 (3602879701896397 / 36028797018963968)
      = 8795213412905779 / 8796093022208 := by
  unfold Float64.sub
  rw [Float64.round_of_near 9 8795213412905779 (by norm_num) (by norm_num) (by norm_num)
    (by rw [abs_lt]; constructor <;> norm_num)]
  norm_num

/-- The sum 0.1 + 0.2 as the Go code computes it: 0.30000000000000004. -/
theorem float64_add_tenths :
    Float64.add (3602879701896397 / 36028797018963968) (3602879701896397 / 18014398509481984)
      = 1351079888211149 / 4503599627370496 := by
  unfold Float64.add
  rw [Float64.round_of_tie (-2) 5404319552844596 (by norm_num) (by norm_num) (by norm_num)
    (Or.inr (by norm_num)) (by norm_num)]
  norm_num

/-- C12 fails as stated, with the sum taken exactly: member 7 (limit 1000) has
used 0.1 and the request is 0.2 (the `float64` values of these decimals). The
outcome is `APPROVED` for the request, and the `used_amount` committed is
0.30000000000000004, the `float64` nearest to the sum, which is not the
previous `used_amount` plus the approved amount. -/
theorem used_amount_rounded_counterexample :
    Float64.round (1 / 10) = 3602879701896397 / 36028797018963968 ∧
    Float64.round (2 / 10) = 3602879701896397 / 18014398509481984 ∧
    F64.claimService.SubmitClaim Faults.none
        (ledgerStore 1000 (3602879701896397 / 36028797018963968))
        (sampleForm (3602879701896397 / 18014398509481984)) =
      ({ ledgerStore 1000 (1351079888211149 / 4503599627370496) with
          claims := [Claim.ofForm 1 (sampleForm (3602879701896397 / 18014398509481984))
            (3602879701896397 / 18014398509481984) "APPROVED" false ""],
          claimSeq := 2 },
        [TxCall.Begin, TxCall.Commit],
        some { ClaimID := 1, Status := "APPROVED", FraudFlag := false,
               ApprovedAmount := 3602879701896397 / 18014398509481984,
               RejectionReason := "" },
        none) ∧
    (1351079888211149 / 4503599627370496 : ℚ)
      ≠ 3602879701896397 / 36028797018963968 + 3602879701896397 / 18014398509481984 := by
  refine ⟨float64_of_tenths.1, float64_of_tenths.2.1, ?_, by norm_num⟩
  have hs : Float64.sub (1000 : ℚ) (3602879701896397 / 36028797018963968)
      = 8795213412905779 / 8796093022208 := float64_sub_1000_tenth
  rw [@SubmitClaim_funded_f64 (ledgerStore 1000 (3602879701896397 / 36028797018963968))
    (sampleForm (3602879701896397 / 18014398509481984))
    { ID := 7, FullName := "Amina", IsActive := true, BenefitLimit := 1000,
      UsedAmount := 3602879701896397 / 36028797018963968 }
    { ID := 1, Code := "P100", Description := "consultation", AverageCost := 100 }
    rfl rfl rfl (by simp only [hs]; norm_num) "APPROVED"
    (3602879701896397 / 18014398509481984) ""
    (by
      simp only [hs]
      rw [if_pos (show (sampleForm (3602879701896397 / 18014398509481984)).RequestedAmount
        ≤ 8795213412905779 / 8796093022208 by norm_num [sampleForm])]
      rfl)
    false (by norm_num [sampleForm, FraudAmountMultiplier])
    (1351079888211149 / 4503599627370496) float64_add_tenths]
  rfl

/-! ## The limit on `float64` amounts -/

/-- With whole amounts, `0 ≤ used ≤ limit ≤ 2^53` and a whole request above
zero, the two operations of the decision are exact: the amount decided is
whole and not negative, and the new `used_amount` is whole, within the limit,
and equal to the limit after `PARTIAL`. -/
theorem decided_whole_f64 {requested limit used : ℚ} {status : ClaimStatus}
    {approved : ℚ} {reason : String}
    (hl : Float64.Whole limit) (hu : used.den = 1) (hu0 : 0 ≤ used) (hle : used ≤ limit)
    (hr : requested.den = 1) (hr0 : 0 < requested)
    (hd : (if requested ≤ Float64.sub limit used then
          (("APPROVED", requested, "") : ClaimStatus × ℚ × String)
        else
          ("PARTIAL", Float64.sub limit used,
            "Requested amount exceeds remaining benefit; approved up to remaining limit."))
        = (status, approved, reason)) :
    Float64.add used approved = used + approved ∧ (used + approved).den = 1 ∧
      0 ≤ approved ∧ used + approved ≤ limit ∧
      (status = "PARTIAL" → used + approved = limit) := by
  have hl53 : limit ≤ 2 ^ 53 := (abs_le.mp hl.2).2
  have hsub : Float64.sub limit used = limit - used :=
    Float64.sub_of_whole hl.1 hu (by rw [abs_le]; constructor <;> linarith)
  rw [hsub] at hd
  obtain ⟨hwithin, hpartial⟩ := decided_within_limit hd
  have hden : approved.den = 1 := by
    rcases decided_cases hd with ⟨_, _, ha, _⟩ | ⟨_, _, ha, _⟩
    · rw [ha]; exact hr
    · rw [ha, ← hsub]
      have h1 : ((limit.num : ℤ) : ℚ) = limit := (Rat.den_eq_one_iff limit).mp hl.1
      have h2 : ((used.num : ℤ) : ℚ) = used := (Rat.den_eq_one_iff used).mp hu
      rw [hsub, ← h1, ← h2, ← Int.cast_sub]
      exact Rat.den_intCast _
  have h0 : 0 ≤ approved := by
    rcases decided_cases hd with ⟨_, _, ha, _⟩ | ⟨_, _, ha, _⟩
    · rw [ha]; exact le_of_lt hr0
    · rw [ha]; linarith
  have hsumden : (used + approved).den = 1 := by
    have h1 : ((used.num : ℤ) : ℚ) = used := (Rat.den_eq_one_iff used).mp hu
    have h2 : ((approved.num : ℤ) : ℚ) = approved := (Rat.den_eq_one_iff approved).mp hden
    rw [← h1, ← h2, ← Int.cast_add]
    exact Rat.den_intCast _
  refine ⟨?_, hsumden, h0, hwithin, hpartial⟩
  exact Float64.add_of_whole hu hden (by rw [abs_le]; constructor <;> linarith)

/-- The ledger of member `id ≠ 0` over one call of `SubmitClaim`, for whole
amounts: the row found for `id` keeps its limit, its `used_amount` stays whole
and between zero and the limit, and it grows by exactly what the call added to
the approved total of the member's claims. -/
theorem SubmitClaim_ledger_f64 (fl : Faults) (db : Store) (form : ClaimSubmissionForm)
    (id : Int) (member : Member) (hnz : id ≠ 0)
    (hfind : db.members.find? (fun m => m.ID == id) = some member)
    (hl : Float64.Whole member.BenefitLimit) (hu : member.UsedAmount.den = 1)
    (hu0 : 0 ≤ member.UsedAmount) (hle : member.UsedAmount ≤ member.BenefitLimit)
    (hreq : form.MemberID = id → form.RequestedAmount.den = 1 ∧ 0 < form.RequestedAmount) :
    ∃ member1 : Member,
      (F64.claimService.SubmitClaim fl db form).1.members.find? (fun m => m.ID == id)
        = some member1 ∧
      member1.BenefitLimit = member.BenefitLimit ∧
      member1.UsedAmount.den = 1 ∧ 0 ≤ member1.UsedAmount ∧
      member1.UsedAmount ≤ member1.BenefitLimit ∧
      approvedTotal id (F64.claimService.SubmitClaim fl db form).1.claims - member1.UsedAmount
        = approvedTotal id db.claims - member.UsedAmount := by
  rcases SubmitClaim_cases_f64 fl db form with
    ⟨calls, err, h, _⟩ | ⟨reason, fraudFlag, h⟩ |
    ⟨found, procedure, status, approved, reason, db1, hfound, _, _, hd, hmem, _, hclaims, h⟩
  · rw [h]
    exact ⟨member, hfind, rfl, hu, hu0, hle, rfl⟩
  · rw [h]
    refine ⟨member, hfind, rfl, hu, hu0, hle, ?_⟩
    show approvedTotal id (db.claims ++ _) - _ = _
    rw [approvedTotal_append]
    simp [Claim.ofForm]
  · rw [h]
    show ∃ member1 : Member, db1.members.find? _ = some member1 ∧ _ ∧ _ ∧ _ ∧ _ ∧
      approvedTotal id db1.claims - _ = _
    rw [hmem, hclaims, approvedTotal_append]
    have hfid : found.ID = form.MemberID := find_member_ID hfound
    by_cases hsame : form.MemberID = id
    · have hfm : found = member := by
        rw [hsame] at hfound
        rw [hfound] at hfind
        exact Option.some.inj hfind
      subst hfm
      obtain ⟨hadd, hden, h0, hwithin, _⟩ :=
        decided_whole_f64 hl hu hu0 hle (hreq hsame).1 (hreq hsame).2 hd
      rw [hadd]
      refine ⟨{ found with UsedAmount := found.UsedAmount + approved }, ?_, rfl, hden,
        by show 0 ≤ found.UsedAmount + approved; linarith, hwithin, ?_⟩
      · exact find_after_write_same { view := db, writes := [] } _ found id hfind
          (hfid.trans hsame) hnz
      · simp only [Claim.ofForm, hsame, if_true]
        ring
    · refine ⟨member, ?_, rfl, hu, hu0, hle, ?_⟩
      · exact find_after_write_other { view := db, writes := [] } _ member id hfind
          (by rw [show ({ found with
              UsedAmount := Float64.add found.UsedAmount approved } : Member).ID
            = found.ID from rfl, hfid]; exact hsame)
      · simp [Claim.ofForm, hsame]

/-- A call of `SubmitClaim` only appends to `claims`. -/
theorem SubmitClaim_claims_append_f64 (fl : Faults) (db : Store) (form : ClaimSubmissionForm) :
    ∃ added : List Claim,
      (F64.claimService.SubmitClaim fl db form).1.claims = db.claims ++ added := by
  rcases SubmitClaim_cases_f64 fl db form with
    ⟨calls, err, h, _⟩ | ⟨reason, fraudFlag, h⟩ |
    ⟨_, _, _, _, _, db1, _, _, _, _, _, _, hclaims, h⟩
  · exact ⟨[], by rw [h, List.append_nil]⟩
  · exact ⟨_, by rw [h]⟩
  · exact ⟨_, by rw [h]; exact hclaims⟩

/-- Calls in a row only append to `claims`. -/
theorem serialRun_claims_append_f64 (calls : List (Faults × ClaimSubmissionForm)) :
    ∀ db : Store, ∃ added : List Claim, (F64.serialRun db calls).claims = db.claims ++ added := by
  induction calls with
  | nil => exact fun db => ⟨[], (List.append_nil _).symm⟩
  | cons call calls ih =>
    intro db
    obtain ⟨fl, form⟩ := call
    obtain ⟨a1, h1⟩ := SubmitClaim_claims_append_f64 fl db form
    obtain ⟨a2, h2⟩ := ih (F64.claimService.SubmitClaim fl db form).1
    exact ⟨a1 ++ a2, by
      show (F64.serialRun (F64.claimService.SubmitClaim fl db form).1 calls).claims = _
      rw [h2, h1, List.append_assoc]⟩

/-- Calls in a row, with whole amounts, keep the ledger of member `id ≠ 0` in
step with its claims and within its limit. -/
theorem serialRun_ledger_f64 (calls : List (Faults × ClaimSubmissionForm)) (id : Int)
    (hnz : id ≠ 0) :
    ∀ (db : Store) (member : Member),
      db.members.find? (fun m => m.ID == id) = some member →
      Float64.Whole member.BenefitLimit → member.UsedAmount.den = 1 →
      0 ≤ member.UsedAmount → member.UsedAmount ≤ member.BenefitLimit →
      (∀ call ∈ calls, call.2.MemberID = id →
        call.2.RequestedAmount.den = 1 ∧ 0 < call.2.RequestedAmount) →
      ∃ member1 : Member,
        (F64.serialRun db calls).members.find? (fun m => m.ID == id) = some member1 ∧
        member1.BenefitLimit = member.BenefitLimit ∧
        member1.UsedAmount ≤ member1.BenefitLimit ∧
        approvedTotal id (F64.serialRun db calls).claims - member1.UsedAmount
          = approvedTotal id db.claims - member.UsedAmount := by
  induction calls with
  | nil => exact fun db member hfind _ _ _ hle _ => ⟨member, hfind, rfl, hle, rfl⟩
  | cons call calls ih =>
    intro db member hfind hl hu hu0 hle hreq
    obtain ⟨fl, form⟩ := call
    obtain ⟨m1, hf1, hl1, hu1, hu01, hle1, ht1⟩ :=
      SubmitClaim_ledger_f64 fl db form id member hnz hfind hl hu hu0 hle
        (hreq (fl, form) (List.mem_cons_self _ _))
    obtain ⟨m2, hf2, hl2, hle2, ht2⟩ := ih (F64.claimService.SubmitClaim fl db form).1 m1 hf1
      (by rw [hl1]; exact hl) hu1 hu01 hle1
      (fun call hc => hreq call (List.mem_cons_of_mem _ hc))
    exact ⟨m2, hf2, hl2.trans hl1, hle2, ht2.trans ht1⟩

/-- C5 as the code has it: when the calls of `SubmitClaim` run one after
another (each returns before the next begins), then for a member with
identifier not zero, `used_amount = 0` and a whole `benefit_limit = B` with
`0 ≤ B ≤ 2^53`, and with whole requested amounts above zero for that member,
the approved amounts of the claims committed for the member since then add up
to at most `B`, whichever calls fail and whatever the submissions for other
members. -/
theorem serial_approved_within_limit_f64 (db : Store)
    (calls : List (Faults × ClaimSubmissionForm))
    (id : Int) (member : Member) (hnz : id ≠ 0)
    (hfind : db.members.find? (fun m => m.ID == id) = some member)
    (hused : member.UsedAmount = 0) (hwhole : Float64.Whole member.BenefitLimit)
    (hlimit : 0 ≤ member.BenefitLimit)
    (hreq : ∀ call ∈ calls, call.2.MemberID = id →
      call.2.RequestedAmount.den = 1 ∧ 0 < call.2.RequestedAmount) :
    approvedTotal id (F64.serialRun db calls).claims
      ≤ approvedTotal id db.claims + member.BenefitLimit := by
  obtain ⟨m1, _, hl, hi, ht⟩ := serialRun_ledger_f64 calls id hnz db member hfind hwhole
    (by rw [hused]; rfl) (by rw [hused]) (by rw [hused]; exact hlimit) hreq
  rw [hused] at ht
  rw [hl] at hi
  linarith

/-- Witness of the amended C5: two calls for 600 in a row against member 7
(limit 1000, used 0, no claim yet) commit claims of at most 1000 in all. -/
theorem serial_approved_within_limit_f64_witness :
    approvedTotal 7 (F64.serialRun (sampleStore 0 1000)
        [(Faults.none, sampleForm 600), (Faults.none, sampleForm 600)]).claims
      ≤ approvedTotal 7 (sampleStore 0 1000).claims + 1000 :=
  serial_approved_within_limit_f64 (sampleStore 0 1000)
    [(Faults.none, sampleForm 600), (Faults.none, sampleForm 600)] 7
    { ID := 7, FullName := "Amina", IsActive := true, BenefitLimit := 1000, UsedAmount := 0 }
    (by decide) rfl rfl ⟨by norm_num, by norm_num⟩ (by norm_num)
    (by
      intro call hc _
      simp only [List.mem_cons, List.mem_singleton, List.not_mem_nil, or_false] at hc
      rcases hc with rfl | rfl <;> norm_num [sampleForm])

/-- C15 as the code has it: for every finite sequence of calls of `SubmitClaim`
run one after another (each returns before the next begins), whichever of them
fail, and for a member with identifier not zero that starts at `used_amount =
0` with a whole `benefit_limit = B`, `0 ≤ B ≤ 2^53`, the requested amounts for
that member being whole and above zero: the claims persisted by the sequence
are appended to `claims`, the approved amounts of those of the member add up
to the member's final `used_amount`, and that sum is at most `B`. -/
theorem serial_used_is_approved_total_f64 (db : Store)
    (calls : List (Faults × ClaimSubmissionForm)) (id : Int) (member : Member)
    (hnz : id ≠ 0)
    (hfind : db.members.find? (fun m => m.ID == id) = some member)
    (hused : member.UsedAmount = 0) (hwhole : Float64.Whole member.BenefitLimit)
    (hlimit : 0 ≤ member.BenefitLimit)
    (hreq : ∀ call ∈ calls, call.2.MemberID = id →
      call.2.RequestedAmount.den = 1 ∧ 0 < call.2.RequestedAmount) :
    ∃ (member1 : Member) (added : List Claim),
      (F64.serialRun db calls).members.find? (fun m => m.ID == id) = some member1 ∧
      (F64.serialRun db calls).claims = db.claims ++ added ∧
      approvedTotal id added = member1.UsedAmount ∧
      approvedTotal id added ≤ member.BenefitLimit := by
  obtain ⟨m1, hf, hl, hi, ht⟩ := serialRun_ledger_f64 calls id hnz db member hfind hwhole
    (by rw [hused]; rfl) (by rw [hused]) (by rw [hused]; exact hlimit) hreq
  obtain ⟨added, ha⟩ := serialRun_claims_append_f64 calls db
  have hsum : approvedTotal id added = m1.UsedAmount := by
    rw [ha, approvedTotal_append_list, hused] at ht
    linarith
  refine ⟨m1, added, hf, ha, hsum, ?_⟩
  rw [hsum, ← hl]
  exact hi

/-- Witness of the amended C15: three calls for 600, 600 and 50 in a row
against member 7 (limit 1000, used 0); the member's claims add up to its final
`used_amount`, within the limit 1000. -/
theorem serial_used_is_approved_total_f64_witness :
    ∃ (member1 : Member) (added : List Claim),
      (F64.serialRun (sampleStore 0 1000)
          [(Faults.none, sampleForm 600), (Faults.none, sampleForm 600),
            (Faults.none, sampleForm 50)]).members.find?
          (fun m => m.ID == 7) = some member1 ∧
      (F64.serialRun (sampleStore 0 1000)
          [(Faults.none, sampleForm 600), (Faults.none, sampleForm 600),
            (Faults.none, sampleForm 50)]).claims
        = (sampleStore 0 1000).claims ++ added ∧
      approvedTotal 7 added = member1.UsedAmount ∧
      approvedTotal 7 added ≤ 1000 :=
  serial_used_is_approved_total_f64 (sampleStore 0 1000)
    [(Faults.none, sampleForm 600), (Faults.none, sampleForm 600),
      (Faults.none, sampleForm 50)] 7
    { ID := 7, FullName := "Amina", IsActive := true, BenefitLimit := 1000, UsedAmount := 0 }
    (by decide) rfl rfl ⟨by norm_num, by norm_num⟩ (by norm_num)
    (by
      intro call hc _
      simp only [List.mem_cons, List.mem_singleton, List.not_mem_nil, or_false] at hc
      rcases hc with rfl | rfl | rfl <;> norm_num [sampleForm])

/-- The operations of two calls for 1 and for `10^16` against a limit of
`10^16`, as the Go code computes them. -/
theorem float64_big_eval :
    Float64.sub 10000000000000000 0 = 10000000000000000 ∧
    Float64.add 0 1 = 1 ∧
    Float64.sub 10000000000000000 1 = 10000000000000000 ∧
    Float64.add 1 10000000000000000 = 10000000000000000 := by
  refine ⟨?_, ?_, ?_, ?_⟩
  · unfold Float64.sub
    rw [Float64.round_of_near 53 5000000000000000 (by norm_num) (by norm_num) (by norm_num)
      (by rw [abs_lt]; constructor <;> norm_num)]
    norm_num
  · rw [Float64.add_of_whole (by norm_num) (by norm_num) (by norm_num)]
    norm_num
  · unfold Float64.sub
    rw [Float64.round_of_tie 53 5000000000000000 (by norm_num) (by norm_num) (by norm_num)
      (Or.inr (by norm_num)) (by norm_num)]
    norm_num
  · unfold Float64.add
    rw [Float64.round_of_tie 53 5000000000000000 (by norm_num) (by norm_num) (by norm_num)
      (Or.inl (by norm_num)) (by norm_num)]
    norm_num

/-- The first call: 1 against a limit of `10^16`, nothing used. -/
theorem big_first_SubmitClaim_f64 :
    F64.claimService.SubmitClaim Faults.none (ledgerStore 10000000000000000 0) (sampleForm 1) =
      ({ ledgerStore 10000000000000000 1 with
          claims := [Claim.ofForm 1 (sampleForm 1) 1 "APPROVED" false ""],
          claimSeq := 2 },
        [TxCall.Begin, TxCall.Commit],
        some { ClaimID := 1, Status := "APPROVED", FraudFlag := false, ApprovedAmount := 1,
               RejectionReason := "" },
        none) := by
  have hs : Float64.sub (10000000000000000 : ℚ) 0 = 10000000000000000 := float64_big_eval.1
  rw [@SubmitClaim_funded_f64 (ledgerStore 10000000000000000 0) (sampleForm 1)
    { ID := 7, FullName := "Amina", IsActive := true, BenefitLimit := 10000000000000000,
      UsedAmount := 0 }
    { ID := 1, Code := "P100", Description := "consultation", AverageCost := 100 }
    rfl rfl rfl (by simp only [hs]; norm_num) "APPROVED" 1 ""
    (by
      simp only [hs]
      rw [if_pos (show (sampleForm 1).RequestedAmount ≤ 10000000000000000 by
        norm_num [sampleForm])]
      rfl)
    false (by norm_num [sampleForm, FraudAmountMultiplier]) 1 float64_big_eval.2.1]
  rfl

/-- The second call: `10^16` against a limit of `10^16`, 1 used. -/
theorem big_second_SubmitClaim_f64 :
    F64.claimService.SubmitClaim Faults.none
        { ledgerStore 10000000000000000 1 with
          claims := [Claim.ofForm 1 (sampleForm 1) 1 "APPROVED" false ""],
          claimSeq := 2 }
        (sampleForm 10000000000000000) =
      ({ ledgerStore 10000000000000000 10000000000000000 with
          claims := [Claim.ofForm 1 (sampleForm 1) 1 "APPROVED" false "",
            Claim.ofForm 2 (sampleForm 10000000000000000) 10000000000000000 "APPROVED" true
              ""],
          claimSeq := 3 },
        [TxCall.Begin, TxCall.Commit],
        some { ClaimID := 2, Status := "APPROVED", FraudFlag := true,
               ApprovedAmount := 10000000000000000, RejectionReason := "" },
        none) := by
  have hs : Float64.sub (10000000000000000 : ℚ) 1 = 10000000000000000 :=
    float64_big_eval.2.2.1
  rw [@SubmitClaim_funded_f64
    { ledgerStore 10000000000000000 1 with
      claims := [Claim.ofForm 1 (sampleForm 1) 1 "APPROVED" false ""],
      claimSeq := 2 }
    (sampleForm 10000000000000000)
    { ID := 7, FullName := "Amina", IsActive := true, BenefitLimit := 10000000000000000,
      UsedAmount := 1 }
    { ID := 1, Code := "P100", Description := "consultation", AverageCost := 100 }
    rfl rfl rfl (by simp only [hs]; norm_num) "APPROVED" 10000000000000000 ""
    (by
      simp only [hs]
      rw [if_pos (show (sampleForm 10000000000000000).RequestedAmount ≤ 10000000000000000
        from le_refl _)]
      rfl)
    true (by norm_num [sampleForm, FraudAmountMultiplier]) 10000000000000000
    float64_big_eval.2.2.2]
  rfl

/-- C15 fails as stated: member 7 has limit `10^16` and has used 0, and two
calls in a row request 1 and `10^16`. The first is `APPROVED` for 1. For the
second the Go code computes `remaining = 10^16 - 1` as `10^16`, so it is
`APPROVED` for `10^16`, and computes the new `used_amount = 1 + 10^16` as
`10^16`. The approved amounts add up to `10^16 + 1`, which is not the final
`used_amount` and is above the limit. -/
theorem serial_total_exceeds_counterexample :
    F64.serialRun (ledgerStore 10000000000000000 0)
        [(Faults.none, sampleForm 1), (Faults.none, sampleForm 10000000000000000)] =
      { ledgerStore 10000000000000000 10000000000000000 with
        claims := [Claim.ofForm 1 (sampleForm 1) 1 "APPROVED" false "",
          Claim.ofForm 2 (sampleForm 10000000000000000) 10000000000000000 "APPROVED" true ""],
        claimSeq := 3 } ∧
    approvedTotal 7 (F64.serialRun (ledgerStore 10000000000000000 0)
        [(Faults.none, sampleForm 1), (Faults.none, sampleForm 10000000000000000)]).claims
      = 10000000000000001 ∧
    (10000000000000001 : ℚ) ≠ 10000000000000000 ∧
    (10000000000000000 : ℚ) < 10000000000000001 := by
  have hrun : F64.serialRun (ledgerStore 10000000000000000 0)
        [(Faults.none, sampleForm 1), (Faults.none, sampleForm 10000000000000000)] =
      { ledgerStore 10000000000000000 10000000000000000 with
        claims := [Claim.ofForm 1 (sampleForm 1) 1 "APPROVED" false "",
          Claim.ofForm 2 (sampleForm 10000000000000000) 10000000000000000 "APPROVED" true ""],
        claimSeq := 3 } := by
    rw [F64.serialRun, big_first_SubmitClaim_f64]
    simp only []
    rw [F64.serialRun, big_second_SubmitClaim_f64, F64.serialRun]
  refine ⟨hrun, ?_, by norm_num, by norm_num⟩
  rw [hrun]
  norm_num [approvedTotal, Claim.ofForm, sampleForm]

end Ginja
